import Mathlib

/-!
# Equipment display/control software: table model and main window

A shallow embedding of the application's own code:

* `src/src/models/elements.h`   : the record structs and `ElementType`;
* `src/src/models/tablemodel.cpp` : `TableModel` (`init_text_data`, `add_data`,
  `view_data`, `set_head_data`, `rowCount`, `columnCount`);
* `src/src/views/widget.cpp`, `src/src/views/mainwindow.cpp` : the widgets, the map
  canvas set-up and the start-up data.

Conventions.  A C++ `int` is an `Int`; a `double` is a `Double` (a rational, an
infinity or a NaN; no arithmetic is ever done on one); a `QString` is a `String`; a
Qt container is a `List`; a call whose behaviour Qt or C++ leaves undefined
(`QList::at` outside the list, a null pointer dereference, a `void *` cast to the
wrong struct) makes the embedded function return `none`.
-/

namespace EquipDisplay

/-! ## Qt value types -/

/-- A C++ `double`: only stored, displayed and (once) converted to `int`. -/
inductive Double where
  | finite (q : Rat)
  | posInf
  | negInf
  | nan
  deriving DecidableEq, Repr

/-- Implicit conversion `int -> double`, as in `workpat->end_yaw = 10`. -/
def Double.ofInt (i : Int) : Double := Double.finite i

/-- Implicit conversion `double -> int` (tablemodel.cpp:240, `at(data->status)`):
truncation toward zero; undefined when the truncated value is no `int`. -/
def Double.toInt : Double → Option Int
  | Double.finite q =>
    let t := Int.tdiv q.num q.den
    if -2147483648 ≤ t ∧ t ≤ 2147483647 then some t else none
  | _ => none

/-- A `QVariant`, restricted to the payloads this program stores in one. -/
inductive QVariant where
  | invalid
  | int (v : Int)
  | double (v : Double)
  | string (v : String)
  | list (l : List QVariant)
  deriving Repr

/-- The `QVariantList` typedef. -/
abbrev QVariantList := List QVariant

/-- Embeds `QVariant::toList()`: the stored list, an empty list for every other payload. -/
def QVariant.toList : QVariant → QVariantList
  | QVariant.list l => l
  | _ => []

/-- Embeds `QList<T>::at(int i)`: defined only for `0 <= i < size()`. -/
def QList.at {α : Type} (l : List α) (i : Int) : Option α :=
  if 0 ≤ i then l.get? i.toNat else none

/-- The loop of `QString::split(QChar sep)`: `cur` is the part being read, reversed. -/
def QString.splitAux (sep : Char) : List Char → List Char → List (List Char)
  | [], cur => [cur.reverse]
  | c :: cs, cur =>
    if c = sep then cur.reverse :: QString.splitAux sep cs []
    else QString.splitAux sep cs (c :: cur)

/-- Embeds `QString::split(QChar sep)`, empty parts kept. -/
def QString.split (s : String) (sep : Char) : List String :=
  (QString.splitAux sep s.data []).map String.mk

/-! ## QMap -/

/-- Key order of a `QMap` (it iterates in ascending key order). -/
class QMapKey (κ : Type) where
  lt : κ → κ → Bool

/-- Lexicographic order on code point lists. -/
def codesLt : List Nat → List Nat → Bool
  | [], [] => false
  | [], _ :: _ => true
  | _ :: _, [] => false
  | a :: as, b :: bs => if a < b then true else if b < a then false else codesLt as bs

instance : QMapKey Int := ⟨fun a b => decide (a < b)⟩

instance : QMapKey String :=
  ⟨fun a b => codesLt (a.data.map Char.toNat) (b.data.map Char.toNat)⟩

/-- A `QMap<K, V>`: its entries in ascending key order. -/
abbrev QMap (κ : Type) (α : Type) := List (κ × α)

/-- Embeds `QMap::insert`: replaces the value of an existing key. -/
def QMap.insert {κ α : Type} [DecidableEq κ] [QMapKey κ]
    (m : QMap κ α) (k : κ) (v : α) : QMap κ α :=
  match m with
  | [] => [(k, v)]
  | (k', v') :: rest =>
    if QMapKey.lt k k' then (k, v) :: (k', v') :: rest
    else if k = k' then (k, v) :: rest
    else (k', v') :: QMap.insert rest k v

/-- Embeds `QMap::find` / `operator[]` on a present key; `none` is `end()`. -/
def QMap.find {κ α : Type} [DecidableEq κ] (m : QMap κ α) (k : κ) : Option α :=
  match m with
  | [] => none
  | (k', v') :: rest => if k = k' then some v' else QMap.find rest k

/-- Embeds `QMap::contains`. -/
def QMap.contains {κ α : Type} [DecidableEq κ] (m : QMap κ α) (k : κ) : Bool :=
  (QMap.find m k).isSome

/-- Embeds `QMap::keys`. -/
def QMap.keys {κ α : Type} (m : QMap κ α) : List κ := m.map Prod.fst

/-! ## elements.h -/

structure SystemState where
  power_off : Int
  control_state : Int
  scanning_mode : Int
  antenna_eleva_angle : Double
  beam_eleva_angle : Double
  eccm_measures : Int
  clutter_map : String
  emi_intensity : Double
  time_alloca_state : Double
  track_data_rate : Double
  deriving DecidableEq, Repr

structure WorkPattern where
  id : Int
  start_yaw : Double
  end_yaw : Double
  deriving DecidableEq, Repr

structure RadiationState where
  equipment_id : Int
  radiation_state : Int
  deriving DecidableEq, Repr

structure WorkFrequency where
  id : Int
  frequency_point : Double
  deriving DecidableEq, Repr

structure DisturbDirection where
  id : Int
  eleva_angle : Double
  pitch : Double
  power : Double
  deriving DecidableEq, Repr

structure RegionOfSearch where
  max_lon : Double
  min_lon : Double
  max_lat : Double
  min_lat : Double
  deriving DecidableEq, Repr

structure ChainOfCommand where
  work_state : Int
  war_preparedness_lv : Int
  equip_state : Int
  combat_permissions : Int
  command_mode : Int
  deriving DecidableEq, Repr

structure PhotoelectricityEquipment where
  id : Int
  lon : Double
  lat : Double
  alt : Double
  elevation_angle : Double
  pitch_angle : Double
  trace_status : Int
  deriving DecidableEq, Repr

structure DescriptionOfInterceptorWeapon where
  status : Double
  war_readiness_lv : Int
  operational_authority : Int
  command_mode : Int
  app_mode : Int
  run_status : Int
  deriving DecidableEq, Repr

structure GuidanceRadar where
  id : Int
  res_occu_rate : Double
  deriving DecidableEq, Repr

structure GBIResources where
  id : Int
  bullet_quantity : Double
  deriving DecidableEq, Repr

structure FirepowerUnit where
  lon : Int
  command_mode : Int
  oper_task : Int
  inter_ception_mode : Int
  frequency_point_id : Int
  sector_central_angle : Double
  deriving DecidableEq, Repr

structure FirepowerUnitAisle where
  unit_id : Int
  target_id : Int
  status : Int
  deriving DecidableEq, Repr

/-- An `ElementType` value, as the `int` the code compares and uses as a map key. -/
abbrev ElementType := Int

abbrev SYSTEM_STATE : ElementType := 0
abbrev WORK_PATTERN : ElementType := 1
abbrev RADIATION_STATE : ElementType := 2
abbrev WORK_FREQUENCY : ElementType := 3
abbrev DISTURB_DIRECTION : ElementType := 4
abbrev REGION_OF_SEARCH : ElementType := 5
abbrev CHAIN_OF_COMMAND : ElementType := 6
abbrev PHOTOELECTRICITY_EQUIPMENT : ElementType := 7
abbrev DESCRIPTION_OF_INTERCEPTOR_WEAPON : ElementType := 8
abbrev GBI_RESOURCES : ElementType := 9
abbrev GUIDANCE_RADAR : ElementType := 10
abbrev FIREPOWER_UNIT : ElementType := 11
abbrev FIREPOWER_UNIT_AISLE : ElementType := 12

/-- What the `void *pdata` argument of `add_data` points to. -/
inductive Record where
  | systemState (d : SystemState)
  | workPattern (d : WorkPattern)
  | radiationState (d : RadiationState)
  | workFrequency (d : WorkFrequency)
  | disturbDirection (d : DisturbDirection)
  | regionOfSearch (d : RegionOfSearch)
  | chainOfCommand (d : ChainOfCommand)
  | photoelectricityEquipment (d : PhotoelectricityEquipment)
  | descriptionOfInterceptorWeapon (d : DescriptionOfInterceptorWeapon)
  | gbiResources (d : GBIResources)
  | guidanceRadar (d : GuidanceRadar)
  | firepowerUnit (d : FirepowerUnit)
  | firepowerUnitAisle (d : FirepowerUnitAisle)
  deriving DecidableEq, Repr

/-- The `ElementType` under which a record of each struct is passed to `add_data`. -/
def Record.type : Record → ElementType
  | .systemState _ => SYSTEM_STATE
  | .workPattern _ => WORK_PATTERN
  | .radiationState _ => RADIATION_STATE
  | .workFrequency _ => WORK_FREQUENCY
  | .disturbDirection _ => DISTURB_DIRECTION
  | .regionOfSearch _ => REGION_OF_SEARCH
  | .chainOfCommand _ => CHAIN_OF_COMMAND
  | .photoelectricityEquipment _ => PHOTOELECTRICITY_EQUIPMENT
  | .descriptionOfInterceptorWeapon _ => DESCRIPTION_OF_INTERCEPTOR_WEAPON
  | .gbiResources _ => GBI_RESOURCES
  | .guidanceRadar _ => GUIDANCE_RADAR
  | .firepowerUnit _ => FIREPOWER_UNIT
  | .firepowerUnitAisle _ => FIREPOWER_UNIT_AISLE

/-! ## tablemodel.h / tablemodel.cpp -/

/-- The `HeadLocal` argument of `set_head_data`, as an `int` (tablemodel.h:9). -/
abbrev HeadLocal := Int

abbrev VERTICAL_HEAD : HeadLocal := 0
abbrev HORIZONTAL_HEAD : HeadLocal := 1

/-- The members of `TableModel` (tablemodel.h:33-38).  A `QStringList *` that is
never written through is held by value; `map_variants_` doubles as the heap of the
`QVariant`s it owns, a `QVariant *` into it being its key. -/
structure TableModel where
  data_ : List (List QVariant)
  map_headnames_ : QMap Int (List String)
  map_variants_ : QMap Int QVariant
  map_para_choose_ : QMap String (List String)
  phor_head_data_ : Option (List String)
  pver_head_data_ : Option (List String)
  deriving Repr

/-- The members before the constructor body runs. -/
def TableModel.members : TableModel :=
  { data_ := [], map_headnames_ := [], map_variants_ := [], map_para_choose_ := [],
    phor_head_data_ := none, pver_head_data_ := none }

/-- Part 1 of `init_text_data` (tablemodel.cpp:450-549): the header lists. -/
def init_headnames : QMap Int (List String) :=
  let m : QMap Int (List String) := []
  let m := QMap.insert m SYSTEM_STATE
    ["开关机:", "受控状态:", "天线扫描方式:", "天线机械俯仰角:", "波束起始扫描仰角:",
     "抗干扰措施:", "杂波图:", "电磁干扰强度:", "时间资源分配状态:", "跟踪数据率:"]
  let m := QMap.insert m WORK_PATTERN ["编号", "起始方位", "结束方位"]
  let m := QMap.insert m RADIATION_STATE ["设备名称", "状态"]
  let m := QMap.insert m WORK_FREQUENCY ["编号", "频点"]
  let m := QMap.insert m DISTURB_DIRECTION ["编号", "俯仰角", "偏航角", "功率"]
  let m := QMap.insert m CHAIN_OF_COMMAND
    ["系统工作状态:", "战备值班等级:", "装备状态:", "作战权限:", "指挥方式:"]
  let m := QMap.insert m PHOTOELECTRICITY_EQUIPMENT
    ["编号:", "经度:", "维度:", "高度:", "光学中心指向(俯仰角):", "光学中心指向(偏航角):",
     "搜索跟踪状态:"]
  let m := QMap.insert m DESCRIPTION_OF_INTERCEPTOR_WEAPON
    ["工作状态:", "战备值班等级:", "作战权限:", "指挥方式:", "传感器应用方式:", "系统运行状态:",
     "传感器资源占用百分比:"]
  let m := QMap.insert m GBI_RESOURCES ["发射车id", "可用弹量"]
  let m := QMap.insert m GUIDANCE_RADAR ["编号", "传感器资源占用百分比"]
  let m := QMap.insert m FIREPOWER_UNIT
    ["工作方式:", "指挥方式:", "作战任务:", "拦截方式:", "频点号:", "责任扇区中心角:"]
  let m := QMap.insert m FIREPOWER_UNIT_AISLE ["火力单元编号", "跟踪目标编号", "状态"]
  m

/-- Part 2 of `init_text_data` (tablemodel.cpp:553-620): the label tables of the
coded fields. -/
def init_para_choose : QMap String (List String) :=
  let m : QMap String (List String) := []
  let m := QMap.insert m "power_off" ["开机", "待机", "关机"]
  let m := QMap.insert m "control_status" ["本控", "遥控", "其他"]
  let m := QMap.insert m "radiation_state" ["辐射", "静默", "闪烁"]
  let m := QMap.insert m "scanning_mode" ["圆圈顺时针", "圆圈逆时针", "扇扫", "驻留"]
  let m := QMap.insert m "work_state" ["作战", "训练", "试验", "值班"]
  let m := QMap.insert m "equip_statu" ["正常", "降级", "故障"]
  let m := QMap.insert m "combat_permissions" ["允许自主射击", "人工射击"]
  let m := QMap.insert m "command_mode" ["按级", "越级", "接替"]
  let m := QMap.insert m "trace_status" ["手动", "引导", "闭环"]
  let m := QMap.insert m "inter_ception_mode" ["人工", "自动"]
  let m := QMap.insert m "firepower_status" ["无效", "空闲", "占用", "拦截", "已拦"]
  m

/-- Embeds `TableModel::init_text_data` (tablemodel.cpp:447-622); it always returns true. -/
def init_text_data (m : TableModel) : Bool × TableModel :=
  (true, { m with map_headnames_ := init_headnames, map_para_choose_ := init_para_choose })

/-- The constructor `TableModel::TableModel` (tablemodel.cpp:3-5): the process exits
when `init_text_data` fails (`none`), which it never does. -/
def TableModel.new : Option TableModel :=
  let r := init_text_data TableModel.members
  if !r.1 then none else some r.2

/-- The body of the constructor's result, `init_text_data` having succeeded. -/
def TableModel.fresh : TableModel := (init_text_data TableModel.members).2

/-- The `STRING_PUSH(var)` macro (tablemodel.cpp:23-28) on the locals `(val0, val1)`:
`val0.append(var); val1.push_back(val0); val0.clear();`. -/
def STRING_PUSH (vals : QVariantList × QVariantList) (var : QVariant) :
    QVariantList × QVariantList :=
  let val0 := vals.1 ++ [var]
  let val1 := vals.2 ++ [QVariant.list val0]
  ([], val1)

/-- The value a coded field contributes, the pattern repeated for each of them
(e.g. tablemodel.cpp:38-43):
`if (map_para_choose_.contains(key)) var.value()->at(i) else ""`.
The `at` is unchecked, so the result is undefined outside the table. -/
def para_choose (m : TableModel) (key : String) (i : Int) : Option QVariant :=
  if QMap.contains m.map_para_choose_ key then
    match QMap.find m.map_para_choose_ key with
    | some sl => (QList.at sl i).map QVariant.string
    | none => none
  else some (QVariant.string "")

/-- The `pvar` set-up repeated in each case (e.g. tablemodel.cpp:70-75): a new,
invalid `QVariant` is registered under `type` unless one is there already; the
pointer returned is the key. -/
def variant_slot (m : TableModel) (type : ElementType) : TableModel × Option Int :=
  if !QMap.contains m.map_variants_ type then
    ({ m with map_variants_ := QMap.insert m.map_variants_ type QVariant.invalid }, some type)
  else (m, some type)

/-- The call `pvar->setValue(val1)`; a null `pvar` is dereferenced. -/
def setValue (m : TableModel) (pvar : Option Int) (val1 : QVariantList) : Option TableModel :=
  match pvar with
  | none => none
  | some k =>
    if QMap.contains m.map_variants_ k then
      some { m with map_variants_ := QMap.insert m.map_variants_ k (QVariant.list val1) }
    else none

/-- Embeds `TableModel::view_data` (tablemodel.cpp:435-445); `pother_data` is dereferenced
without a null check. -/
def view_data (m : TableModel) (pother_data : Option Int) : Option (Bool × TableModel) :=
  match pother_data with
  | none => none
  | some k =>
    match QMap.find m.map_variants_ k with
    | none => none
    | some var =>
      let var_rows := var.toList
      if var_rows.isEmpty then some (false, m)
      else some (true, { m with data_ := m.data_ ++ var_rows.map QVariant.toList })

/-- The `switch (type)` of `TableModel::add_data` (tablemodel.cpp:34-371): the model
after it and the final value of `pvar`.  Each case casts `pdata` to the struct of
its type, so a record of another struct has no defined result. -/
def add_data_switch (m : TableModel) (pdata : Record) (type : ElementType) :
    Option (TableModel × Option Int) :=
  let vals : QVariantList × QVariantList := ([], [])
  if type = SYSTEM_STATE then
    match pdata with
    | .systemState data => do
      let var ← para_choose m "power_off" data.power_off
      let vals := STRING_PUSH vals var
      let var ← para_choose m "control_status" data.control_state
      let vals := STRING_PUSH vals var
      let var ← para_choose m "scanning_mode" data.scanning_mode
      let vals := STRING_PUSH vals var
      let vals := STRING_PUSH vals (QVariant.double data.antenna_eleva_angle)
      let vals := STRING_PUSH vals (QVariant.double data.beam_eleva_angle)
      let vals := STRING_PUSH vals (QVariant.int data.eccm_measures)
      let vals := STRING_PUSH vals (QVariant.string data.clutter_map)
      let vals := STRING_PUSH vals (QVariant.double data.emi_intensity)
      let vals := STRING_PUSH vals (QVariant.double data.time_alloca_state)
      let vals := STRING_PUSH vals (QVariant.double data.track_data_rate)
      let (m, pvar) := variant_slot m SYSTEM_STATE
      let m ← setValue m pvar vals.2
      pure (m, pvar)
    | _ => none
  else if type = WORK_PATTERN then
    match pdata with
    | .workPattern data => do
      let (m, pvar) := variant_slot m WORK_PATTERN
      let val0 := vals.1 ++ [QVariant.int data.id]
      let val0 := val0 ++ [QVariant.double data.start_yaw]
      let val0 := val0 ++ [QVariant.double data.end_yaw]
      let val1 := vals.2 ++ [QVariant.list val0]
      let m ← setValue m pvar val1
      pure (m, pvar)
    | _ => none
  else if type = RADIATION_STATE then
    match pdata with
    | .radiationState data => do
      let (m, pvar) := variant_slot m RADIATION_STATE
      let val0 := vals.1 ++ [QVariant.int data.equipment_id]
      let var ← para_choose m "radiation_state" data.radiation_state
      let val0 := val0 ++ [var]
      let val1 := vals.2 ++ [QVariant.list val0]
      let m ← setValue m pvar val1
      pure (m, pvar)
    | _ => none
  else if type = WORK_FREQUENCY then
    match pdata with
    | .workFrequency data => do
      let (m, pvar) := variant_slot m WORK_FREQUENCY
      let val0 := vals.1 ++ [QVariant.int data.id]
      let val0 := val0 ++ [QVariant.double data.frequency_point]
      let val1 := vals.2 ++ [QVariant.list val0]
      let m ← setValue m pvar val1
      pure (m, pvar)
    | _ => none
  else if type = DISTURB_DIRECTION then
    match pdata with
    | .disturbDirection data => do
      let (m, pvar) := variant_slot m DISTURB_DIRECTION
      let val0 := vals.1 ++ [QVariant.int data.id]
      let val0 := val0 ++ [QVariant.double data.eleva_angle]
      let val0 := val0 ++ [QVariant.double data.pitch]
      let val0 := val0 ++ [QVariant.double data.power]
      let val1 := vals.2 ++ [QVariant.list val0]
      let m ← setValue m pvar val1
      pure (m, pvar)
    | _ => none
  else if type = REGION_OF_SEARCH then
    match pdata with
    | .regionOfSearch _ => do
      let (m, pvar) := variant_slot m REGION_OF_SEARCH
      let m ← setValue m pvar vals.2
      pure (m, pvar)
    | _ => none
  else if type = CHAIN_OF_COMMAND then
    match pdata with
    | .chainOfCommand data => do
      let (m, pvar) := variant_slot m CHAIN_OF_COMMAND
      let var ← para_choose m "work_state" data.work_state
      let vals := STRING_PUSH vals var
      let vals := STRING_PUSH vals (QVariant.int data.war_preparedness_lv)
      let var ← para_choose m "equip_statu" data.equip_state
      let vals := STRING_PUSH vals var
      let var ← para_choose m "combat_permissions" data.combat_permissions
      let vals := STRING_PUSH vals var
      let var ← para_choose m "command_mode" data.command_mode
      let vals := STRING_PUSH vals var
      let m ← setValue m pvar vals.2
      pure (m, pvar)
    | _ => none
  else if type = PHOTOELECTRICITY_EQUIPMENT then
    match pdata with
    | .photoelectricityEquipment data => do
      let vals := STRING_PUSH vals (QVariant.int data.id)
      let vals := STRING_PUSH vals (QVariant.double data.lon)
      let vals := STRING_PUSH vals (QVariant.double data.lat)
      let vals := STRING_PUSH vals (QVariant.double data.alt)
      let vals := STRING_PUSH vals (QVariant.double data.elevation_angle)
      let vals := STRING_PUSH vals (QVariant.double data.pitch_angle)
      let var ← para_choose m "trace_status" data.trace_status
      let vals := STRING_PUSH vals var
      let (m, pvar) := variant_slot m PHOTOELECTRICITY_EQUIPMENT
      let m ← setValue m pvar vals.2
      pure (m, pvar)
    | _ => none
  else if type = DESCRIPTION_OF_INTERCEPTOR_WEAPON then
    match pdata with
    | .descriptionOfInterceptorWeapon data => do
      let var ←
        if QMap.contains m.map_para_choose_ "work_state" then do
          let i ← Double.toInt data.status
          para_choose m "work_state" i
        else some (QVariant.string "")
      let vals := STRING_PUSH vals var
      let vals := STRING_PUSH vals (QVariant.int data.war_readiness_lv)
      let var ← para_choose m "combat_permissions" data.operational_authority
      let vals := STRING_PUSH vals var
      let var ← para_choose m "command_mode" data.command_mode
      let vals := STRING_PUSH vals var
      let vals := STRING_PUSH vals (QVariant.int data.app_mode)
      let var ← para_choose m "power_off" data.run_status
      let vals := STRING_PUSH vals var
      let (m, pvar) := variant_slot m DESCRIPTION_OF_INTERCEPTOR_WEAPON
      let m ← setValue m pvar vals.2
      pure (m, pvar)
    | _ => none
  else if type = GBI_RESOURCES then
    match pdata with
    | .gbiResources data => do
      let val0 := vals.1 ++ [QVariant.int data.id]
      let val0 := val0 ++ [QVariant.double data.bullet_quantity]
      let val1 := vals.2 ++ [QVariant.list val0]
      let (m, pvar) := variant_slot m GBI_RESOURCES
      let m ← setValue m pvar val1
      pure (m, pvar)
    | _ => none
  else if type = GUIDANCE_RADAR then
    match pdata with
    | .guidanceRadar data => do
      let val0 := vals.1 ++ [QVariant.int data.id]
      let val0 := val0 ++ [QVariant.double data.res_occu_rate]
      let val1 := vals.2 ++ [QVariant.list val0]
      let (m, pvar) := variant_slot m GUIDANCE_RADAR
      let m ← setValue m pvar val1
      pure (m, pvar)
    | _ => none
  else if type = FIREPOWER_UNIT then
    match pdata with
    | .firepowerUnit data => do
      let var ← para_choose m "work_state" data.lon
      let vals := STRING_PUSH vals var
      let var ← para_choose m "command_mode" data.command_mode
      let vals := STRING_PUSH vals var
      let vals := STRING_PUSH vals (QVariant.int data.oper_task)
      let var ← para_choose m "inter_ception_mode" data.inter_ception_mode
      let vals := STRING_PUSH vals var
      let vals := STRING_PUSH vals (QVariant.int data.frequency_point_id)
      let vals := STRING_PUSH vals (QVariant.double data.sector_central_angle)
      let (m, pvar) := variant_slot m FIREPOWER_UNIT
      let m ← setValue m pvar vals.2
      pure (m, pvar)
    | _ => none
  else if type = FIREPOWER_UNIT_AISLE then
    match pdata with
    | .firepowerUnitAisle data => do
      let val0 := vals.1 ++ [QVariant.int data.unit_id]
      let val0 := val0 ++ [QVariant.int data.target_id]
      let var ← para_choose m "firepower_status" data.status
      let val0 := val0 ++ [var]
      let val1 := vals.2 ++ [QVariant.list val0]
      let (m, pvar) := variant_slot m FIREPOWER_UNIT_AISLE
      let m ← setValue m pvar val1
      pure (m, pvar)
    | _ => none
  else some (m, none)

/-- Embeds `TableModel::add_data` (tablemodel.cpp:29-374): the switch, then
`view_data(pvar)`, whose result is discarded. -/
def add_data (m : TableModel) (pdata : Record) (type : ElementType) : Option TableModel := do
  let (m, pvar) ← add_data_switch m pdata type
  let (_, m) ← view_data m pvar
  pure m

/-- Embeds `TableModel::rowCount` (tablemodel.cpp:415). -/
def rowCount (m : TableModel) : Int := m.data_.length

/-- Embeds `TableModel::columnCount` (tablemodel.cpp:417-422). -/
def columnCount (m : TableModel) : Int :=
  if m.data_.isEmpty then -1
  else
    match m.data_ with
    | row :: _ => row.length
    | [] => -1

/-- Embeds `TableModel::set_head_data` (tablemodel.cpp:376-390). -/
def set_head_data (m : TableModel) (type : ElementType) (loc : HeadLocal) : Bool × TableModel :=
  if type < 0 then (false, m)
  else
    let m := { m with pver_head_data_ := none, phor_head_data_ := none }
    if loc = VERTICAL_HEAD ∧ QMap.contains m.map_headnames_ type then
      (true, { m with pver_head_data_ := QMap.find m.map_headnames_ type })
    else if loc = HORIZONTAL_HEAD ∧ QMap.contains m.map_headnames_ type then
      (true, { m with phor_head_data_ := QMap.find m.map_headnames_ type })
    else (false, m)

/-! ## The world outside the program -/

/-- A `QgsRectangle`. -/
structure QgsRectangle where
  xmin : Double
  ymin : Double
  xmax : Double
  ymax : Double
  deriving DecidableEq, Repr

/-- A `QgsRasterLayer` as far as the program looks at it: what it was constructed
from, `isValid()` and `extent()`. -/
structure QgsRasterLayer where
  uri : String
  baseName : String
  providerType : String
  isValid : Bool
  extent : QgsRectangle
  deriving DecidableEq, Repr

/-- What the program reads from outside: files (`none`: the file cannot be opened),
the raster provider of the mapping library, the library's full extent of a layer
set, and the indeterminate members `new SystemState` leaves. -/
structure Env where
  read_file : String → Option String
  load_raster : String → String → String → QgsRasterLayer
  full_extent : List QgsRasterLayer → QgsRectangle
  uninit : SystemState

/-! ## widget.h / widget.cpp, mainwindow.h / mainwindow.cpp

Objects created with `new` live in heaps (lists) of the window state and a pointer
is an index into its heap.  The title bars, layouts, window flags and the frameless
helper are not modelled: no member modelled here is read or written by them. -/

/-- A `QAction` of the view menu. -/
structure QAction where
  text : String
  checkable : Bool
  checked : Bool
  deriving DecidableEq, Repr

/-- A `QRect`, the geometry of a widget: position and size in pixels. -/
structure QRect where
  x : Int
  y : Int
  width : Int
  height : Int
  deriving DecidableEq, Repr

/-- A `QTableView`: its two headers, the model it shows and the rows hidden with
`setRowHidden`. -/
structure QTableView where
  horizontal_header_visible : Bool
  vertical_header_visible : Bool
  model : Option Nat
  stretch : Bool
  hidden_rows : List Int
  deriving DecidableEq, Repr

/-- The members of `Widget` (widget.h:57-73) the program's logic uses, its window
title, style sheet, visibility flag and geometry.  The selection window
`pselect_list_` is held as its visibility (`none`: the null pointer) and a check box
as whether its state is `Qt::Checked`. -/
structure Widget where
  windowTitle : String
  styleSheet : String
  visible : Bool
  geometry : QRect
  action_ : Option Nat
  widget_type_ : Int
  pselect_list_ : Option Bool
  in_model_ : Option Nat
  in_view_ : Option Nat
  list_sub_widgets_ : List Nat
  list_head_checkbox_ : List Bool
  list_widget_checkbox_ : List Bool
  deriving DecidableEq, Repr

/-- The map canvas of the mapping library, as far as `create_centwindow` sets it. -/
structure QgsMapCanvas where
  antiAliasing : Bool
  canvasColor : Int × Int × Int
  acceptDrops : Bool
  mouseTracking : Bool
  panTool : Bool
  extent : Option QgsRectangle
  layers : List QgsRasterLayer
  visible : Bool
  refreshed : Nat
  deriving DecidableEq, Repr

/-- A modal `QMessageBox::critical(parent, title, text)`. -/
structure MessageBox where
  title : String
  text : String
  deriving DecidableEq, Repr

/-- The members of `MainWindow` (mainwindow.h:78-92) the program's logic uses, its
geometry, the heaps of the objects it creates, the layers of
`QgsProject::instance()` and the message boxes shown so far. -/
structure MainWindow where
  geometry : QRect
  widgets : List Widget
  models : List TableModel
  views : List QTableView
  actions : List QAction
  map_widgets_ : QMap Int Nat
  map_parent_widgets_ : QMap Int Nat
  action_overlaping_ : Option Nat
  action_horizontal_ : Option Nat
  action_vertical_ : Option Nat
  styleSheet : String
  layers_ : List QgsRasterLayer
  map_canvas_ : Option QgsMapCanvas
  project_layers : List QgsRasterLayer
  message_boxes : List MessageBox

/-- The geometry of a top-level `QWidget` that has not been shown, moved or resized. -/
def QRect.initial : QRect := { x := 0, y := 0, width := 640, height := 480 }

/-- The window before `init_window` runs. -/
def MainWindow.members : MainWindow :=
  { geometry := QRect.initial, widgets := [], models := [], views := [], actions := [], map_widgets_ := [],
    map_parent_widgets_ := [], action_overlaping_ := none, action_horizontal_ := none,
    action_vertical_ := none, styleSheet := "", layers_ := [], map_canvas_ := none,
    project_layers := [], message_boxes := [] }

/-- Write through a pointer into a heap; none for a pointer to no object. -/
def heap_update {α : Type} (heap : List α) (p : Nat) (f : α → α) : Option (List α) :=
  match heap.get? p with
  | some x => some (heap.set p (f x))
  | none => none

/-- Embeds `Widget::load_style_sheet` (widget.cpp:188-197).  The success path ends without
a `return`, so the value returned there is indeterminate (`none`). -/
def Widget.load_style_sheet (env : Env) (x : Widget) (path : String) : Option Bool × Widget :=
  match env.read_file path with
  | none => (some false, x)
  | some contents => (none, { x with styleSheet := x.styleSheet ++ contents })

/-- The constructor `Widget::Widget` (widget.cpp:3-8); `in_model_` and `in_view_`
are left uninitialised by it and are written before they are read. -/
def Widget.new (env : Env) (title : String) : Widget :=
  let x : Widget :=
    { windowTitle := "", styleSheet := "", visible := false, geometry := QRect.initial,
      action_ := none, widget_type_ := -1, pselect_list_ := none, in_model_ := none,
      in_view_ := none, list_sub_widgets_ := [], list_head_checkbox_ := [],
      list_widget_checkbox_ := [] }
  let x := { x with windowTitle := title }
  (Widget.load_style_sheet env x ":qdarkstyle/style.qss").2

/-- The expression `new Widget(title)`. -/
def new_widget (w : MainWindow) (env : Env) (title : String) : MainWindow × Nat :=
  ({ w with widgets := w.widgets ++ [Widget.new env title] }, w.widgets.length)

/-- The expression `new TableModel()`. -/
def new_model (w : MainWindow) : Option (MainWindow × Nat) := do
  let m ← TableModel.new
  pure ({ w with models := w.models ++ [m] }, w.models.length)

/-- Embeds `MainWindow::create_tablewindow` (mainwindow.cpp:278-292). -/
def create_tablewindow (w : MainWindow) (pmodel : Nat) (head_v head_h : Bool) :
    MainWindow × Nat :=
  let view : QTableView :=
    { horizontal_header_visible := true, vertical_header_visible := true, model := none,
      stretch := false, hidden_rows := [] }
  let view := if !head_h then { view with horizontal_header_visible := false } else view
  let view := if !head_v then { view with vertical_header_visible := false } else view
  let view := { view with model := some pmodel }
  ({ w with views := w.views ++ [view] }, w.views.length)

/-- Embeds `Widget::set_view` (widget.cpp:24-34) on the widget at `p`. -/
def set_view (w : MainWindow) (p : Nat) (view : Nat) : Option MainWindow := do
  let widgets ← heap_update w.widgets p fun x => { x with in_view_ := some view }
  let views ← heap_update w.views view fun v => { v with stretch := true }
  pure { w with widgets := widgets, views := views }

/-- Embeds `Widget::set_model` (widget.cpp:36-43) on the widget at `p`. -/
def set_model (w : MainWindow) (p : Nat) (model : Nat) (type : ElementType) (loc : HeadLocal) :
    Option MainWindow := do
  let x ← w.widgets.get? p
  let w ←
    match x.in_view_ with
    | some view => do
      let views ← heap_update w.views view fun v => { v with model := some model }
      let widgets ← heap_update w.widgets p fun x => { x with in_model_ := some model }
      let models ← heap_update w.models model fun m => (set_head_data m type loc).2
      pure { w with views := views, widgets := widgets, models := models }
    | none => pure w
  let widgets ← heap_update w.widgets p fun x => { x with widget_type_ := type }
  pure { w with widgets := widgets }

/-- Embeds `Widget::add_sub_widget` (widget.h:34) on the widget at `p`. -/
def add_sub_widget (w : MainWindow) (p : Nat) (sub : Nat) : Option MainWindow := do
  let widgets ← heap_update w.widgets p fun x =>
    { x with list_sub_widgets_ := x.list_sub_widgets_ ++ [sub] }
  pure { w with widgets := widgets }

/-- Embeds `QWidget::setVisible` on the widget at `p` (`show()` is `setVisible(true)`). -/
def setVisible (w : MainWindow) (p : Nat) (visible : Bool) : Option MainWindow := do
  let widgets ← heap_update w.widgets p fun x => { x with visible := visible }
  pure { w with widgets := widgets }

/-- The block `create_radar_state`, `create_description` and `create_firepower`
repeat for each sub-widget (e.g. mainwindow.cpp:318-326): a widget, its model and
view, `set_model(model, type, HORIZONTAL_HEAD)`, registration with the parent and
in `map_widgets_`. -/
def create_sub_widget (w : MainWindow) (env : Env) (parent : Nat) (title : String)
    (type : ElementType) : Option MainWindow := do
  let (w, sub_w) := new_widget w env title
  let (w, model) ← new_model w
  let (w, view) := create_tablewindow w model false true
  let w ← set_view w sub_w view
  let w ← set_model w sub_w model type HORIZONTAL_HEAD
  let w ← add_sub_widget w parent sub_w
  pure { w with map_widgets_ := QMap.insert w.map_widgets_ type sub_w }

/-- The start of `create_radar_state`, `create_description` and `create_firepower`
(e.g. mainwindow.cpp:295-313): the top-level widget with its vertically-headed
table, registered in `map_widgets_` and `map_parent_widgets_`. -/
def create_top_widget (w : MainWindow) (env : Env) (title : String) (type : ElementType) :
    Option (MainWindow × Nat) := do
  let (w, p) := new_widget w env title
  let (w, model) ← new_model w
  let (w, view) := create_tablewindow w model true false
  let w ← set_view w p view
  let w ← set_model w p model type VERTICAL_HEAD
  let w := { w with map_widgets_ := QMap.insert w.map_widgets_ type p }
  let w := { w with map_parent_widgets_ := QMap.insert w.map_parent_widgets_ type p }
  pure (w, p)

/-- Embeds `MainWindow::create_radar_state` (mainwindow.cpp:294-365). -/
def create_radar_state (w : MainWindow) (env : Env) : Option MainWindow := do
  let (w, p) ← create_top_widget w env "雷达系统状态显示" SYSTEM_STATE
  let w ← create_sub_widget w env p "工作模式" WORK_PATTERN
  let w ← create_sub_widget w env p "辐射状态" RADIATION_STATE
  let w ← create_sub_widget w env p "工作频点" WORK_FREQUENCY
  let w ← create_sub_widget w env p "有源干扰方向" DISTURB_DIRECTION
  setVisible w p true

/-- Embeds `MainWindow::create_chain_of_command` (mainwindow.cpp:367-379). -/
def create_chain_of_command (w : MainWindow) (env : Env) : Option MainWindow := do
  let (w, p) := new_widget w env "指控系统装备状态显示"
  let (w, model) ← new_model w
  let (w, view) := create_tablewindow w model true false
  let w ← set_view w p view
  let w ← set_model w p model CHAIN_OF_COMMAND VERTICAL_HEAD
  let w ← setVisible w p true
  let w := { w with map_widgets_ := QMap.insert w.map_widgets_ CHAIN_OF_COMMAND p }
  pure { w with map_parent_widgets_ := QMap.insert w.map_parent_widgets_ CHAIN_OF_COMMAND p }

/-- Embeds `MainWindow::create_photoelectricity` (mainwindow.cpp:381-393). -/
def create_photoelectricity (w : MainWindow) (env : Env) : Option MainWindow := do
  let (w, p) := new_widget w env "光电装备状态显示"
  let (w, model) ← new_model w
  let (w, view) := create_tablewindow w model true false
  let w ← set_view w p view
  let w ← set_model w p model PHOTOELECTRICITY_EQUIPMENT VERTICAL_HEAD
  let w ← setVisible w p true
  let w := { w with map_widgets_ := QMap.insert w.map_widgets_ PHOTOELECTRICITY_EQUIPMENT p }
  pure { w with
    map_parent_widgets_ := QMap.insert w.map_parent_widgets_ PHOTOELECTRICITY_EQUIPMENT p }

/-- Embeds `MainWindow::create_description` (mainwindow.cpp:395-440). -/
def create_description (w : MainWindow) (env : Env) : Option MainWindow := do
  let (w, p) ← create_top_widget w env "拦截武器显示" DESCRIPTION_OF_INTERCEPTOR_WEAPON
  let w ← create_sub_widget w env p "拦截弹资源" GBI_RESOURCES
  let w ← create_sub_widget w env p "制导雷达" GUIDANCE_RADAR
  setVisible w p true

/-- Embeds `MainWindow::create_firepower` (mainwindow.cpp:442-476). -/
def create_firepower (w : MainWindow) (env : Env) : Option MainWindow := do
  let (w, p) ← create_top_widget w env "火力单元状态显示" FIREPOWER_UNIT
  let w ← create_sub_widget w env p "火力单元通道状态" FIREPOWER_UNIT_AISLE
  setVisible w p true

/-- The expression `menu->addAction(text)`. -/
def addAction (w : MainWindow) (text : String) : MainWindow × Nat :=
  ({ w with actions := w.actions ++ [{ text := text, checkable := false, checked := false }] },
    w.actions.length)

/-- The block `create_menubar` repeats for each top-level widget
(e.g. mainwindow.cpp:211-216): a checkable, unchecked action bound to the widget
`map_widgets_[type]`, which is dereferenced unchecked. -/
def add_widget_action (w : MainWindow) (text : String) (type : ElementType) :
    Option MainWindow := do
  let (w, action) := addAction w text
  let actions ← heap_update w.actions action fun a => { a with checkable := true }
  let actions ← heap_update actions action fun a => { a with checked := false }
  let w := { w with actions := actions }
  let p ← QMap.find w.map_widgets_ type
  let widgets ← heap_update w.widgets p fun x => { x with action_ := some action }
  pure { w with widgets := widgets }

/-- Embeds `MainWindow::create_menubar` (mainwindow.cpp:179-247). -/
def create_menubar (w : MainWindow) : Option MainWindow := do
  let (w, _) := addAction w "打开文件"
  let (w, _) := addAction w "关闭所有"
  let (w, _) := addAction w "打开所有"
  let (w, a) := addAction w "重叠"
  let w := { w with action_overlaping_ := some a }
  let (w, a) := addAction w "水平平铺"
  let w := { w with action_horizontal_ := some a }
  let (w, a) := addAction w "垂直平铺"
  let w := { w with action_vertical_ := some a }
  let w ← add_widget_action w "雷达系统状态显示" SYSTEM_STATE
  let w ← add_widget_action w "指控系统装备状态显示" CHAIN_OF_COMMAND
  let w ← add_widget_action w "光电装备状态显示" PHOTOELECTRICITY_EQUIPMENT
  let w ← add_widget_action w "拦截武器显示" DESCRIPTION_OF_INTERCEPTOR_WEAPON
  add_widget_action w "火力单元状态显示" FIREPOWER_UNIT

/-- Embeds `MainWindow::load_style_sheet` (mainwindow.cpp:267-276). -/
def MainWindow.load_style_sheet (env : Env) (w : MainWindow) (path : String) : MainWindow :=
  match env.read_file path with
  | none => w
  | some contents => { w with styleSheet := w.styleSheet ++ contents }

/-- The expression `new QgsMapCanvas()`. -/
def QgsMapCanvas.new : QgsMapCanvas :=
  { antiAliasing := false, canvasColor := (255, 255, 255), acceptDrops := false,
    mouseTracking := false, panTool := false, extent := none, layers := [], visible := false,
    refreshed := 0 }

/-- Embeds `QgsMapCanvas::zoomToFullExtent`: the extent becomes the library's full extent
of the canvas layers. -/
def QgsMapCanvas.zoomToFullExtent (env : Env) (c : QgsMapCanvas) : QgsMapCanvas :=
  { c with extent := some (env.full_extent c.layers) }

/-- Embeds `MainWindow::create_centwindow` (mainwindow.cpp:135-168). -/
def create_centwindow (w : MainWindow) (env : Env) : Option MainWindow := do
  let map_canvas_ := QgsMapCanvas.new
  let map_canvas_ := { map_canvas_ with antiAliasing := true }
  let map_canvas_ := { map_canvas_ with canvasColor := (0, 0, 0) }
  let map_canvas_ := { map_canvas_ with acceptDrops := true }
  let map_canvas_ := { map_canvas_ with mouseTracking := true }
  let map_canvas_ := { map_canvas_ with panTool := true }
  let w := { w with map_canvas_ := some map_canvas_ }
  let fileName := "tmsforuser.xml"
  let temp := QString.split fileName '/'
  let basename ← QList.at temp ((temp.length : Int) - 1)
  let rasterLayser := env.load_raster fileName basename "gdal"
  if !rasterLayser.isValid then
    pure { w with
      message_boxes := w.message_boxes ++ [{ title := "error", text := "图层无效: \n" ++ fileName }] }
  else
    let w := { w with project_layers := w.project_layers ++ [rasterLayser] }
    let map_canvas_ := { map_canvas_ with extent := some rasterLayser.extent }
    let w := { w with layers_ := w.layers_ ++ [rasterLayser] }
    let map_canvas_ := { map_canvas_ with layers := w.layers_ }
    let map_canvas_ := QgsMapCanvas.zoomToFullExtent env map_canvas_
    let map_canvas_ := { map_canvas_ with visible := true }
    let map_canvas_ := { map_canvas_ with refreshed := map_canvas_.refreshed + 1 }
    pure { w with map_canvas_ := some map_canvas_ }

/-- The two statements `model = map_widgets_[key]->get_model();
model->add_data(pdata, type);` of `create_data`; neither pointer is checked. -/
def model_add_data (w : MainWindow) (key : Int) (pdata : Record) (type : ElementType) :
    Option MainWindow := do
  let p ← QMap.find w.map_widgets_ key
  let x ← w.widgets.get? p
  let model ← x.in_model_
  let m ← w.models.get? model
  let m ← add_data m pdata type
  pure { w with models := w.models.set model m }

/-- The records `create_data` builds (mainwindow.cpp:481-595), in order, each with
the key of the widget whose model receives it and the type passed to `add_data`.
`new SystemState` default-constructs `clutter_map` and leaves the other members
that are not assigned as they are in `uninit`. -/
def create_data_records (uninit : SystemState) : List (Int × Record × ElementType) :=
  [ (SYSTEM_STATE,
      .systemState { uninit with clutter_map := "", power_off := 0, control_state := 0,
                                 scanning_mode := 0 },
      SYSTEM_STATE),
    (WORK_PATTERN,
      .workPattern { id := 1, start_yaw := Double.ofInt 0, end_yaw := Double.ofInt 10 },
      WORK_PATTERN),
    (RADIATION_STATE, .radiationState { equipment_id := 0, radiation_state := 0 },
      RADIATION_STATE),
    (WORK_FREQUENCY, .workFrequency { id := 0, frequency_point := Double.ofInt 0 },
      WORK_FREQUENCY),
    (DISTURB_DIRECTION,
      .disturbDirection { id := 0, eleva_angle := Double.ofInt 0, pitch := Double.ofInt 0,
                          power := Double.ofInt 0 },
      DISTURB_DIRECTION),
    (CHAIN_OF_COMMAND,
      .chainOfCommand { work_state := 0, war_preparedness_lv := 0, equip_state := 0,
                        combat_permissions := 0, command_mode := 0 },
      CHAIN_OF_COMMAND),
    (PHOTOELECTRICITY_EQUIPMENT,
      .photoelectricityEquipment { id := 0, lon := Double.ofInt 0, lat := Double.ofInt 0,
                                   alt := Double.ofInt 0, elevation_angle := Double.ofInt 0,
                                   pitch_angle := Double.ofInt 0, trace_status := 0 },
      PHOTOELECTRICITY_EQUIPMENT),
    (DESCRIPTION_OF_INTERCEPTOR_WEAPON,
      .descriptionOfInterceptorWeapon { status := Double.ofInt 0, war_readiness_lv := 0,
                                        operational_authority := 0, command_mode := 0,
                                        app_mode := 0, run_status := 0 },
      DESCRIPTION_OF_INTERCEPTOR_WEAPON),
    (GBI_RESOURCES, .gbiResources { id := 0, bullet_quantity := Double.ofInt 0 }, GBI_RESOURCES),
    (GUIDANCE_RADAR, .guidanceRadar { id := 0, res_occu_rate := Double.ofInt 0 }, GUIDANCE_RADAR),
    (FIREPOWER_UNIT,
      .firepowerUnit { lon := 0, command_mode := 0, oper_task := 0, inter_ception_mode := 0,
                       frequency_point_id := 0, sector_central_angle := Double.ofInt 0 },
      FIREPOWER_UNIT),
    (FIREPOWER_UNIT_AISLE, .firepowerUnitAisle { unit_id := 0, target_id := 0, status := 0 },
      FIREPOWER_UNIT_AISLE) ]

/-- The calls of `create_data`, one after the other. -/
def add_all (w : MainWindow) : List (Int × Record × ElementType) → Option MainWindow
  | [] => some w
  | (key, pdata, type) :: rest => (model_add_data w key pdata type).bind fun w => add_all w rest

/-- Embeds `MainWindow::create_data` (mainwindow.cpp:478-602).  The closing loop only
repaints (`Widget::update`, `TableModel::update`) and changes no member. -/
def create_data (w : MainWindow) (env : Env) : Option MainWindow :=
  add_all w (create_data_records env.uninit)

/-- The loop closing `init_window` (mainwindow.cpp:130-132): every widget of
`map_widgets_` is hidden. -/
def hide_all (w : MainWindow) : List (Int × Nat) → Option MainWindow
  | [] => some w
  | (_, p) :: rest => (setVisible w p false).bind fun w => hide_all w rest

/-- Embeds `MainWindow::init_window` (mainwindow.cpp:98-133), which is all the
constructor runs.  Its calls of `create_title`, `create_toolbar` (an empty body) and
`create_status_bar` and its layout calls touch no member modelled here. -/
def init_window (env : Env) : Option MainWindow := do
  let w := MainWindow.members
  let w ← create_radar_state w env
  let w ← create_chain_of_command w env
  let w ← create_photoelectricity w env
  let w ← create_description w env
  let w ← create_firepower w env
  let w ← create_menubar w
  let w := MainWindow.load_style_sheet env w ":qdarkstyle/style.qss"
  let w ← create_centwindow w env
  let w ← create_data w env
  hide_all w w.map_widgets_

/-! ## The projection of a record, cell by cell

`add_data` is a `switch` with one straight-line case per struct.  The definitions
below list, for each struct, where each cell of that case comes from; the theorem
`add_data_eq_project` proves that `add_data` computes exactly this. -/

/-- Where a cell comes from: a field shown as it is, or a coded field, looked up
under `key` in `map_para_choose_` with the `int` value of the field as index
(`none`: the field is a `double` with no `int` value). -/
inductive CellSource where
  | plain (v : QVariant)
  | coded (key : String) (value : Option Int)
  deriving Repr

/-- The cells of each case of the switch, in the order they are pushed. -/
def Record.cells : Record → List CellSource
  | .systemState d =>
    [.coded "power_off" (some d.power_off), .coded "control_status" (some d.control_state),
     .coded "scanning_mode" (some d.scanning_mode), .plain (.double d.antenna_eleva_angle),
     .plain (.double d.beam_eleva_angle), .plain (.int d.eccm_measures),
     .plain (.string d.clutter_map), .plain (.double d.emi_intensity),
     .plain (.double d.time_alloca_state), .plain (.double d.track_data_rate)]
  | .workPattern d => [.plain (.int d.id), .plain (.double d.start_yaw), .plain (.double d.end_yaw)]
  | .radiationState d =>
    [.plain (.int d.equipment_id), .coded "radiation_state" (some d.radiation_state)]
  | .workFrequency d => [.plain (.int d.id), .plain (.double d.frequency_point)]
  | .disturbDirection d =>
    [.plain (.int d.id), .plain (.double d.eleva_angle), .plain (.double d.pitch),
     .plain (.double d.power)]
  | .regionOfSearch _ => []
  | .chainOfCommand d =>
    [.coded "work_state" (some d.work_state), .plain (.int d.war_preparedness_lv),
     .coded "equip_statu" (some d.equip_state),
     .coded "combat_permissions" (some d.combat_permissions),
     .coded "command_mode" (some d.command_mode)]
  | .photoelectricityEquipment d =>
    [.plain (.int d.id), .plain (.double d.lon), .plain (.double d.lat), .plain (.double d.alt),
     .plain (.double d.elevation_angle), .plain (.double d.pitch_angle),
     .coded "trace_status" (some d.trace_status)]
  | .descriptionOfInterceptorWeapon d =>
    [.coded "work_state" (Double.toInt d.status), .plain (.int d.war_readiness_lv),
     .coded "combat_permissions" (some d.operational_authority),
     .coded "command_mode" (some d.command_mode), .plain (.int d.app_mode),
     .coded "power_off" (some d.run_status)]
  | .gbiResources d => [.plain (.int d.id), .plain (.double d.bullet_quantity)]
  | .guidanceRadar d => [.plain (.int d.id), .plain (.double d.res_occu_rate)]
  | .firepowerUnit d =>
    [.coded "work_state" (some d.lon), .coded "command_mode" (some d.command_mode),
     .plain (.int d.oper_task), .coded "inter_ception_mode" (some d.inter_ception_mode),
     .plain (.int d.frequency_point_id), .plain (.double d.sector_central_angle)]
  | .firepowerUnitAisle d =>
    [.plain (.int d.unit_id), .plain (.int d.target_id), .coded "firepower_status" (some d.status)]

/-- Whether the case pushes every cell as a row of its own (`STRING_PUSH`, the
vertically-headed types) rather than all cells as one row. -/
def Record.cell_per_row : Record → Bool
  | .systemState _ => true
  | .regionOfSearch _ => true
  | .chainOfCommand _ => true
  | .photoelectricityEquipment _ => true
  | .descriptionOfInterceptorWeapon _ => true
  | .firepowerUnit _ => true
  | _ => false

/-- The value of one cell under the tables of `m`. -/
def CellSource.eval (m : TableModel) : CellSource → Option QVariant
  | .plain v => some v
  | .coded key value =>
    if QMap.contains m.map_para_choose_ key then value.bind (para_choose m key)
    else some (QVariant.string "")

/-- The values of a list of cells; none as soon as one is undefined. -/
def eval_cells (m : TableModel) : List CellSource → Option (List QVariant)
  | [] => some []
  | c :: cs => (c.eval m).bind fun v => (eval_cells m cs).map fun vs => v :: vs

/-- The local `val1` a case hands to `setValue`, from the values of its cells. -/
def Record.rows (r : Record) (vs : List QVariant) : QVariantList :=
  if r.cell_per_row then vs.map fun v => QVariant.list [v] else [QVariant.list vs]

/-- The tail every case of the switch shares, in one place: the `pvar` set-up,
`pvar->setValue(val1)` and `view_data(pvar)`. -/
def store (m : TableModel) (type : ElementType) (val1 : QVariantList) : Option TableModel :=
  (setValue (variant_slot m type).1 (variant_slot m type).2 val1).bind
    fun m2 => (view_data m2 (variant_slot m type).2).map Prod.snd

/-- A coded cell whose table is present has an index inside the table. -/
def CellSource.in_range (m : TableModel) : CellSource → Bool
  | .plain _ => true
  | .coded key value =>
    match QMap.find m.map_para_choose_ key with
    | none => true
    | some t =>
      match value with
      | some v => decide (0 ≤ v) && decide (v < (t.length : Int))
      | none => false

/-- Every coded field of the record lies inside its lookup table. -/
def Record.in_range (m : TableModel) (r : Record) : Bool :=
  r.cells.all (CellSource.in_range m)

/-- The rows a call appended: those of `m2` after the rows `m1` had. -/
def appended (m1 m2 : TableModel) : List (List QVariant) :=
  m2.data_.drop m1.data_.length


/-- The rows one record projects to under the tables of `m`: what `add_data` puts
into a model that has these tables and no rows yet. -/
def rows_of (m : TableModel) (r : Record) : List (List QVariant) :=
  match add_data { m with data_ := [] } r r.type with
  | some m2 => m2.data_
  | none => []

/-- A sequence of `add_data` calls on one model, each record under its own type. -/
def add_data_seq (m : TableModel) : List Record → Option TableModel
  | [] => some m
  | r :: rs => (add_data m r r.type).bind fun m2 => add_data_seq m2 rs

/-- The start-up record of the interceptor-weapon widget (mainwindow.cpp:550-556). -/
def doiw_zero : DescriptionOfInterceptorWeapon :=
  { status := Double.ofInt 0, war_readiness_lv := 0, operational_authority := 0,
    command_mode := 0, app_mode := 0, run_status := 0 }

/-- A channel record whose status 5 is one past the five labels of the
"firepower_status" table. -/
def aisle_five : FirepowerUnitAisle := { unit_id := 0, target_id := 0, status := 5 }

/-- An interceptor-weapon record whose `double` status is -9/10, all else zero. -/
def doiw_fraction : DescriptionOfInterceptorWeapon :=
  { doiw_zero with status := Double.finite (Rat.divInt (-9) 10) }

/-- The key a cell is looked up under, if it is a coded one. -/
def CellSource.key : CellSource → Option String
  | .plain _ => none
  | .coded key _ => some key

/-- No key occurs twice in a list of cell keys. -/
def distinct_keys : List (Option String) → Bool
  | [] => true
  | none :: l => distinct_keys l
  | some k :: l => !l.contains (some k) && distinct_keys l

/-- The model `m` with the lookup table `t` registered under `key`
(`map_para_choose_.insert(key, t)`). -/
def with_table (m : TableModel) (key : String) (t : List String) : TableModel :=
  { m with map_para_choose_ := QMap.insert m.map_para_choose_ key t }

/-- The members of each struct of elements.h as `QVariant`s, in declaration order. -/
def Record.fields : Record → List QVariant
  | .systemState d =>
    [.int d.power_off, .int d.control_state, .int d.scanning_mode,
     .double d.antenna_eleva_angle, .double d.beam_eleva_angle, .int d.eccm_measures,
     .string d.clutter_map, .double d.emi_intensity, .double d.time_alloca_state,
     .double d.track_data_rate]
  | .workPattern d => [.int d.id, .double d.start_yaw, .double d.end_yaw]
  | .radiationState d => [.int d.equipment_id, .int d.radiation_state]
  | .workFrequency d => [.int d.id, .double d.frequency_point]
  | .disturbDirection d =>
    [.int d.id, .double d.eleva_angle, .double d.pitch, .double d.power]
  | .regionOfSearch d =>
    [.double d.max_lon, .double d.min_lon, .double d.max_lat, .double d.min_lat]
  | .chainOfCommand d =>
    [.int d.work_state, .int d.war_preparedness_lv, .int d.equip_state,
     .int d.combat_permissions, .int d.command_mode]
  | .photoelectricityEquipment d =>
    [.int d.id, .double d.lon, .double d.lat, .double d.alt, .double d.elevation_angle,
     .double d.pitch_angle, .int d.trace_status]
  | .descriptionOfInterceptorWeapon d =>
    [.double d.status, .int d.war_readiness_lv, .int d.operational_authority,
     .int d.command_mode, .int d.app_mode, .int d.run_status]
  | .gbiResources d => [.int d.id, .double d.bullet_quantity]
  | .guidanceRadar d => [.int d.id, .double d.res_occu_rate]
  | .firepowerUnit d =>
    [.int d.lon, .int d.command_mode, .int d.oper_task, .int d.inter_ception_mode,
     .int d.frequency_point_id, .double d.sector_central_angle]
  | .firepowerUnitAisle d => [.int d.unit_id, .int d.target_id, .int d.status]

/-- The value 0 of an `int` or a `double` member; for a `QString` member, the empty
string. -/
def QVariant.is_zero : QVariant → Bool
  | .int v => decide (v = 0)
  | .double v => decide (v = Double.ofInt 0)
  | .string v => decide (v = "")
  | _ => false

/-- A `SystemState` whose members are all zero (and whose string is empty). -/
def SystemState.zero : SystemState :=
  { power_off := 0, control_state := 0, scanning_mode := 0,
    antenna_eleva_angle := Double.ofInt 0, beam_eleva_angle := Double.ofInt 0,
    eccm_measures := 0, clutter_map := "", emi_intensity := Double.ofInt 0,
    time_alloca_state := Double.ofInt 0, track_data_rate := Double.ofInt 0 }

/-- The part of a widget the registry of the main window is read through: its type
and its model. -/
def reg (x : Widget) : ElementType × Option Nat := (x.widget_type_, x.in_model_)

/-- A summary of the window state: `n` widgets, models and views, allocated in step;
the registry view `regs` of the widgets, the models `ms`, and the two maps. -/
def Shape (w : MainWindow) (n : Nat) (regs : List (ElementType × Option Nat))
    (ms : List TableModel) (mw mpw : QMap Int Nat) : Prop :=
  w.widgets.length = n ∧ w.models = ms ∧ ms.length = n ∧ w.views.length = n ∧
    w.widgets.map reg = regs ∧ w.map_widgets_ = mw ∧ w.map_parent_widgets_ = mpw

/-- The model a call of `create_data` reaches through `map_widgets_[key]` and
`get_model()`, read off the summary of the state. -/
def target (mw : QMap Int Nat) (regs : List (ElementType × Option Nat)) (key : Int) :
    Option Nat :=
  (QMap.find mw key).bind fun p => (regs.get? p).bind fun e => e.2

/-- The rows the calls `cs` of `create_data` append to the model at `i`, `m` being
that model before the calls. -/
def rows_for (mw : QMap Int Nat) (regs : List (ElementType × Option Nat))
    (cs : List (Int × Record × ElementType)) (i : Nat) (m : TableModel) : List (List QVariant) :=
  ((cs.filter fun c => target mw regs c.1 == some i).map fun c => rows_of m c.2.1).flatten

/-- The twelve record types of the glossary of the specification, in its order:
system state, work pattern, radiation state, work frequency, disturb direction,
chain of command, photoelectric equipment, interceptor-weapon description, guidance
radar, GBI resources, firepower unit, firepower unit channel. -/
def glossary_record_types : List ElementType :=
  [SYSTEM_STATE, WORK_PATTERN, RADIATION_STATE, WORK_FREQUENCY, DISTURB_DIRECTION,
   CHAIN_OF_COMMAND, PHOTOELECTRICITY_EQUIPMENT, DESCRIPTION_OF_INTERCEPTOR_WEAPON,
   GUIDANCE_RADAR, GBI_RESOURCES, FIREPOWER_UNIT, FIREPOWER_UNIT_AISLE]

/-- The registry view of the twelve widgets the five `create_` functions make, in
the order they are made. -/
def startup_regs : List (ElementType × Option Nat) :=
  [(SYSTEM_STATE, some 0), (WORK_PATTERN, some 1), (RADIATION_STATE, some 2),
   (WORK_FREQUENCY, some 3), (DISTURB_DIRECTION, some 4), (CHAIN_OF_COMMAND, some 5),
   (PHOTOELECTRICITY_EQUIPMENT, some 6), (DESCRIPTION_OF_INTERCEPTOR_WEAPON, some 7),
   (GBI_RESOURCES, some 8), (GUIDANCE_RADAR, some 9), (FIREPOWER_UNIT, some 10),
   (FIREPOWER_UNIT_AISLE, some 11)]

/-- The models of the twelve widgets as `set_model` leaves them, before any data. -/
def startup_models : List TableModel :=
  [(set_head_data TableModel.fresh SYSTEM_STATE VERTICAL_HEAD).2,
   (set_head_data TableModel.fresh WORK_PATTERN HORIZONTAL_HEAD).2,
   (set_head_data TableModel.fresh RADIATION_STATE HORIZONTAL_HEAD).2,
   (set_head_data TableModel.fresh WORK_FREQUENCY HORIZONTAL_HEAD).2,
   (set_head_data TableModel.fresh DISTURB_DIRECTION HORIZONTAL_HEAD).2,
   (set_head_data TableModel.fresh CHAIN_OF_COMMAND VERTICAL_HEAD).2,
   (set_head_data TableModel.fresh PHOTOELECTRICITY_EQUIPMENT VERTICAL_HEAD).2,
   (set_head_data TableModel.fresh DESCRIPTION_OF_INTERCEPTOR_WEAPON VERTICAL_HEAD).2,
   (set_head_data TableModel.fresh GBI_RESOURCES HORIZONTAL_HEAD).2,
   (set_head_data TableModel.fresh GUIDANCE_RADAR HORIZONTAL_HEAD).2,
   (set_head_data TableModel.fresh FIREPOWER_UNIT VERTICAL_HEAD).2,
   (set_head_data TableModel.fresh FIREPOWER_UNIT_AISLE HORIZONTAL_HEAD).2]

/-- The content of `map_widgets_` after the five `create_` functions. -/
def startup_map : QMap Int Nat :=
  [(SYSTEM_STATE, 0), (WORK_PATTERN, 1), (RADIATION_STATE, 2), (WORK_FREQUENCY, 3),
   (DISTURB_DIRECTION, 4), (CHAIN_OF_COMMAND, 5), (PHOTOELECTRICITY_EQUIPMENT, 6),
   (DESCRIPTION_OF_INTERCEPTOR_WEAPON, 7), (GBI_RESOURCES, 8), (GUIDANCE_RADAR, 9),
   (FIREPOWER_UNIT, 10), (FIREPOWER_UNIT_AISLE, 11)]

/-- The content of `map_parent_widgets_` after the five `create_` functions. -/
def startup_parent_map : QMap Int Nat :=
  [(SYSTEM_STATE, 0), (CHAIN_OF_COMMAND, 5), (PHOTOELECTRICITY_EQUIPMENT, 6),
   (DESCRIPTION_OF_INTERCEPTOR_WEAPON, 7), (FIREPOWER_UNIT, 10)]

/-- An outside world in which no file can be opened and the raster layer is
invalid; the uninitialised memory is zero. -/
def env_invalid : Env :=
  { read_file := fun _ => none,
    load_raster := fun uri baseName providerType =>
      { uri := uri, baseName := baseName, providerType := providerType, isValid := false,
        extent := { xmin := Double.ofInt 0, ymin := Double.ofInt 0, xmax := Double.ofInt 0,
                    ymax := Double.ofInt 0 } },
    full_extent := fun _ =>
      { xmin := Double.ofInt 0, ymin := Double.ofInt 0, xmax := Double.ofInt 0,
        ymax := Double.ofInt 0 },
    uninit := SystemState.zero }

/-- The members of the window the map set-up writes, with the layers of the
project and the message boxes shown. -/
def map_state (w : MainWindow) :
    List QgsRasterLayer × List QgsRasterLayer × List MessageBox × Option QgsMapCanvas :=
  (w.layers_, w.project_layers, w.message_boxes, w.map_canvas_)

/-! ## Reading the headers -/

/-- The value of `Qt::Horizontal`. -/
abbrev Qt.Horizontal : Int := 1

/-- The value of `Qt::Vertical`. -/
abbrev Qt.Vertical : Int := 2

/-- The value of `Qt::DisplayRole`. -/
abbrev Qt.DisplayRole : Int := 0

/-- Embeds `TableModel::headerData` (tablemodel.cpp:424-433).  The `at` is unchecked,
so the result is undefined for a section outside the selected header list. -/
def headerData (m : TableModel) (sect : Int) (orientation role : Int) : Option QVariant :=
  if role ≠ Qt.DisplayRole then some QVariant.invalid
  else if orientation = Qt.Vertical ∧ m.pver_head_data_ ≠ none then
    m.pver_head_data_.bind fun l => (QList.at l sect).map QVariant.string
  else if orientation = Qt.Horizontal ∧ m.phor_head_data_ ≠ none then
    m.phor_head_data_.bind fun l => (QList.at l sect).map QVariant.string
  else some QVariant.invalid

/-- A sequence of `set_head_data` calls on one model, whatever they return. -/
def set_head_data_seq (m : TableModel) : List (ElementType × HeadLocal) → TableModel
  | [] => m
  | c :: cs => set_head_data_seq (set_head_data m c.1 c.2).2 cs

/-- The orientation the five `create_` functions of mainwindow.cpp pass to
`set_model` for each record type: VERTICAL_HEAD for the five top-level widgets,
HORIZONTAL_HEAD for the sub-widgets. -/
def startup_head (type : ElementType) : HeadLocal :=
  if type = SYSTEM_STATE ∨ type = CHAIN_OF_COMMAND ∨ type = PHOTOELECTRICITY_EQUIPMENT ∨
      type = DESCRIPTION_OF_INTERCEPTOR_WEAPON ∨ type = FIREPOWER_UNIT then VERTICAL_HEAD
  else HORIZONTAL_HEAD

/-- The `Qt::Orientation` of the header a `HeadLocal` selects. -/
def head_orientation (loc : HeadLocal) : Int :=
  if loc = VERTICAL_HEAD then Qt.Vertical else Qt.Horizontal

/-- The eleven lookup keys the specification lists for `add_data`. -/
def claimed_lookup_keys : List String :=
  ["power_off", "control_status", "scanning_mode", "radiation_state", "work_state",
   "equip_statu", "combat_permissions", "command_mode", "trace_status", "inter_ception_mode",
   "firepower_status"]

/-- An outside world in which the raster layer is valid; no file can be opened and
the uninitialised memory is zero. -/
def env_valid : Env :=
  { env_invalid with
    load_raster := fun uri baseName providerType =>
      { uri := uri, baseName := baseName, providerType := providerType, isValid := true,
        extent := { xmin := Double.ofInt 0, ymin := Double.ofInt 0, xmax := Double.ofInt 8,
                    ymax := Double.ofInt 4 } } }

/-- An outside world in which the style-sheet resource can be read; otherwise as
`env_invalid`. -/
def env_styled : Env :=
  { env_invalid with
    read_file := fun path => if path = ":qdarkstyle/style.qss" then some "color: white;" else none }

/-! ## The running window

The slots and event handlers that run after `init_window`, on the window state. -/

/-- Embeds `QAction::setChecked`: it has no effect on an action that is not checkable. -/
def QAction.setChecked (a : QAction) (checked : Bool) : QAction :=
  if !a.checkable || a.checked == checked then a else { a with checked := checked }

/-- An emission of `sig_close(b)` or of `sig_view(b)` by the widget at `p`.  Both
signals are connected in `Widget::bind_action` only (widget.cpp:16-20), to
`QAction::setChecked` of the bound action. -/
def emit_sig (w : MainWindow) (p : Nat) (b : Bool) : Option MainWindow := do
  let x ← w.widgets.get? p
  match x.action_ with
  | some action => do
    let actions ← heap_update w.actions action fun a => a.setChecked b
    pure { w with actions := actions }
  | none => pure w

/-- The loop of `Widget::show_sub_widget` (widget.cpp:172-174). -/
def show_each (w : MainWindow) : List Nat → Option MainWindow
  | [] => some w
  | var :: rest => (setVisible w var true).bind fun w => show_each w rest

/-- Embeds `Widget::show_sub_widget` (widget.cpp:170-176) on the widget at `p`. -/
def show_sub_widget (w : MainWindow) (p : Nat) : Option MainWindow := do
  let x ← w.widgets.get? p
  if !x.list_sub_widgets_.isEmpty then show_each w x.list_sub_widgets_ else pure w

/-- Embeds `MainWindow::slot_change_wid_statu` (mainwindow.cpp:56-68).  For a type
that is not a key, `map_widgets_[type]` is a null pointer, and `isVisible()` is
called on it before the null check. -/
def slot_change_wid_statu (w : MainWindow) (type : Int) : Option MainWindow := do
  let var ← QMap.find w.map_widgets_ type
  let x ← w.widgets.get? var
  let statu := x.visible
  if statu == true then setVisible w var false
  else do
    let w ← setVisible w var true
    show_sub_widget w var

/-- Embeds `QWidget::setGeometry(x, y, w, h)` on the widget at `p`. -/
def setGeometry (w : MainWindow) (p : Nat) (x y width height : Int) : Option MainWindow := do
  let widgets ← heap_update w.widgets p fun v =>
    { v with geometry := { x := x, y := y, width := width, height := height } }
  pure { w with widgets := widgets }

/-- The loop of the first branch of `from_arranged` (mainwindow.cpp:75-80), `count`
being the local of that name. -/
def arrange_overlaping (h wd : Int) : MainWindow → List (Int × Nat) → Int → Option MainWindow
  | w, [], _ => some w
  | w, (_, var) :: rest, count =>
    match w.widgets.get? var with
    | none => none
    | some x =>
      if x.visible then
        (setGeometry w var (Int.tdiv wd 3 + count) (Int.tdiv h 3 + count) x.geometry.width
          x.geometry.height).bind fun w2 => arrange_overlaping h wd w2 rest (count + 30)
      else arrange_overlaping h wd w rest count

/-- The loop of the second branch of `from_arranged` (mainwindow.cpp:82-87). -/
def arrange_horizontal (h : Int) : MainWindow → List (Int × Nat) → Int → Option MainWindow
  | w, [], _ => some w
  | w, (_, var) :: rest, count =>
    match w.widgets.get? var with
    | none => none
    | some x =>
      if x.visible then
        (setGeometry w var (0 + count) (Int.tdiv h 3) x.geometry.width x.geometry.height).bind
          fun w2 =>
            match w2.widgets.get? var with
            | none => none
            | some x2 => arrange_horizontal h w2 rest (count + (x2.geometry.width + 10))
      else arrange_horizontal h w rest count

/-- The loop of the third branch of `from_arranged` (mainwindow.cpp:89-94). -/
def arrange_vertical : MainWindow → List (Int × Nat) → Int → Option MainWindow
  | w, [], _ => some w
  | w, (_, var) :: rest, count =>
    match w.widgets.get? var with
    | none => none
    | some x =>
      if x.visible then
        (setGeometry w var 0 (0 + count) x.geometry.width x.geometry.height).bind
          fun w2 =>
            match w2.widgets.get? var with
            | none => none
            | some x2 => arrange_vertical w2 rest (count + x2.geometry.height)
      else arrange_vertical w rest count

/-- Embeds `MainWindow::from_arranged` (mainwindow.cpp:70-96); `action` is the action
the view menu reports as triggered.  The sizes of widgets are bounded by
`QWIDGETSIZE_MAX` and at most five widgets are arranged, so the `int` sums stay far
from the range of `int`. -/
def from_arranged (w : MainWindow) (action : Nat) : Option MainWindow :=
  let h := w.geometry.height
  let wd := w.geometry.width
  let count : Int := 0
  if some action = w.action_overlaping_ then
    arrange_overlaping h wd w w.map_parent_widgets_ count
  else if some action = w.action_horizontal_ then
    arrange_horizontal h w w.map_parent_widgets_ count
  else if some action = w.action_vertical_ then
    arrange_vertical w w.map_parent_widgets_ count
  else some w

/-- Embeds `Widget::closeEvent` (widget.cpp:53-58) on the widget at `p`. -/
def closeEvent (w : MainWindow) (p : Nat) : Option MainWindow := do
  let w ← setVisible w p false
  emit_sig w p false

/-- Embeds `QWidget::close` on the widget at `p`: the close event is delivered, then
the widget is hidden unless it is hidden already. -/
def close (w : MainWindow) (p : Nat) : Option MainWindow := do
  let w ← closeEvent w p
  let x ← w.widgets.get? p
  if x.visible then setVisible w p false else pure w

/-- The slot of the "close all" action (mainwindow.cpp:193-195), over the values of
`map_widgets_`. -/
def close_all (w : MainWindow) : List (Int × Nat) → Option MainWindow
  | [] => some w
  | (_, var) :: rest => (close w var).bind fun w => close_all w rest

/-- The slot of the "open all" action (mainwindow.cpp:197-202), over the values of
`map_widgets_`. -/
def open_all (w : MainWindow) : List (Int × Nat) → Option MainWindow
  | [] => some w
  | (_, var) :: rest =>
    ((setVisible w var true).bind fun w => emit_sig w var true).bind fun w => open_all w rest

/-- Embeds `QTableView::setRowHidden(row, hide)` on the view at `v`, which ignores a row
that is not a row of its model. -/
def setRowHidden (w : MainWindow) (v : Nat) (row : Int) (hide : Bool) : Option MainWindow := do
  let view ← w.views.get? v
  let count : Int :=
    match view.model.bind fun i => w.models.get? i with
    | some m => rowCount m
    | none => 0
  if row < 0 ∨ row ≥ count then pure w
  else
    let views ← heap_update w.views v fun q =>
      { q with hidden_rows :=
          if hide then (if row ∈ q.hidden_rows then q.hidden_rows else q.hidden_rows ++ [row])
          else q.hidden_rows.filter fun k => k ≠ row }
    pure { w with views := views }

/-- The first loop of `Widget::on_setting_visible` (widget.cpp:200-206) from index `i`
on: `in_view_` is dereferenced for every check box. -/
def rows_loop (in_view_ : Option Nat) : MainWindow → List Bool → Int → Option MainWindow
  | w, [], _ => some w
  | w, checked :: rest, i =>
    match in_view_ with
    | none => none
    | some v =>
      (if checked then setRowHidden w v i false else setRowHidden w v i true).bind
        fun w2 => rows_loop in_view_ w2 rest (i + 1)

/-- The second loop of `Widget::on_setting_visible` (widget.cpp:208-215) from index
`i` on; `list_sub_widgets_[i]` is defined only inside the list. -/
def subs_loop (list_sub_widgets_ : List Nat) :
    MainWindow → List Bool → Int → Option MainWindow
  | w, [], _ => some w
  | w, checked :: rest, i =>
    match QList.at list_sub_widgets_ i with
    | none => none
    | some p =>
      match w.widgets.get? p with
      | none => none
      | some x =>
        (if checked then (if !x.visible then setVisible w p true else some w)
          else (if x.visible then setVisible w p false else some w)).bind
          fun w2 => subs_loop list_sub_widgets_ w2 rest (i + 1)

/-- The call `pselect_list_->close()` of the widget at `p`: the event filter of the
widget (widget.cpp:60-68) answers the close event by hiding the selection window. -/
def close_select_list (w : MainWindow) (p : Nat) : Option MainWindow := do
  let x ← w.widgets.get? p
  match x.pselect_list_ with
  | none => none
  | some _ => do
    let widgets ← heap_update w.widgets p fun v => { v with pselect_list_ := some false }
    pure { w with widgets := widgets }

/-- Embeds `Widget::on_setting_visible` (widget.cpp:199-218) on the widget at `p`. -/
def on_setting_visible (w : MainWindow) (p : Nat) : Option MainWindow := do
  let x ← w.widgets.get? p
  let w ← rows_loop x.in_view_ w x.list_head_checkbox_ 0
  let w ← subs_loop x.list_sub_widgets_ w x.list_widget_checkbox_ 0
  close_select_list w p

/-- Embeds `Widget::create_select_list` (widget.cpp:87-161) on the widget at `p`: a
checked box for every label `in_model_->get_row_name(widget_type_)` points to and
for every sub-widget, and the selection window shown.  For a type without header
list `get_row_name` yields a null pointer, which the loop dereferences. -/
def create_select_list (w : MainWindow) (p : Nat) : Option MainWindow := do
  let x ← w.widgets.get? p
  let model ← x.in_model_
  let m ← w.models.get? model
  let string_list ← QMap.find m.map_headnames_ x.widget_type_
  let heads := x.list_head_checkbox_ ++ string_list.map fun _ => true
  let _ ← x.list_sub_widgets_.mapM fun var => w.widgets.get? var
  let subs := x.list_widget_checkbox_ ++ x.list_sub_widgets_.map fun _ => true
  let widgets ← heap_update w.widgets p fun v =>
    { v with pselect_list_ := some true, list_head_checkbox_ := heads,
             list_widget_checkbox_ := subs }
  pure { w with widgets := widgets }

/-- Embeds `Widget::show_select_list` (widget.cpp:163-168) on the widget at `p`. -/
def show_select_list (w : MainWindow) (p : Nat) : Option MainWindow := do
  let x ← w.widgets.get? p
  if x.pselect_list_ ≠ none then
    let widgets ← heap_update w.widgets p fun v => { v with pselect_list_ := some true }
    pure { w with widgets := widgets }
  else create_select_list w p

/-- The slots of the two buttons "check all" and "uncheck all" of the selection
window (widget.cpp:97-112) of the widget at `p`. -/
def check_all (w : MainWindow) (p : Nat) (checked : Bool) : Option MainWindow := do
  let widgets ← heap_update w.widgets p fun v =>
    { v with list_head_checkbox_ := v.list_head_checkbox_.map fun _ => checked,
             list_widget_checkbox_ := v.list_widget_checkbox_.map fun _ => checked }
  pure { w with widgets := widgets }

/-- Embeds `QAction::activate(QAction::Trigger)` as far as the state of the action goes:
a checkable action is toggled before `triggered` is emitted. -/
def QAction.activate (a : QAction) : QAction :=
  if a.checkable then { a with checked := !a.checked } else a

/-- The user triggers the action `create_menubar` made for the widget
`map_widgets_[type]` (e.g. mainwindow.cpp:211-216), which is the action bound to
that widget: the action is activated, the view menu reports it to `from_arranged`
(mainwindow.cpp:209), and the slot of the action emits `sig_change_wid_statu(type)`,
which is connected to `slot_change_wid_statu` (mainwindow.cpp:246). -/
def trigger_widget_action (w : MainWindow) (type : Int) : Option MainWindow := do
  let p ← QMap.find w.map_widgets_ type
  let x ← w.widgets.get? p
  let action ← x.action_
  let actions ← heap_update w.actions action QAction.activate
  let w := { w with actions := actions }
  let w ← from_arranged w action
  slot_change_wid_statu w type

/-- What can happen in the running window: the user triggers the action of a
widget in the view menu, or another action of the view menu (which `from_arranged`
receives), closes a widget, triggers "close all" or "open all", and, in the widget
at `p`, asks for the selection list, checks or unchecks all its boxes, confirms or
cancels it. -/
inductive UiOp where
  | menu_widget (type : Int)
  | menu_action (action : Nat)
  | close_widget (p : Nat)
  | menu_close_all
  | menu_open_all
  | select_button (p : Nat)
  | check_button (p : Nat) (checked : Bool)
  | ok_button (p : Nat)
  | cancel_button (p : Nat)
  deriving Repr

/-- The handler that runs for each of these. -/
def UiOp.run (w : MainWindow) : UiOp → Option MainWindow
  | .menu_widget type => trigger_widget_action w type
  | .menu_action action => from_arranged w action
  | .close_widget p => close w p
  | .menu_close_all => close_all w w.map_widgets_
  | .menu_open_all => open_all w w.map_widgets_
  | .select_button p => show_select_list w p
  | .check_button p checked => check_all w p checked
  | .ok_button p => on_setting_visible w p
  | .cancel_button p => close_select_list w p

/-- A sequence of them, one after the other. -/
def run_ops : MainWindow → List UiOp → Option MainWindow
  | w, [] => some w
  | w, op :: ops => (op.run w).bind fun w2 => run_ops w2 ops


/-- The rows every model of the window holds. -/
def rows_held (w : MainWindow) : List (List (List QVariant)) :=
  w.models.map fun m => m.data_

/-- A small window made with the functions of start-up: the chain-of-command widget
with its start-up record, the "tile horizontally" action and the action of the
widget. -/
def demo_window : Option MainWindow := do
  let w ← create_chain_of_command MainWindow.members env_invalid
  let (w, a) := addAction w "水平平铺"
  let w := { w with action_horizontal_ := some a }
  let w ← add_widget_action w "指控系统装备状态显示" CHAIN_OF_COMMAND
  model_add_data w CHAIN_OF_COMMAND
    (.chainOfCommand { work_state := 0, war_preparedness_lv := 0, equip_state := 0,
                       combat_permissions := 0, command_mode := 0 })
    CHAIN_OF_COMMAND

/-- A session in that window that uses every kind of operation. -/
def demo_session : List UiOp :=
  [.menu_widget CHAIN_OF_COMMAND, .menu_open_all, .select_button 0, .check_button 0 false,
   .ok_button 0, .select_button 0, .cancel_button 0, .menu_action 0, .close_widget 0,
   .menu_close_all]

/-! ## Reading the cells -/

/-- A `QModelIndex`: its row and column and the model it refers to (`none`: no
model, as in a default-constructed index). -/
structure QModelIndex where
  row : Int
  column : Int
  model : Option Nat
  deriving DecidableEq, Repr

/-- Embeds `QModelIndex::isValid`: row and column are not negative and there is a model. -/
def QModelIndex.isValid (index : QModelIndex) : Bool :=
  decide (0 ≤ index.row) && decide (0 ≤ index.column) && index.model.isSome

/-- The value of `Qt::EditRole`. -/
abbrev Qt.EditRole : Int := 2

/-- The value of `Qt::TextAlignmentRole`. -/
abbrev Qt.TextAlignmentRole : Int := 7

/-- The value of `Qt::AlignCenter`, `Qt::AlignHCenter | Qt::AlignVCenter`. -/
abbrev Qt.AlignCenter : Int := 132

/-- Embeds `TableModel::data` (tablemodel.cpp:397-413); the two `at` are unchecked. -/
def data (m : TableModel) (index : QModelIndex) (role : Int) : Option QVariant :=
  let row := index.row
  let column := index.column
  if !index.isValid then some QVariant.invalid
  else if role = Qt.DisplayRole ∨ role = Qt.EditRole then
    if row ≥ (m.data_.length : Int) then some QVariant.invalid
    else
      match QList.at m.data_ row with
      | none => none
      | some r =>
        if column ≥ (r.length : Int) then some QVariant.invalid
        else QList.at r column
  else if role = Qt.TextAlignmentRole then some (QVariant.int Qt.AlignCenter)
  else some QVariant.invalid

/-- The cell stored at a row and a column, if there is one. -/
def stored_cell (m : TableModel) (row column : Int) : Option QVariant :=
  if 0 ≤ row ∧ 0 ≤ column then
    (m.data_.get? row.toNat).bind fun r => r.get? column.toNat
  else none

/-- A model whose two rows differ in length. -/
def ragged_model : TableModel :=
  { TableModel.fresh with data_ := [[.int 1, .int 2, .int 3], [.string "a"]] }

/-! ## The wiring of the window -/

/-- The wiring of a widget: its bound action and its sub-widgets. -/
def wires (x : Widget) : Option Nat × List Nat := (x.action_, x.list_sub_widgets_)

/-- The three arrangement actions of the window. -/
def menu_actions (w : MainWindow) : Option Nat × Option Nat × Option Nat :=
  (w.action_overlaping_, w.action_horizontal_, w.action_vertical_)

/-- The wiring of the window: that of its widgets, its actions, and the three
arrangement actions. -/
def wiring (w : MainWindow) :
    List (Option Nat × List Nat) × List QAction × (Option Nat × Option Nat × Option Nat) :=
  (w.widgets.map wires, w.actions, menu_actions w)

/-- The wiring of the twelve widgets before `create_menubar` binds the actions. -/
def created_wires : List (Option Nat × List Nat) :=
  [(none, [1, 2, 3, 4]), (none, []), (none, []), (none, []), (none, []), (none, []),
   (none, []), (none, [8, 9]), (none, []), (none, []), (none, [11]), (none, [])]

/-- The wiring of the twelve widgets after `create_menubar`. -/
def startup_wires : List (Option Nat × List Nat) :=
  [(some 6, [1, 2, 3, 4]), (none, []), (none, []), (none, []), (none, []), (some 7, []),
   (some 8, []), (some 9, [8, 9]), (none, []), (none, []), (some 10, [11]), (none, [])]

/-- The actions `create_menubar` makes, as it leaves them. -/
def startup_actions : List QAction :=
  [{ text := "打开文件", checkable := false, checked := false },
   { text := "关闭所有", checkable := false, checked := false },
   { text := "打开所有", checkable := false, checked := false },
   { text := "重叠", checkable := false, checked := false },
   { text := "水平平铺", checkable := false, checked := false },
   { text := "垂直平铺", checkable := false, checked := false },
   { text := "雷达系统状态显示", checkable := true, checked := false },
   { text := "指控系统装备状态显示", checkable := true, checked := false },
   { text := "光电装备状态显示", checkable := true, checked := false },
   { text := "拦截武器显示", checkable := true, checked := false },
   { text := "火力单元状态显示", checkable := true, checked := false }]

/-- The visibility flags of the widgets, by pointer. -/
def visibility (w : MainWindow) : List Bool := w.widgets.map fun x => x.visible

/-- The check states of the actions, by pointer. -/
def checks (w : MainWindow) : List Bool := w.actions.map fun a => a.checked

/-- What no operation of the running window changes: the wiring of the widgets, the
text and checkability of the actions, the three arrangement actions and the two
maps. -/
def fixed (w : MainWindow) :
    List (Option Nat × List Nat) × List (String × Bool) ×
      (Option Nat × Option Nat × Option Nat) × QMap Int Nat × QMap Int Nat :=
  (w.widgets.map wires, w.actions.map (fun a => (a.text, a.checkable)), menu_actions w,
    w.map_widgets_, w.map_parent_widgets_)

/-- The value of `fixed` in the state `init_window` ends in. -/
def startup_fixed :
    List (Option Nat × List Nat) × List (String × Bool) ×
      (Option Nat × Option Nat × Option Nat) × QMap Int Nat × QMap Int Nat :=
  (startup_wires, startup_actions.map (fun a => (a.text, a.checkable)),
    (some 3, some 4, some 5), startup_map, startup_parent_map)

/-! ## Tiling -/

/-- Whether the widget at `q` is there and visible. -/
def is_visible (w : MainWindow) (q : Nat) : Bool :=
  match w.widgets.get? q with
  | some x => x.visible
  | none => false

/-- The widgets a loop of `from_arranged` over `l` moves: the visible ones, in the
order of `l`. -/
def visible_of (w : MainWindow) (l : List (Int × Nat)) : List Nat :=
  (l.map Prod.snd).filter (is_visible w)

/-- The width of the widget at `q`. -/
def width_of (w : MainWindow) (q : Nat) : Int :=
  match w.widgets.get? q with
  | some x => x.geometry.width
  | none => 0

/-- The height of the widget at `q`. -/
def height_of (w : MainWindow) (q : Nat) : Int :=
  match w.widgets.get? q with
  | some x => x.geometry.height
  | none => 0

/-- The coordinates the specification gives tiled widgets of the sizes listed: the
first is at `start`, each next one at the previous coordinate plus the previous size
plus `gap`. -/
def tiled (gap : Int) : List Int → Int → List Int
  | [], _ => []
  | size :: rest, start => start :: tiled gap rest (start + size + gap)

/-- A window with three top-level widgets of different sizes, the second hidden,
and the three arrangement actions. -/
def tiling_window : MainWindow :=
  let x : Widget := Widget.new env_invalid ""
  { MainWindow.members with
    geometry := { x := 0, y := 0, width := 1920, height := 1080 },
    widgets :=
      [{ x with visible := true, geometry := { x := 5, y := 5, width := 300, height := 200 } },
       { x with visible := false, geometry := { x := 7, y := 7, width := 100, height := 100 } },
       { x with visible := true, geometry := { x := 9, y := 9, width := 250, height := 150 } }],
    map_parent_widgets_ := [(SYSTEM_STATE, 0), (CHAIN_OF_COMMAND, 1), (FIREPOWER_UNIT, 2)],
    action_overlaping_ := some 0, action_horizontal_ := some 1, action_vertical_ := some 2 }

/-! ## Menu actions and visibility -/

/-- The five top-level widgets with the actions `create_menubar` binds to them, as
pairs of pointers (widget, action). -/
def bound_pairs : List (Nat × Nat) := [(0, 6), (5, 7), (6, 8), (7, 9), (10, 10)]

/-- The record types of the five top-level widgets. -/
def top_level_types : List ElementType :=
  [SYSTEM_STATE, CHAIN_OF_COMMAND, PHOTOELECTRICITY_EQUIPMENT,
   DESCRIPTION_OF_INTERCEPTOR_WEAPON, FIREPOWER_UNIT]

/-- The visibility flags and the check states agree on every bound pair. -/
def sync_lists (vis chk : List Bool) : Prop :=
  ∀ e ∈ bound_pairs, vis.get? e.1 = chk.get? e.2

/-- The bound action of the widget of `type` is checked if and only if the widget is
visible. -/
def checked_iff_visible (w : MainWindow) (type : ElementType) : Prop :=
  ∃ p x a act, QMap.find w.map_widgets_ type = some p ∧ w.widgets.get? p = some x ∧
    x.action_ = some a ∧ w.actions.get? a = some act ∧
    (act.checked = true ↔ x.visible = true)

/-- The visibility flags and the check states of the window. -/
def flags (w : MainWindow) : List Bool × List Bool := (visibility w, checks w)

/-- The invariant of the running window: on every bound pair the visibility flag of
the widget equals the check state of the action. -/
def synced (w : MainWindow) : Prop := sync_lists (visibility w) (checks w)

/-- The operations the invariant is stated for, with arguments that exist in the
window: toggling the menu action of a top-level widget, an arrangement action of the
view menu, closing a widget, close-all and open-all. -/
def UiOp.available : UiOp → Bool
  | .menu_widget type => decide (type ∈ top_level_types)
  | .menu_action _ => true
  | .close_widget p => decide (p < 12)
  | .menu_close_all => true
  | .menu_open_all => true
  | .select_button _ => false
  | .check_button _ _ => false
  | .ok_button _ => false
  | .cancel_button _ => false

/-! ## Theorems -/

theorem QMap.find_insert_self {κ α : Type} [DecidableEq κ] [QMapKey κ]
    (m : QMap κ α) (k : κ) (v : α) : QMap.find (QMap.insert m k v) k = some v := by
  induction m with
  | nil => simp [QMap.insert, QMap.find]
  | cons p rest ih =>
    obtain ⟨k', v'⟩ := p
    unfold QMap.insert
    by_cases h1 : QMapKey.lt k k' = true
    · simp [h1, QMap.find]
    · by_cases h2 : k = k'
      · subst h2
        simp [h1, QMap.find]
      · simp [h1, h2, QMap.find, ih]

theorem QMap.contains_insert_self {κ α : Type} [DecidableEq κ] [QMapKey κ]
    (m : QMap κ α) (k : κ) (v : α) : QMap.contains (QMap.insert m k v) k = true := by
  simp [QMap.contains, QMap.find_insert_self]

theorem para_choose_variant_slot (m : TableModel) (k : ElementType) (key : String) (i : Int) :
    para_choose (variant_slot m k).1 key i = para_choose m key i := by
  unfold variant_slot para_choose
  split <;> rfl

theorem ite_para_choose (m : TableModel) (key : String) (i : Int) :
    (if QMap.contains m.map_para_choose_ key = true then para_choose m key i
      else some (QVariant.string "")) = para_choose m key i := by
  unfold para_choose
  split <;> simp_all

/-- The shared tail always succeeds: it appends the rows of `val1` and touches
nothing else but `map_variants_`. -/
theorem store_spec (m : TableModel) (type : ElementType) (val1 : QVariantList) :
    ∃ m2, store m type val1 = some m2 ∧
      m2.data_ = m.data_ ++ val1.map QVariant.toList ∧
      m2.map_para_choose_ = m.map_para_choose_ ∧
      m2.map_headnames_ = m.map_headnames_ ∧
      m2.phor_head_data_ = m.phor_head_data_ ∧
      m2.pver_head_data_ = m.pver_head_data_ := by
  unfold store variant_slot
  by_cases h : QMap.contains m.map_variants_ type = true
  · cases val1 <;>
      simp [h, setValue, view_data, QMap.find_insert_self, QMap.contains_insert_self,
        QVariant.toList]
  · cases val1 <;>
      simp [h, setValue, view_data, QMap.find_insert_self, QMap.contains_insert_self,
        QVariant.toList]

/-- Refinement: `add_data`, called with the type of the record, evaluates the cells
of `Record.cells`, lays them out as `Record.rows` and stores them. -/
theorem add_data_eq_project (m : TableModel) (r : Record) :
    add_data m r r.type = (eval_cells m r.cells).bind fun vs => store m r.type (r.rows vs) := by
  cases r <;>
    simp only [add_data, add_data_switch, STRING_PUSH, store, Record.type, Record.cells,
      Record.rows, Record.cell_per_row, eval_cells, CellSource.eval] <;>
    simp [para_choose_variant_slot, ite_para_choose, Option.bind_assoc, Option.map_eq_bind]
  split
  all_goals simp [Option.bind_assoc]

theorem QMap.find_insert_ne {κ α : Type} [DecidableEq κ] [QMapKey κ]
    (m : QMap κ α) (k k2 : κ) (v : α) (h : k2 ≠ k) :
    QMap.find (QMap.insert m k v) k2 = QMap.find m k2 := by
  induction m with
  | nil => simp [QMap.insert, QMap.find, h]
  | cons p rest ih =>
    obtain ⟨k', v'⟩ := p
    unfold QMap.insert
    by_cases h1 : QMapKey.lt k k' = true
    · simp [h1, QMap.find, h]
    · by_cases h2 : k = k'
      · subst h2
        simp [h1, QMap.find, h]
      · simp [h1, h2, QMap.find, ih]

theorem eval_cells_eq_some (m : TableModel) (cs : List CellSource) (vs : List QVariant) :
    eval_cells m cs = some vs ↔ cs.map (CellSource.eval m) = vs.map some := by
  induction cs generalizing vs with
  | nil => cases vs <;> simp [eval_cells]
  | cons c cs ih =>
    cases vs with
    | nil => cases hc : c.eval m <;> cases hcs : eval_cells m cs <;> simp [eval_cells, hc, hcs]
    | cons v vs =>
      cases hc : c.eval m with
      | none => simp [eval_cells, hc]
      | some v2 =>
        cases hcs : eval_cells m cs with
        | none =>
          have := ih vs
          simp [eval_cells, hc, hcs] at this ⊢
          intro _
          exact this
        | some vs2 =>
          have := (ih vs2).mp hcs
          simp only [eval_cells, hc, hcs, Option.some_bind, Option.map_some', Option.some.injEq,
            List.cons.injEq, List.map_cons, this]
          constructor
          · rintro ⟨rfl, rfl⟩
            exact ⟨rfl, rfl⟩
          · rintro ⟨rfl, h⟩
            refine ⟨rfl, ?_⟩
            exact List.map_injective_iff.mpr (Option.some_injective _) h

theorem eval_cells_length (m : TableModel) (cs : List CellSource) (vs : List QVariant)
    (h : eval_cells m cs = some vs) : vs.length = cs.length := by
  have := congrArg List.length ((eval_cells_eq_some m cs vs).mp h)
  simpa using this.symm

theorem eval_cells_get (m : TableModel) (cs : List CellSource) (vs : List QVariant)
    (h : eval_cells m cs = some vs) (i : Nat) (c : CellSource) (hc : cs.get? i = some c) :
    ∃ v, c.eval m = some v ∧ vs.get? i = some v := by
  have h1 := congrArg (fun l => l.get? i) ((eval_cells_eq_some m cs vs).mp h)
  simp only [List.get?_eq_getElem?, List.getElem?_map] at h1 hc
  rw [hc] at h1
  cases hv : vs[i]? with
  | none => simp [hv] at h1
  | some v =>
    simp only [hv, Option.map_some', Option.some.injEq] at h1
    exact ⟨v, h1, by simpa using hv⟩

theorem CellSource.eval_isSome (m : TableModel) (c : CellSource) :
    (c.eval m).isSome = c.in_range m := by
  cases c with
  | plain v => rfl
  | coded key value =>
    unfold CellSource.eval CellSource.in_range QMap.contains
    cases hf : QMap.find m.map_para_choose_ key with
    | none => simp [hf]
    | some t =>
      cases value with
      | none => simp [hf]
      | some v =>
        simp only [Option.isSome_some, if_true, Option.some_bind, para_choose, QMap.contains, hf,
          QList.at]
        by_cases h0 : 0 ≤ v
        · by_cases h1 : v < (t.length : Int)
          · have : v.toNat < t.length := by omega
            simp [h0, h1, List.getElem?_eq_getElem this]
          · have : t.length ≤ v.toNat := by omega
            simp [h0, h1, List.getElem?_eq_none this]
        · simp [h0]

theorem eval_cells_of_in_range (m : TableModel) (cs : List CellSource)
    (h : cs.all (CellSource.in_range m) = true) : ∃ vs, eval_cells m cs = some vs := by
  induction cs with
  | nil => exact ⟨[], rfl⟩
  | cons c cs ih =>
    simp only [List.all_cons, Bool.and_eq_true] at h
    obtain ⟨vs, hvs⟩ := ih h.2
    have h1 := CellSource.eval_isSome m c
    rw [h.1] at h1
    obtain ⟨v, hv⟩ := Option.isSome_iff_exists.mp h1
    exact ⟨v :: vs, by simp [eval_cells, hv, hvs]⟩

theorem rows_flatten (r : Record) (vs : List QVariant) :
    ((r.rows vs).map QVariant.toList).flatten = vs := by
  unfold Record.rows
  split
  · induction vs with
    | nil => rfl
    | cons v vs ih => simpa [QVariant.toList] using ih
  · simp [QVariant.toList]

/-- What a successful `add_data` did: the cells evaluated and their rows were
appended; the tables and the headers are as before. -/
theorem add_data_some (m m2 : TableModel) (r : Record) (h : add_data m r r.type = some m2) :
    ∃ vs, eval_cells m r.cells = some vs ∧
      m2.data_ = m.data_ ++ (r.rows vs).map QVariant.toList ∧
      m2.map_para_choose_ = m.map_para_choose_ ∧
      m2.map_headnames_ = m.map_headnames_ ∧
      m2.phor_head_data_ = m.phor_head_data_ ∧
      m2.pver_head_data_ = m.pver_head_data_ := by
  rw [add_data_eq_project] at h
  cases hvs : eval_cells m r.cells with
  | none => simp [hvs] at h
  | some vs =>
    obtain ⟨m3, h3, hrest⟩ := store_spec m r.type (r.rows vs)
    simp only [hvs, Option.some_bind, h3, Option.some.injEq] at h
    subst h
    exact ⟨vs, rfl, hrest⟩

/-- The function `add_data` has a result exactly when every cell of the record evaluates. -/
theorem add_data_of_eval (m : TableModel) (r : Record) (vs : List QVariant)
    (h : eval_cells m r.cells = some vs) : ∃ m2, add_data m r r.type = some m2 := by
  obtain ⟨m3, h3, _⟩ := store_spec m r.type (r.rows vs)
  exact ⟨m3, by rw [add_data_eq_project, h]; exact h3⟩

theorem add_data_of_in_range (m : TableModel) (r : Record) (h : r.in_range m = true) :
    ∃ m2, add_data m r r.type = some m2 := by
  obtain ⟨vs, hvs⟩ := eval_cells_of_in_range m r.cells h
  exact add_data_of_eval m r vs hvs

theorem appended_flatten (m m2 : TableModel) (r : Record) (vs : List QVariant)
    (h : m2.data_ = m.data_ ++ (r.rows vs).map QVariant.toList) :
    (appended m m2).flatten = vs := by
  unfold appended
  rw [h, List.drop_left, rows_flatten]

theorem fresh_data : TableModel.fresh.data_ = [] := rfl

theorem new_eq_fresh : TableModel.new = some TableModel.fresh := rfl

/-- C1, evaluated at the start-up record of the interceptor-weapon widget: on a
freshly constructed model `add_data` yields six one-cell rows (`rowCount() = 6`),
while the header list `init_text_data` declares for
DESCRIPTION_OF_INTERCEPTOR_WEAPON has seven labels. -/
theorem C1_interceptor_weapon_rows_vs_header :
    ∃ m2 header,
      add_data TableModel.fresh (.descriptionOfInterceptorWeapon doiw_zero)
        DESCRIPTION_OF_INTERCEPTOR_WEAPON = some m2 ∧
      m2.data_.all (fun row => row.length == 1) = true ∧
      rowCount m2 = 6 ∧
      QMap.find TableModel.fresh.map_headnames_ DESCRIPTION_OF_INTERCEPTOR_WEAPON = some header ∧
      header.length = 7 :=
  ⟨_, _, rfl, rfl, rfl, rfl, rfl⟩

/-- For the four other vertically-headed types the number of one-cell rows is the
length of the declared header list, whatever the record. -/
theorem vertical_rows_match_header (r : Record)
    (ht : r.type ∈ [SYSTEM_STATE, CHAIN_OF_COMMAND, PHOTOELECTRICITY_EQUIPMENT, FIREPOWER_UNIT])
    (hr : r.in_range TableModel.fresh = true) :
    ∃ m2 header,
      add_data TableModel.fresh r r.type = some m2 ∧
      m2.data_.all (fun row => row.length == 1) = true ∧
      QMap.find TableModel.fresh.map_headnames_ r.type = some header ∧
      rowCount m2 = header.length := by
  obtain ⟨m2, hm2⟩ := add_data_of_in_range _ r hr
  obtain ⟨vs, hvs, hdata, -⟩ := add_data_some _ _ r hm2
  have hlen := eval_cells_length _ _ _ hvs
  rw [fresh_data, List.nil_append] at hdata
  cases r <;> simp [Record.type] at ht <;>
    exact ⟨m2, _, hm2, by simp [hdata, Record.rows, Record.cell_per_row, QVariant.toList], rfl,
      by simp [rowCount, hdata, Record.rows, Record.cell_per_row, hlen, Record.cells]⟩

/-- C2: for each of the seven horizontally-headed record types and every record of
it whose coded fields lie inside their lookup tables, `add_data` on a freshly
constructed model succeeds and appends exactly one row, and `columnCount()`, the
cell count of that row, is the length of the header list `init_text_data` declares
for the type. -/
theorem C2_horizontal_row_matches_header (r : Record)
    (ht : r.type ∈ [WORK_PATTERN, RADIATION_STATE, WORK_FREQUENCY, DISTURB_DIRECTION,
      GBI_RESOURCES, GUIDANCE_RADAR, FIREPOWER_UNIT_AISLE])
    (hr : r.in_range TableModel.fresh = true) :
    ∃ m2 row header,
      add_data TableModel.fresh r r.type = some m2 ∧
      m2.data_ = [row] ∧
      rowCount m2 = 1 ∧
      QMap.find TableModel.fresh.map_headnames_ r.type = some header ∧
      columnCount m2 = header.length ∧
      (row.length : Int) = columnCount m2 := by
  obtain ⟨m2, hm2⟩ := add_data_of_in_range _ r hr
  obtain ⟨vs, hvs, hdata, -⟩ := add_data_some _ _ r hm2
  have hlen := eval_cells_length _ _ _ hvs
  rw [fresh_data, List.nil_append] at hdata
  cases r <;> simp [Record.type] at ht <;>
    exact ⟨m2, vs, _, hm2, by simp [hdata, Record.rows, Record.cell_per_row, QVariant.toList],
      by simp [rowCount, hdata, Record.rows, Record.cell_per_row], rfl,
      by simp [columnCount, hdata, Record.rows, Record.cell_per_row, QVariant.toList, hlen,
        Record.cells],
      by simp [columnCount, hdata, Record.rows, Record.cell_per_row, QVariant.toList]⟩

theorem C2_horizontal_row_matches_header_witness :
    (Record.radiationState { equipment_id := 7, radiation_state := 1 }).in_range
      TableModel.fresh = true ∧
    ∃ m2 row header,
      add_data TableModel.fresh (.radiationState { equipment_id := 7, radiation_state := 1 })
        RADIATION_STATE = some m2 ∧
      m2.data_ = [row] ∧
      rowCount m2 = 1 ∧
      QMap.find TableModel.fresh.map_headnames_ RADIATION_STATE = some header ∧
      columnCount m2 = header.length ∧
      (row.length : Int) = columnCount m2 :=
  ⟨by decide,
    C2_horizontal_row_matches_header (.radiationState { equipment_id := 7, radiation_state := 1 })
      (by decide) (by decide)⟩

theorem eval_coded_in_range (m : TableModel) (key : String) (v : Int) (t : List String)
    (ht : QMap.find m.map_para_choose_ key = some t) (h0 : 0 ≤ v) (h1 : v < (t.length : Int)) :
    ∃ label, t.get? v.toNat = some label ∧
      (CellSource.coded key (some v)).eval m = some (QVariant.string label) := by
  have hlt : v.toNat < t.length := by omega
  refine ⟨t[v.toNat], by simp [List.getElem?_eq_getElem hlt], ?_⟩
  simp [CellSource.eval, para_choose, QMap.contains, ht, QList.at, h0,
    List.getElem?_eq_getElem hlt]

/-- C3: whatever the record type, for a coded field of the record (cell `i` of the
case, looked up under `key`) whose value `v` satisfies `0 <= v < length` of its
lookup table `t`, the cell `add_data` produces for the field is exactly the `v`-th
label of `t`; and `add_data` does produce the cells when every coded field of the
record is inside its table. -/
theorem C3_in_range_value_shows_label (m : TableModel) (r : Record) (i : Nat) (key : String)
    (v : Int) (t : List String)
    (hc : r.cells.get? i = some (CellSource.coded key (some v)))
    (ht : QMap.find m.map_para_choose_ key = some t)
    (h0 : 0 ≤ v) (h1 : v < (t.length : Int)) :
    (∀ m2, add_data m r r.type = some m2 →
      ∃ label, t.get? v.toNat = some label ∧
        (appended m m2).flatten.get? i = some (QVariant.string label)) ∧
    (r.in_range m = true → ∃ m2, add_data m r r.type = some m2) := by
  refine ⟨?_, add_data_of_in_range m r⟩
  intro m2 hm2
  obtain ⟨vs, hvs, hdata, -⟩ := add_data_some m m2 r hm2
  obtain ⟨x, hx, hget⟩ := eval_cells_get m _ _ hvs i _ hc
  obtain ⟨label, hl, hev⟩ := eval_coded_in_range m key v t ht h0 h1
  rw [hev] at hx
  cases hx
  exact ⟨label, hl, by rw [appended_flatten m m2 r vs hdata]; exact hget⟩

theorem C3_in_range_value_shows_label_witness :
    (Record.radiationState { equipment_id := 7, radiation_state := 1 }).cells.get? 1 =
        some (CellSource.coded "radiation_state" (some 1)) ∧
    QMap.find TableModel.fresh.map_para_choose_ "radiation_state" =
        some ["辐射", "静默", "闪烁"] ∧
    ((∀ m2, add_data TableModel.fresh
          (Record.radiationState { equipment_id := 7, radiation_state := 1 })
          RADIATION_STATE = some m2 →
      ∃ label, ["辐射", "静默", "闪烁"].get? (1 : Int).toNat = some label ∧
        (appended TableModel.fresh m2).flatten.get? 1 = some (QVariant.string label)) ∧
    ((Record.radiationState { equipment_id := 7, radiation_state := 1 }).in_range
        TableModel.fresh = true →
      ∃ m2, add_data TableModel.fresh
        (Record.radiationState { equipment_id := 7, radiation_state := 1 })
        RADIATION_STATE = some m2)) :=
  ⟨rfl, rfl,
    C3_in_range_value_shows_label TableModel.fresh
      (Record.radiationState { equipment_id := 7, radiation_state := 1 }) 1 "radiation_state" 1
      ["辐射", "静默", "闪烁"] rfl rfl (by decide) (by decide)⟩

/-- When the lookup table of a coded field is present and the index handed to `at`
is outside the table (negative, at least the length of the table, or no `int` at
all), the call is outside the list, which Qt leaves undefined, and the embedded
`add_data` has no result, whatever the record type: no comparison of the index with
the length of the table precedes any of the lookups. -/
theorem coded_out_of_range_undefined (m : TableModel) (r : Record) (i : Nat) (key : String)
    (value : Option Int) (t : List String)
    (hc : r.cells.get? i = some (CellSource.coded key value))
    (ht : QMap.find m.map_para_choose_ key = some t)
    (hv : ∀ v, value = some v → v < 0 ∨ (t.length : Int) ≤ v) :
    add_data m r r.type = none := by
  cases h : add_data m r r.type with
  | none => rfl
  | some m2 =>
    exfalso
    obtain ⟨vs, hvs, -⟩ := add_data_some m m2 r h
    obtain ⟨x, hx, -⟩ := eval_cells_get m _ _ hvs i _ hc
    have h1 := CellSource.eval_isSome m (CellSource.coded key value)
    rw [hx] at h1
    cases value with
    | none => simp [CellSource.in_range, ht] at h1
    | some v =>
      have := hv v rfl
      simp only [CellSource.in_range, ht, Option.isSome_some] at h1
      have h2 := h1.symm
      simp only [Bool.and_eq_true, decide_eq_true_eq] at h2
      omega

/-- C4, evaluated where the code departs from it.  On a freshly constructed model
the table "firepower_status" is present with five labels, so for the channel status
5 `add_data` takes the branch that calls `at(5)` on the table; nothing compares the
index with the length, the index is outside the list, the call has no defined
result and so neither has `add_data`, where the claim asks for the empty string and
the rows appended; likewise for the power state -1.  The empty string is what the
same record shows only when the table is missing.  And the `double` status -9/10 of
an interceptor-weapon record, a negative value, converts to the index 0: the call
completes and the cell is the first label of "work_state", not the empty string. -/
theorem C4_out_of_range_index_unchecked :
    QMap.find TableModel.fresh.map_para_choose_ "firepower_status" =
        some ["无效", "空闲", "占用", "拦截", "已拦"] ∧
    (Record.firepowerUnitAisle aisle_five).cells.get? 2 =
        some (CellSource.coded "firepower_status" (some 5)) ∧
    QList.at ["无效", "空闲", "占用", "拦截", "已拦"] 5 = none ∧
    add_data TableModel.fresh (.firepowerUnitAisle aisle_five) FIREPOWER_UNIT_AISLE = none ∧
    add_data TableModel.fresh
        (.systemState { power_off := -1, control_state := 0, scanning_mode := 0,
                        antenna_eleva_angle := Double.ofInt 0, beam_eleva_angle := Double.ofInt 0,
                        eccm_measures := 0, clutter_map := "", emi_intensity := Double.ofInt 0,
                        time_alloca_state := Double.ofInt 0, track_data_rate := Double.ofInt 0 })
        SYSTEM_STATE = none ∧
    (∃ m2, add_data TableModel.members (.firepowerUnitAisle aisle_five) FIREPOWER_UNIT_AISLE
        = some m2 ∧
      appended TableModel.members m2 = [[.int 0, .int 0, .string ""]]) ∧
    Double.toInt doiw_fraction.status = some 0 ∧
    (∃ m2, add_data TableModel.fresh (.descriptionOfInterceptorWeapon doiw_fraction)
        DESCRIPTION_OF_INTERCEPTOR_WEAPON = some m2 ∧
      rowCount m2 = 6 ∧
      (appended TableModel.fresh m2).flatten.get? 0 = some (.string "作战")) :=
  ⟨rfl, rfl, rfl, rfl, rfl, ⟨_, rfl, rfl⟩, by decide, ⟨_, rfl, rfl, rfl⟩⟩

theorem distinct_keys_get (l : List (Option String)) (h : distinct_keys l = true) (i j : Nat)
    (k : String) (hi : l.get? i = some (some k)) (hj : l.get? j = some (some k)) : i = j := by
  induction l generalizing i j with
  | nil => simp at hi
  | cons a l ih =>
    have hmem : ∀ n, l.get? n = some (some k) → some k ∈ l := fun n hn => List.get?_mem hn
    cases a with
    | none =>
      cases i with
      | zero => simp at hi
      | succ i =>
        cases j with
        | zero => simp at hj
        | succ j =>
          simp only [distinct_keys] at h
          simp only [List.get?_cons_succ] at hi hj
          rw [ih h i j hi hj]
    | some k2 =>
      simp only [distinct_keys, Bool.and_eq_true, Bool.not_eq_true', List.contains_eq_any_beq,
        List.any_eq_false, beq_iff_eq] at h
      cases i with
      | zero =>
        cases j with
        | zero => rfl
        | succ j =>
          simp only [List.get?_cons_zero, Option.some.injEq] at hi
          simp only [List.get?_cons_succ] at hj
          exact absurd (congrArg some hi) (h.1 _ (hmem j hj))
      | succ i =>
        cases j with
        | zero =>
          simp only [List.get?_cons_zero, Option.some.injEq] at hj
          simp only [List.get?_cons_succ] at hi
          exact absurd (congrArg some hj) (h.1 _ (hmem i hi))
        | succ j =>
          simp only [List.get?_cons_succ] at hi hj
          rw [ih h.2 i j hi hj]

/-- Within one record no two coded fields share a lookup key. -/
theorem cells_distinct_keys (r : Record) :
    distinct_keys (r.cells.map CellSource.key) = true := by
  cases r <;> rfl

theorem eval_with_table_ne (m : TableModel) (key : String) (t : List String) (c : CellSource)
    (h : c.key ≠ some key) : c.eval (with_table m key t) = c.eval m := by
  cases c with
  | plain v => rfl
  | coded k value =>
    have hk : k ≠ key := fun e => h (by simp [CellSource.key, e])
    simp [CellSource.eval, para_choose, with_table, QMap.contains, QMap.find_insert_ne _ _ _ _ hk]

theorem eval_coded_absent (m : TableModel) (key : String) (value : Option Int)
    (hk : QMap.contains m.map_para_choose_ key = false) :
    (CellSource.coded key value).eval m = some (QVariant.string "") := by
  simp [CellSource.eval, hk]

theorem rows_shape (r : Record) (vs ws : List QVariant) (h : vs.length = ws.length) :
    ((r.rows vs).map QVariant.toList).map List.length =
      ((r.rows ws).map QVariant.toList).map List.length := by
  unfold Record.rows
  split
  · apply List.ext_getElem?
    intro n
    simp only [List.map_map, List.getElem?_map]
    by_cases hn : n < vs.length
    · have hn2 : n < ws.length := h ▸ hn
      simp [List.getElem?_eq_getElem hn, List.getElem?_eq_getElem hn2, QVariant.toList]
    · have hn2 : ¬ n < ws.length := h ▸ hn
      simp [List.getElem?_eq_none (Nat.le_of_not_lt hn), List.getElem?_eq_none (Nat.le_of_not_lt hn2)]
  · simp [QVariant.toList, h]

/-- C5: whatever the record type, the coded field (cell `i`, looked up under `key`)
and its value: when `map_para_choose_` has no entry under `key`, the cell `add_data`
produces for the field is the empty string; the missing table never stops
`add_data` (it completes as soon as the other cells evaluate, and there is no error
channel); and the rows are those `add_data` produces with a table `t` present
under `key`, except for the cell `i`. -/
theorem C5_missing_table_shows_empty (m : TableModel) (r : Record) (i : Nat) (key : String)
    (value : Option Int)
    (hc : r.cells.get? i = some (CellSource.coded key value))
    (hk : QMap.contains m.map_para_choose_ key = false) :
    (∀ m1, add_data m r r.type = some m1 →
      (appended m m1).flatten.get? i = some (QVariant.string "")) ∧
    ((∀ j c, j ≠ i → r.cells.get? j = some c → c.in_range m = true) →
      ∃ m1, add_data m r r.type = some m1) ∧
    (∀ t m2, add_data (with_table m key t) r r.type = some m2 →
      ∃ m1, add_data m r r.type = some m1 ∧
        (appended m m1).flatten =
          ((appended (with_table m key t) m2).flatten).set i (QVariant.string "") ∧
        (appended m m1).map List.length =
          (appended (with_table m key t) m2).map List.length) := by
  refine ⟨?_, ?_, ?_⟩
  · intro m1 hm1
    obtain ⟨vs, hvs, hdata, -⟩ := add_data_some m m1 r hm1
    obtain ⟨x, hx, hget⟩ := eval_cells_get m _ _ hvs i _ hc
    rw [eval_coded_absent m key value hk] at hx
    cases hx
    rw [appended_flatten m m1 r vs hdata]
    exact hget
  · intro hothers
    apply add_data_of_in_range
    unfold Record.in_range
    rw [List.all_eq_true]
    intro c hmem
    obtain ⟨j, hj⟩ := List.get?_of_mem hmem
    by_cases hji : j = i
    · subst hji
      rw [hc] at hj
      cases hj
      have h1 := CellSource.eval_isSome m (CellSource.coded key value)
      rw [eval_coded_absent m key value hk] at h1
      exact h1.symm
    · exact hothers j c hji hj
  · intro t m2 hm2
    obtain ⟨vs2, hvs2, hdata2, -⟩ := add_data_some _ m2 r hm2
    have hlen2 := eval_cells_length _ _ _ hvs2
    have hi : i < r.cells.length := by
      rcases Nat.lt_or_ge i r.cells.length with h | h
      · exact h
      · rw [List.get?_eq_getElem?, List.getElem?_eq_none h] at hc
        cases hc
    have hvs1 : eval_cells m r.cells = some (vs2.set i (QVariant.string "")) := by
      rw [eval_cells_eq_some]
      have h2 := (eval_cells_eq_some _ _ _).mp hvs2
      apply List.ext_getElem?
      intro n
      have h2n := congrArg (fun l => l[n]?) h2
      simp only [List.getElem?_map] at h2n ⊢
      by_cases hn : i = n
      · subst hn
        rw [List.get?_eq_getElem?] at hc
        rw [hc, List.getElem?_set_self (by omega)]
        simp [eval_coded_absent m key value hk]
      · rw [List.getElem?_set_ne hn, ← h2n]
        cases hcn : r.cells[n]? with
        | none => rfl
        | some c =>
          simp only [Option.map_some', Option.some.injEq]
          symm
          apply eval_with_table_ne
          intro hkey
          apply hn
          apply distinct_keys_get _ (cells_distinct_keys r) i n key
          · simp only [List.get?_eq_getElem?, List.getElem?_map] at hc ⊢
            rw [hc]
            rfl
          · simp only [List.get?_eq_getElem?, List.getElem?_map]
            rw [hcn]
            simp [hkey]
    obtain ⟨m1, hm1⟩ := add_data_of_eval m r _ hvs1
    obtain ⟨vs1, hvs1b, hdata1, -⟩ := add_data_some m m1 r hm1
    rw [hvs1] at hvs1b
    cases hvs1b
    refine ⟨m1, hm1, ?_, ?_⟩
    · rw [appended_flatten m m1 r _ hdata1, appended_flatten _ m2 r vs2 hdata2]
    · unfold appended
      rw [hdata1, hdata2, List.drop_left, List.drop_left]
      exact rows_shape r _ _ (by simp)

theorem C5_missing_table_shows_empty_witness :
    (Record.radiationState { equipment_id := 7, radiation_state := 9 }).cells.get? 1 =
        some (CellSource.coded "radiation_state" (some 9)) ∧
    QMap.contains TableModel.members.map_para_choose_ "radiation_state" = false ∧
    add_data TableModel.members (Record.radiationState { equipment_id := 7, radiation_state := 9 })
        RADIATION_STATE =
      some { TableModel.members with
        data_ := [[QVariant.int 7, QVariant.string ""]],
        map_variants_ :=
          [(RADIATION_STATE, QVariant.list [QVariant.list [QVariant.int 7, QVariant.string ""]])] } ∧
    ∀ m1, add_data TableModel.members
        (Record.radiationState { equipment_id := 7, radiation_state := 9 }) RADIATION_STATE
          = some m1 →
      (appended TableModel.members m1).flatten.get? 1 = some (QVariant.string "") :=
  ⟨rfl, rfl, rfl,
    (C5_missing_table_shows_empty TableModel.members
      (Record.radiationState { equipment_id := 7, radiation_state := 9 }) 1 "radiation_state"
      (some 9) rfl rfl).1⟩

theorem eval_congr (m m2 : TableModel) (h : m2.map_para_choose_ = m.map_para_choose_)
    (c : CellSource) : c.eval m2 = c.eval m := by
  cases c with
  | plain v => rfl
  | coded key value => simp [CellSource.eval, para_choose, h]

theorem eval_cells_congr (m m2 : TableModel) (h : m2.map_para_choose_ = m.map_para_choose_)
    (cs : List CellSource) : eval_cells m2 cs = eval_cells m cs := by
  induction cs with
  | nil => rfl
  | cons c cs ih => simp [eval_cells, eval_congr m m2 h, ih]

theorem in_range_congr (m m2 : TableModel) (h : m2.map_para_choose_ = m.map_para_choose_)
    (r : Record) : r.in_range m2 = r.in_range m := by
  unfold Record.in_range
  congr 1
  funext c
  rw [← CellSource.eval_isSome, ← CellSource.eval_isSome, eval_congr m m2 h]

theorem rows_of_eq (m : TableModel) (r : Record) (vs : List QVariant)
    (h : eval_cells m r.cells = some vs) : rows_of m r = (r.rows vs).map QVariant.toList := by
  have h0 : eval_cells { m with data_ := [] } r.cells = some vs := by
    rw [eval_cells_congr m { m with data_ := [] } rfl]
    exact h
  obtain ⟨m0, hm0⟩ := add_data_of_eval _ r vs h0
  obtain ⟨ws, hws, hdata, -⟩ := add_data_some _ m0 r hm0
  rw [h0] at hws
  cases hws
  simp [rows_of, hm0, hdata]

theorem rows_of_congr (m m2 : TableModel) (h : m2.map_para_choose_ = m.map_para_choose_)
    (r : Record) : rows_of m2 r = rows_of m r := by
  cases hvs : eval_cells m r.cells with
  | some vs =>
    rw [rows_of_eq m r vs hvs, rows_of_eq m2 r vs (by rw [eval_cells_congr m m2 h]; exact hvs)]
  | none =>
    have h1 : ∀ m3 : TableModel, m3.map_para_choose_ = m.map_para_choose_ →
        rows_of m3 r = [] := by
      intro m3 h3
      unfold rows_of
      cases h4 : add_data { m3 with data_ := [] } r r.type with
      | none => rfl
      | some m4 =>
        obtain ⟨ws, hws, -⟩ := add_data_some _ m4 r h4
        rw [eval_cells_congr m { m3 with data_ := [] } h3, hvs] at hws
        cases hws
    rw [h1 m rfl, h1 m2 h]

/-- One call appends the rows of its record after the rows already there. -/
theorem add_data_appends (m m1 : TableModel) (r : Record) (h : add_data m r r.type = some m1) :
    m1.data_ = m.data_ ++ rows_of m r := by
  obtain ⟨vs, hvs, hdata, -⟩ := add_data_some m m1 r h
  rw [rows_of_eq m r vs hvs]
  exact hdata

theorem add_data_seq_rows (m : TableModel) (rs : List Record)
    (hr : ∀ r ∈ rs, r.in_range m = true) :
    ∃ m2, add_data_seq m rs = some m2 ∧ m2.data_ = m.data_ ++ (rs.map (rows_of m)).flatten ∧
      m2.map_para_choose_ = m.map_para_choose_ := by
  induction rs generalizing m with
  | nil => exact ⟨m, rfl, by simp, rfl⟩
  | cons r rs ih =>
    obtain ⟨m1, hm1⟩ := add_data_of_in_range m r (hr r (List.mem_cons_self _ _))
    obtain ⟨vs, -, -, hpara, -⟩ := add_data_some m m1 r hm1
    have hr1 : ∀ r2 ∈ rs, r2.in_range m1 = true := by
      intro r2 h2
      rw [in_range_congr m m1 hpara]
      exact hr r2 (List.mem_cons_of_mem _ h2)
    obtain ⟨m2, hm2, hdata, hpara2⟩ := ih m1 hr1
    refine ⟨m2, by simp [add_data_seq, hm1, hm2], ?_, hpara2.trans hpara⟩
    have hrows : rs.map (rows_of m1) = rs.map (rows_of m) :=
      List.map_congr_left fun r2 _ => rows_of_congr m m1 hpara r2
    rw [hdata, add_data_appends m m1 r hm1, hrows]
    simp

/-- C6: row order follows insertion order.  For every sequence of `add_data` calls
on one model, with records whose coded fields are in range, the calls all succeed
and the rows afterwards are the rows before followed by the rows of each record,
in call order; and every single call keeps the rows present as a prefix and appends
only the rows of its own record. -/
theorem C6_rows_follow_insertion_order (m : TableModel) (rs : List Record)
    (hr : ∀ r ∈ rs, r.in_range m = true) :
    (∃ m2, add_data_seq m rs = some m2 ∧
      m2.data_ = m.data_ ++ (rs.map (rows_of m)).flatten) ∧
    (∀ (m0 m1 : TableModel) (r : Record), add_data m0 r r.type = some m1 →
      m1.data_ = m0.data_ ++ rows_of m0 r) := by
  obtain ⟨m2, h1, h2, -⟩ := add_data_seq_rows m rs hr
  exact ⟨⟨m2, h1, h2⟩, add_data_appends⟩

theorem C6_rows_follow_insertion_order_witness :
    (∀ r ∈ [Record.workFrequency { id := 3, frequency_point := Double.ofInt 5 },
            Record.workFrequency { id := 4, frequency_point := Double.ofInt 6 },
            Record.workFrequency { id := 3, frequency_point := Double.ofInt 5 }],
        r.in_range TableModel.fresh = true) ∧
    (∃ m2, add_data_seq TableModel.fresh
        [Record.workFrequency { id := 3, frequency_point := Double.ofInt 5 },
         Record.workFrequency { id := 4, frequency_point := Double.ofInt 6 },
         Record.workFrequency { id := 3, frequency_point := Double.ofInt 5 }] = some m2 ∧
      m2.data_ =
        [[QVariant.int 3, QVariant.double (Double.ofInt 5)],
         [QVariant.int 4, QVariant.double (Double.ofInt 6)],
         [QVariant.int 3, QVariant.double (Double.ofInt 5)]]) :=
  ⟨by decide,
    (C6_rows_follow_insertion_order TableModel.fresh
      [Record.workFrequency { id := 3, frequency_point := Double.ofInt 5 },
       Record.workFrequency { id := 4, frequency_point := Double.ofInt 6 },
       Record.workFrequency { id := 3, frequency_point := Double.ofInt 5 }] (by decide)).1⟩

/-- C7: the "power_off" table built by `init_text_data` is exactly the three labels
on, standby, off, and for every SystemState record whose coded fields are in range
`add_data` on a freshly constructed model shows `power_off` = 0, 1, 2 as the first,
second and third of them, in the first row. -/
theorem C7_power_off_labels (d : SystemState)
    (hr : (Record.systemState d).in_range TableModel.fresh = true) :
    QMap.find TableModel.fresh.map_para_choose_ "power_off" = some ["开机", "待机", "关机"] ∧
    ∃ m2, add_data TableModel.fresh (.systemState d) SYSTEM_STATE = some m2 ∧
      (d.power_off = 0 → m2.data_.get? 0 = some [QVariant.string "开机"]) ∧
      (d.power_off = 1 → m2.data_.get? 0 = some [QVariant.string "待机"]) ∧
      (d.power_off = 2 → m2.data_.get? 0 = some [QVariant.string "关机"]) := by
  refine ⟨rfl, ?_⟩
  obtain ⟨m2, hm2⟩ := add_data_of_in_range _ _ hr
  obtain ⟨vs, hvs, hdata, -⟩ := add_data_some _ m2 _ hm2
  refine ⟨m2, hm2, ?_⟩
  have key : ∀ (v : Int) (label : String), d.power_off = v →
      (CellSource.coded "power_off" (some v)).eval TableModel.fresh
        = some (QVariant.string label) →
      m2.data_.get? 0 = some [QVariant.string label] := by
    intro v label hv hev
    obtain ⟨x, hx, hget⟩ := eval_cells_get _ _ _ hvs 0 (CellSource.coded "power_off" (some v))
      (by simp [Record.cells, hv])
    rw [hev] at hx
    cases hx
    cases vs with
    | nil => simp at hget
    | cons a vs =>
      simp only [List.get?_cons_zero, Option.some.injEq] at hget
      subst hget
      simp [hdata, fresh_data, Record.rows, Record.cell_per_row, QVariant.toList]
  exact ⟨fun h => key 0 _ h rfl, fun h => key 1 _ h rfl, fun h => key 2 _ h rfl⟩

theorem C7_power_off_labels_witness :
    (Record.systemState { SystemState.zero with power_off := 1 }).in_range TableModel.fresh
        = true ∧
    QMap.find TableModel.fresh.map_para_choose_ "power_off" = some ["开机", "待机", "关机"] ∧
    ∃ m2, add_data TableModel.fresh (.systemState { SystemState.zero with power_off := 1 })
        SYSTEM_STATE = some m2 ∧
      (({ SystemState.zero with power_off := 1 } : SystemState).power_off = 0 →
        m2.data_.get? 0 = some [QVariant.string "开机"]) ∧
      (({ SystemState.zero with power_off := 1 } : SystemState).power_off = 1 →
        m2.data_.get? 0 = some [QVariant.string "待机"]) ∧
      (({ SystemState.zero with power_off := 1 } : SystemState).power_off = 2 →
        m2.data_.get? 0 = some [QVariant.string "关机"]) :=
  ⟨by decide, C7_power_off_labels { SystemState.zero with power_off := 1 } (by decide)⟩

theorem basename_eq :
    QList.at (QString.split "tmsforuser.xml" '/')
      (((QString.split "tmsforuser.xml" '/').length : Int) - 1) = some "tmsforuser.xml" := by
  decide

/-- An invalid raster layer: `create_centwindow` returns after one message box and
leaves `layers_`, the project layers and the canvas extent and layer set alone. -/
theorem create_centwindow_invalid (w : MainWindow) (env : Env)
    (h : (env.load_raster "tmsforuser.xml" "tmsforuser.xml" "gdal").isValid = false) :
    ∃ w2 canvas,
      create_centwindow w env = some w2 ∧
      w2.message_boxes =
        w.message_boxes ++ [{ title := "error", text := "图层无效: \ntmsforuser.xml" }] ∧
      w2.layers_ = w.layers_ ∧
      w2.project_layers = w.project_layers ∧
      w2.map_canvas_ = some canvas ∧
      canvas.extent = QgsMapCanvas.new.extent ∧
      canvas.layers = QgsMapCanvas.new.layers ∧
      canvas.visible = false ∧
      canvas.refreshed = 0 := by
  unfold create_centwindow
  simp only [basename_eq, Option.bind_eq_bind, Option.some_bind, h, Bool.not_false, if_true]
  exact ⟨_, _, rfl, rfl, rfl, rfl, rfl, rfl, rfl, rfl, rfl⟩

/-- C9 as stated fails: even when the uninitialised memory is zero, the records
`create_data` passes to `add_data` are not all zero, the second one being the
WorkPattern record with `id` = 1 and `end_yaw` = 10. -/
theorem C9_startup_not_all_zero :
    (create_data_records SystemState.zero).all
        (fun c => c.2.1.fields.all QVariant.is_zero) = false ∧
    (create_data_records SystemState.zero).get? 1 =
      some (WORK_PATTERN,
        Record.workPattern { id := 1, start_yaw := Double.ofInt 0, end_yaw := Double.ofInt 10 },
        WORK_PATTERN) ∧
    (Record.workPattern
        { id := 1, start_yaw := Double.ofInt 0, end_yaw := Double.ofInt 10 }).fields.map
      QVariant.is_zero = [false, true, false] :=
  ⟨by decide, rfl, by decide⟩

/-- C9, amended: the start-up data are hard-coded constants, zero except in the
WorkPattern record.  Whatever the uninitialised memory, of the records `create_data`
passes to `add_data` the SystemState record has its three assigned members
`power_off`, `control_state` and `scanning_mode` zero, the WorkPattern record is
`id` = 1, `start_yaw` = 0, `end_yaw` = 10, and every member of every other record
is zero. -/
theorem C9_startup_values (u : SystemState) :
    (create_data_records u).all (fun c =>
      match c.2.1 with
      | .systemState d =>
        decide (d.power_off = 0 ∧ d.control_state = 0 ∧ d.scanning_mode = 0)
      | .workPattern d =>
        decide (d = { id := 1, start_yaw := Double.ofInt 0, end_yaw := Double.ofInt 10 })
      | r => r.fields.all QVariant.is_zero) = true :=
  rfl

theorem heap_update_last {α : Type} (l : List α) (a : α) (n : Nat) (f : α → α)
    (h : l.length = n) : heap_update (l ++ [a]) n f = some (l ++ [f a]) := by
  subst h
  simp [heap_update]

theorem get?_last {α : Type} (l : List α) (a : α) (n : Nat) (h : l.length = n) :
    (l ++ [a]).get? n = some a := by
  subst h
  simp

theorem heap_update_lt {α : Type} (l : List α) (p : Nat) (f : α → α) (h : p < l.length) :
    heap_update l p f = some (l.set p (f (l.get ⟨p, h⟩))) := by
  simp [heap_update, List.getElem?_eq_getElem h]

theorem heap_update_map {α β : Type} (l : List α) (p : Nat) (f : α → α) (g : α → β)
    (h : p < l.length) (hg : ∀ x, g (f x) = g x) :
    ∃ l2, heap_update l p f = some l2 ∧ l2.map g = l.map g ∧ l2.length = l.length := by
  refine ⟨_, heap_update_lt l p f h, ?_, by simp⟩
  rw [List.map_set, hg]
  apply List.ext_getElem?
  intro i
  by_cases hi : p = i
  · subst hi
    simp [List.getElem?_set_self, h, List.getElem?_eq_getElem]
  · simp [List.getElem?_set_ne hi]

theorem create_sub_widget_shape (w : MainWindow) (env : Env) (parent : Nat) (title : String)
    (T : ElementType) (n : Nat) (regs : List (ElementType × Option Nat)) (ms : List TableModel)
    (mw mpw : QMap Int Nat) (h : Shape w n regs ms mw mpw) (hp : parent < n) :
    ∃ w2, create_sub_widget w env parent title T = some w2 ∧
      Shape w2 (n + 1) (regs ++ [(T, some n)])
        (ms ++ [(set_head_data TableModel.fresh T HORIZONTAL_HEAD).2]) (QMap.insert mw T n) mpw ∧
      map_state w2 = map_state w := by
  obtain ⟨hw, hm, hml, hv, hr, hmw, hmpw⟩ := h
  subst hm hr hmw hmpw
  obtain ⟨l2, h1, h2, h3⟩ := heap_update_map
    (w.widgets ++ [{ Widget.new env title with widget_type_ := T, in_model_ := some n,
                                               in_view_ := some n }])
    parent (fun x => { x with list_sub_widgets_ := x.list_sub_widgets_ ++ [n] }) reg
    (by simp; omega) (fun _ => rfl)
  simp [create_sub_widget, new_widget, new_model, new_eq_fresh, create_tablewindow, set_view,
    set_model, add_sub_widget, hw, hml, hv, heap_update_last, get?_last, h1, h2, h3, reg, Shape,
    map_state]

theorem create_top_widget_shape (w : MainWindow) (env : Env) (title : String)
    (T : ElementType) (n : Nat) (regs : List (ElementType × Option Nat)) (ms : List TableModel)
    (mw mpw : QMap Int Nat) (h : Shape w n regs ms mw mpw) :
    ∃ w2, create_top_widget w env title T = some (w2, n) ∧
      Shape w2 (n + 1) (regs ++ [(T, some n)])
        (ms ++ [(set_head_data TableModel.fresh T VERTICAL_HEAD).2]) (QMap.insert mw T n)
        (QMap.insert mpw T n) ∧
      map_state w2 = map_state w := by
  obtain ⟨hw, hm, hml, hv, hr, hmw, hmpw⟩ := h
  subst hm hr hmw hmpw
  simp [create_top_widget, new_widget, new_model, new_eq_fresh, create_tablewindow, set_view,
    set_model, hw, hml, hv, heap_update_last, get?_last, reg, Shape, map_state]

theorem setVisible_shape (w : MainWindow) (p : Nat) (b : Bool) (n : Nat)
    (regs : List (ElementType × Option Nat)) (ms : List TableModel)
    (mw mpw : QMap Int Nat) (h : Shape w n regs ms mw mpw) (hp : p < n) :
    ∃ w2, setVisible w p b = some w2 ∧ Shape w2 n regs ms mw mpw ∧
      map_state w2 = map_state w := by
  obtain ⟨hw, hm, hml, hv, hr, hmw, hmpw⟩ := h
  subst hm hr hmw hmpw
  obtain ⟨l2, h1, h2, h3⟩ := heap_update_map w.widgets p (fun x => { x with visible := b }) reg
    (by omega) (fun _ => rfl)
  simp [setVisible, h1, h2, h3, hw, hml, hv, Shape, map_state]

theorem create_radar_state_shape (w : MainWindow) (env : Env) (n : Nat)
    (regs : List (ElementType × Option Nat)) (ms : List TableModel)
    (mw mpw : QMap Int Nat) (h : Shape w n regs ms mw mpw) :
    ∃ w2, create_radar_state w env = some w2 ∧
      Shape w2 (n + 5)
        (regs ++ [(SYSTEM_STATE, some n), (WORK_PATTERN, some (n + 1)),
          (RADIATION_STATE, some (n + 2)), (WORK_FREQUENCY, some (n + 3)),
          (DISTURB_DIRECTION, some (n + 4))])
        (ms ++ [(set_head_data TableModel.fresh SYSTEM_STATE VERTICAL_HEAD).2,
          (set_head_data TableModel.fresh WORK_PATTERN HORIZONTAL_HEAD).2,
          (set_head_data TableModel.fresh RADIATION_STATE HORIZONTAL_HEAD).2,
          (set_head_data TableModel.fresh WORK_FREQUENCY HORIZONTAL_HEAD).2,
          (set_head_data TableModel.fresh DISTURB_DIRECTION HORIZONTAL_HEAD).2])
        (QMap.insert (QMap.insert (QMap.insert (QMap.insert (QMap.insert mw SYSTEM_STATE n)
          WORK_PATTERN (n + 1)) RADIATION_STATE (n + 2)) WORK_FREQUENCY (n + 3))
          DISTURB_DIRECTION (n + 4))
        (QMap.insert mpw SYSTEM_STATE n) ∧
      map_state w2 = map_state w := by
  obtain ⟨w1, h1, s1, q1⟩ := create_top_widget_shape w env "雷达系统状态显示" SYSTEM_STATE _ _ _ _ _ h
  obtain ⟨w2, h2, s2, q2⟩ := create_sub_widget_shape w1 env n "工作模式" WORK_PATTERN _ _ _ _ _ s1
    (by omega)
  obtain ⟨w3, h3, s3, q3⟩ := create_sub_widget_shape w2 env n "辐射状态" RADIATION_STATE _ _ _ _ _ s2
    (by omega)
  obtain ⟨w4, h4, s4, q4⟩ := create_sub_widget_shape w3 env n "工作频点" WORK_FREQUENCY _ _ _ _ _ s3
    (by omega)
  obtain ⟨w5, h5, s5, q5⟩ := create_sub_widget_shape w4 env n "有源干扰方向" DISTURB_DIRECTION _ _ _ _ _
    s4 (by omega)
  obtain ⟨w6, h6, s6, q6⟩ := setVisible_shape w5 n true _ _ _ _ _ s5 (by omega)
  refine ⟨w6, ?_, ?_, by rw [q6, q5, q4, q3, q2, q1]⟩
  · simp only [create_radar_state, h1, h2, h3, h4, h5, h6, Option.bind_eq_bind, Option.some_bind]
  · simpa [List.append_assoc] using s6

theorem create_chain_of_command_shape (w : MainWindow) (env : Env) (n : Nat)
    (regs : List (ElementType × Option Nat)) (ms : List TableModel)
    (mw mpw : QMap Int Nat) (h : Shape w n regs ms mw mpw) :
    ∃ w2, create_chain_of_command w env = some w2 ∧
      Shape w2 (n + 1) (regs ++ [(CHAIN_OF_COMMAND, some n)])
        (ms ++ [(set_head_data TableModel.fresh CHAIN_OF_COMMAND VERTICAL_HEAD).2])
        (QMap.insert mw CHAIN_OF_COMMAND n) (QMap.insert mpw CHAIN_OF_COMMAND n) ∧
      map_state w2 = map_state w := by
  obtain ⟨hw, hm, hml, hv, hr, hmw, hmpw⟩ := h
  subst hm hr hmw hmpw
  simp [create_chain_of_command, new_widget, new_model, new_eq_fresh, create_tablewindow,
    set_view, set_model, setVisible, hw, hml, hv, heap_update_last, get?_last, reg, Shape,
    map_state]

theorem create_photoelectricity_shape (w : MainWindow) (env : Env) (n : Nat)
    (regs : List (ElementType × Option Nat)) (ms : List TableModel)
    (mw mpw : QMap Int Nat) (h : Shape w n regs ms mw mpw) :
    ∃ w2, create_photoelectricity w env = some w2 ∧
      Shape w2 (n + 1) (regs ++ [(PHOTOELECTRICITY_EQUIPMENT, some n)])
        (ms ++ [(set_head_data TableModel.fresh PHOTOELECTRICITY_EQUIPMENT VERTICAL_HEAD).2])
        (QMap.insert mw PHOTOELECTRICITY_EQUIPMENT n)
        (QMap.insert mpw PHOTOELECTRICITY_EQUIPMENT n) ∧
      map_state w2 = map_state w := by
  obtain ⟨hw, hm, hml, hv, hr, hmw, hmpw⟩ := h
  subst hm hr hmw hmpw
  simp [create_photoelectricity, new_widget, new_model, new_eq_fresh, create_tablewindow,
    set_view, set_model, setVisible, hw, hml, hv, heap_update_last, get?_last, reg, Shape,
    map_state]

theorem create_description_shape (w : MainWindow) (env : Env) (n : Nat)
    (regs : List (ElementType × Option Nat)) (ms : List TableModel)
    (mw mpw : QMap Int Nat) (h : Shape w n regs ms mw mpw) :
    ∃ w2, create_description w env = some w2 ∧
      Shape w2 (n + 3)
        (regs ++ [(DESCRIPTION_OF_INTERCEPTOR_WEAPON, some n), (GBI_RESOURCES, some (n + 1)),
          (GUIDANCE_RADAR, some (n + 2))])
        (ms ++ [(set_head_data TableModel.fresh DESCRIPTION_OF_INTERCEPTOR_WEAPON VERTICAL_HEAD).2,
          (set_head_data TableModel.fresh GBI_RESOURCES HORIZONTAL_HEAD).2,
          (set_head_data TableModel.fresh GUIDANCE_RADAR HORIZONTAL_HEAD).2])
        (QMap.insert (QMap.insert (QMap.insert mw DESCRIPTION_OF_INTERCEPTOR_WEAPON n)
          GBI_RESOURCES (n + 1)) GUIDANCE_RADAR (n + 2))
        (QMap.insert mpw DESCRIPTION_OF_INTERCEPTOR_WEAPON n) ∧
      map_state w2 = map_state w := by
  obtain ⟨w1, h1, s1, q1⟩ := create_top_widget_shape w env "拦截武器显示"
    DESCRIPTION_OF_INTERCEPTOR_WEAPON _ _ _ _ _ h
  obtain ⟨w2, h2, s2, q2⟩ := create_sub_widget_shape w1 env n "拦截弹资源" GBI_RESOURCES _ _ _ _ _ s1
    (by omega)
  obtain ⟨w3, h3, s3, q3⟩ := create_sub_widget_shape w2 env n "制导雷达" GUIDANCE_RADAR _ _ _ _ _ s2
    (by omega)
  obtain ⟨w4, h4, s4, q4⟩ := setVisible_shape w3 n true _ _ _ _ _ s3 (by omega)
  refine ⟨w4, ?_, ?_, by rw [q4, q3, q2, q1]⟩
  · simp only [create_description, h1, h2, h3, h4, Option.bind_eq_bind, Option.some_bind]
  · simpa [List.append_assoc] using s4

theorem create_firepower_shape (w : MainWindow) (env : Env) (n : Nat)
    (regs : List (ElementType × Option Nat)) (ms : List TableModel)
    (mw mpw : QMap Int Nat) (h : Shape w n regs ms mw mpw) :
    ∃ w2, create_firepower w env = some w2 ∧
      Shape w2 (n + 2)
        (regs ++ [(FIREPOWER_UNIT, some n), (FIREPOWER_UNIT_AISLE, some (n + 1))])
        (ms ++ [(set_head_data TableModel.fresh FIREPOWER_UNIT VERTICAL_HEAD).2,
          (set_head_data TableModel.fresh FIREPOWER_UNIT_AISLE HORIZONTAL_HEAD).2])
        (QMap.insert (QMap.insert mw FIREPOWER_UNIT n) FIREPOWER_UNIT_AISLE (n + 1))
        (QMap.insert mpw FIREPOWER_UNIT n) ∧
      map_state w2 = map_state w := by
  obtain ⟨w1, h1, s1, q1⟩ := create_top_widget_shape w env "火力单元状态显示" FIREPOWER_UNIT _ _ _ _ _ h
  obtain ⟨w2, h2, s2, q2⟩ := create_sub_widget_shape w1 env n "火力单元通道状态" FIREPOWER_UNIT_AISLE
    _ _ _ _ _ s1 (by omega)
  obtain ⟨w3, h3, s3, q3⟩ := setVisible_shape w2 n true _ _ _ _ _ s2 (by omega)
  refine ⟨w3, ?_, ?_, by rw [q3, q2, q1]⟩
  · simp only [create_firepower, h1, h2, h3, Option.bind_eq_bind, Option.some_bind]
  · simpa [List.append_assoc] using s3

theorem add_widget_action_shape (w : MainWindow) (text : String) (T : ElementType) (p n : Nat)
    (regs : List (ElementType × Option Nat)) (ms : List TableModel)
    (mw mpw : QMap Int Nat) (h : Shape w n regs ms mw mpw)
    (hf : QMap.find mw T = some p) (hp : p < n) :
    ∃ w2, add_widget_action w text T = some w2 ∧ Shape w2 n regs ms mw mpw ∧
      map_state w2 = map_state w := by
  obtain ⟨hw, hm, hml, hv, hr, hmw, hmpw⟩ := h
  subst hm hr hmw hmpw
  obtain ⟨l2, h1, h2, h3⟩ := heap_update_map w.widgets p
    (fun x => { x with action_ := some w.actions.length }) reg (by omega) (fun _ => rfl)
  simp [add_widget_action, addAction, heap_update_last, hf, h1, h2, h3, hw, hml, hv, Shape,
    map_state]

theorem create_menubar_shape (w : MainWindow) (n : Nat) (p0 p1 p2 p3 p4 : Nat)
    (regs : List (ElementType × Option Nat)) (ms : List TableModel)
    (mw mpw : QMap Int Nat) (h : Shape w n regs ms mw mpw)
    (h0 : QMap.find mw SYSTEM_STATE = some p0) (l0 : p0 < n)
    (h1 : QMap.find mw CHAIN_OF_COMMAND = some p1) (l1 : p1 < n)
    (h2 : QMap.find mw PHOTOELECTRICITY_EQUIPMENT = some p2) (l2 : p2 < n)
    (h3 : QMap.find mw DESCRIPTION_OF_INTERCEPTOR_WEAPON = some p3) (l3 : p3 < n)
    (h4 : QMap.find mw FIREPOWER_UNIT = some p4) (l4 : p4 < n) :
    ∃ w2, create_menubar w = some w2 ∧ Shape w2 n regs ms mw mpw ∧
      map_state w2 = map_state w := by
  have key : ∀ X : MainWindow, Shape X n regs ms mw mpw →
      ∃ w2, ((add_widget_action X "雷达系统状态显示" SYSTEM_STATE).bind fun w =>
        (add_widget_action w "指控系统装备状态显示" CHAIN_OF_COMMAND).bind fun w =>
        (add_widget_action w "光电装备状态显示" PHOTOELECTRICITY_EQUIPMENT).bind fun w =>
        (add_widget_action w "拦截武器显示" DESCRIPTION_OF_INTERCEPTOR_WEAPON).bind fun w =>
        add_widget_action w "火力单元状态显示" FIREPOWER_UNIT) = some w2 ∧
        Shape w2 n regs ms mw mpw ∧ map_state w2 = map_state X := by
    intro X s0
    obtain ⟨w1, e1, s1, q1⟩ := add_widget_action_shape X "雷达系统状态显示" SYSTEM_STATE p0 _ _ _ _ _
      s0 h0 l0
    obtain ⟨w2, e2, s2, q2⟩ := add_widget_action_shape w1 "指控系统装备状态显示" CHAIN_OF_COMMAND p1 _ _
      _ _ _ s1 h1 l1
    obtain ⟨w3, e3, s3, q3⟩ := add_widget_action_shape w2 "光电装备状态显示" PHOTOELECTRICITY_EQUIPMENT
      p2 _ _ _ _ _ s2 h2 l2
    obtain ⟨w4, e4, s4, q4⟩ := add_widget_action_shape w3 "拦截武器显示"
      DESCRIPTION_OF_INTERCEPTOR_WEAPON p3 _ _ _ _ _ s3 h3 l3
    obtain ⟨w5, e5, s5, q5⟩ := add_widget_action_shape w4 "火力单元状态显示" FIREPOWER_UNIT p4 _ _ _ _
      _ s4 h4 l4
    exact ⟨w5, by simp only [e1, e2, e3, e4, e5, Option.some_bind], s5,
      by rw [q5, q4, q3, q2, q1]⟩
  unfold create_menubar
  simp only [addAction, Option.bind_eq_bind]
  exact key _ h

theorem load_style_sheet_shape (w : MainWindow) (env : Env) (path : String) (n : Nat)
    (regs : List (ElementType × Option Nat)) (ms : List TableModel)
    (mw mpw : QMap Int Nat) (h : Shape w n regs ms mw mpw) :
    Shape (MainWindow.load_style_sheet env w path) n regs ms mw mpw ∧
      map_state (MainWindow.load_style_sheet env w path) = map_state w := by
  unfold MainWindow.load_style_sheet
  split
  · exact ⟨h, rfl⟩
  · exact ⟨h, rfl⟩

theorem create_centwindow_shape (w : MainWindow) (env : Env) (n : Nat)
    (regs : List (ElementType × Option Nat)) (ms : List TableModel)
    (mw mpw : QMap Int Nat) (h : Shape w n regs ms mw mpw) :
    ∃ w2, create_centwindow w env = some w2 ∧ Shape w2 n regs ms mw mpw := by
  unfold create_centwindow
  simp only [basename_eq, Option.bind_eq_bind, Option.some_bind]
  split
  · exact ⟨_, rfl, h⟩
  · exact ⟨_, rfl, h⟩

theorem model_add_data_shape (w : MainWindow) (key : Int) (pdata : Record) (type : ElementType)
    (mi : Nat) (m m2 : TableModel) (n : Nat)
    (regs : List (ElementType × Option Nat)) (ms : List TableModel)
    (mw mpw : QMap Int Nat) (h : Shape w n regs ms mw mpw)
    (ht : target mw regs key = some mi) (hm : ms.get? mi = some m)
    (ha : add_data m pdata type = some m2) :
    ∃ w2, model_add_data w key pdata type = some w2 ∧
      Shape w2 n regs (ms.set mi m2) mw mpw ∧ map_state w2 = map_state w := by
  obtain ⟨hw, hms, hml, hv, hr, hmw, hmpw⟩ := h
  subst hms hr hmw hmpw
  unfold target at ht
  cases hf : QMap.find w.map_widgets_ key with
  | none => simp [hf] at ht
  | some p =>
    simp only [hf, Option.some_bind, List.get?_eq_getElem?, List.getElem?_map] at ht
    cases hx : w.widgets[p]? with
    | none => simp [hx] at ht
    | some x =>
      simp only [hx, Option.map_some', Option.some_bind, reg] at ht
      refine ⟨{ w with models := w.models.set mi m2 }, ?_, ?_, rfl⟩
      · simp only [List.get?_eq_getElem?] at hm
        simp [model_add_data, hf, hx, ht, hm, ha]
      · simp [Shape, hw, hml, hv]

theorem hide_all_shape (l : List (Int × Nat)) (n : Nat)
    (regs : List (ElementType × Option Nat)) (ms : List TableModel) (mw mpw : QMap Int Nat)
    (hl : ∀ e ∈ l, e.2 < n) :
    ∀ w, Shape w n regs ms mw mpw → ∃ w2, hide_all w l = some w2 ∧
      Shape w2 n regs ms mw mpw ∧ map_state w2 = map_state w := by
  induction l with
  | nil => exact fun w h => ⟨w, rfl, h, rfl⟩
  | cons e l ih =>
    intro w h
    obtain ⟨w1, h1, s1, q1⟩ := setVisible_shape w e.2 false _ _ _ _ _ h
      (hl e (List.mem_cons_self _ _))
    obtain ⟨w2, h2, s2, q2⟩ := ih (fun e2 he => hl e2 (List.mem_cons_of_mem _ he)) w1 s1
    exact ⟨w2, by simp [hide_all, h1, h2], s2, by rw [q2, q1]⟩

/-- The calls of `create_data` on a state summarised by `Shape`: when every call
reaches a model and its record is in range there, all calls succeed, and every model
ends with the rows of exactly the calls that reach it, headers and tables as
before. -/
theorem add_all_shape (n : Nat) (regs : List (ElementType × Option Nat)) (mw mpw : QMap Int Nat)
    (cs : List (Int × Record × ElementType)) :
    ∀ (w : MainWindow) (ms : List TableModel), Shape w n regs ms mw mpw →
      (∀ c ∈ cs, c.2.1.type = c.2.2 ∧ ∃ mi m, target mw regs c.1 = some mi ∧
        ms.get? mi = some m ∧ c.2.1.in_range m = true) →
      ∃ w2 ms2, add_all w cs = some w2 ∧ Shape w2 n regs ms2 mw mpw ∧
        map_state w2 = map_state w ∧
        ∀ i m, ms.get? i = some m → ∃ m2, ms2.get? i = some m2 ∧
          m2.data_ = m.data_ ++ rows_for mw regs cs i m ∧
          m2.map_para_choose_ = m.map_para_choose_ ∧
          m2.map_headnames_ = m.map_headnames_ ∧
          m2.phor_head_data_ = m.phor_head_data_ ∧
          m2.pver_head_data_ = m.pver_head_data_ := by
  induction cs with
  | nil =>
    intro w ms h _
    exact ⟨w, ms, rfl, h, rfl, fun i m hm => ⟨m, hm, by simp [rows_for], rfl, rfl, rfl, rfl⟩⟩
  | cons c cs ih =>
    intro w ms h hcs
    obtain ⟨key, r, type⟩ := c
    obtain ⟨hty, mi, m, ht, hm, hr⟩ := hcs (key, r, type) (List.mem_cons_self _ _)
    simp only at hty ht hr
    subst hty
    obtain ⟨m1, hm1⟩ := add_data_of_in_range m r hr
    obtain ⟨vs, -, -, hpara, hhead, hphor, hpver⟩ := add_data_some m m1 r hm1
    have hdata := add_data_appends m m1 r hm1
    obtain ⟨w1, hw1, s1, q1⟩ := model_add_data_shape w key r r.type mi m m1 n regs ms mw mpw h ht
      hm hm1
    have hmi : mi < ms.length := by
      rcases Nat.lt_or_ge mi ms.length with hlt | hge
      · exact hlt
      · rw [List.get?_eq_getElem?, List.getElem?_eq_none hge] at hm
        cases hm
    have hcs1 : ∀ c ∈ cs, c.2.1.type = c.2.2 ∧ ∃ mi2 m2, target mw regs c.1 = some mi2 ∧
        (ms.set mi m1).get? mi2 = some m2 ∧ c.2.1.in_range m2 = true := by
      intro c hc
      obtain ⟨hty2, mi2, m2, ht2, hm2, hr2⟩ := hcs c (List.mem_cons_of_mem _ hc)
      refine ⟨hty2, mi2, ?_⟩
      by_cases he : mi = mi2
      · subst he
        rw [hm] at hm2
        cases hm2
        refine ⟨m1, ht2, ?_, ?_⟩
        · rw [List.get?_eq_getElem?, List.getElem?_set_self hmi]
        · rw [in_range_congr m m1 hpara]
          exact hr2
      · refine ⟨m2, ht2, ?_, hr2⟩
        rw [List.get?_eq_getElem?, List.getElem?_set_ne he, ← List.get?_eq_getElem?]
        exact hm2
    obtain ⟨w2, ms2, hw2, s2, q2, hall⟩ := ih w1 (ms.set mi m1) s1 hcs1
    refine ⟨w2, ms2, by simp [add_all, hw1, hw2], s2, by rw [q2, q1], ?_⟩
    intro i m0 hm0
    by_cases he : mi = i
    · subst he
      rw [hm] at hm0
      cases hm0
      obtain ⟨m2, hget, hd, hp, hh, hph, hpv⟩ := hall mi m1
        (by rw [List.get?_eq_getElem?, List.getElem?_set_self hmi])
      refine ⟨m2, hget, ?_, hp.trans hpara, hh.trans hhead, hph.trans hphor, hpv.trans hpver⟩
      have hrows : rows_for mw regs cs mi m1 = rows_for mw regs cs mi m := by
        unfold rows_for
        congr 1
        exact List.map_congr_left fun c _ => rows_of_congr m m1 hpara c.2.1
      rw [hd, hdata, hrows]
      simp [rows_for, List.filter_cons, ht]
    · obtain ⟨m2, hget, hd, hp, hh, hph, hpv⟩ := hall i m0
        (by rw [List.get?_eq_getElem?, List.getElem?_set_ne he, ← List.get?_eq_getElem?]
            exact hm0)
      refine ⟨m2, hget, ?_, hp, hh, hph, hpv⟩
      rw [hd]
      simp [rows_for, List.filter_cons, ht, he]

theorem create_data_records_reach (u : SystemState) :
    ∀ c ∈ create_data_records u, c.2.1.type = c.2.2 ∧ ∃ mi m,
      target startup_map startup_regs c.1 = some mi ∧ startup_models.get? mi = some m ∧
        c.2.1.in_range m = true := by
  intro c hc
  simp only [create_data_records, List.mem_cons, List.mem_singleton, List.not_mem_nil,
    or_false] at hc
  rcases hc with rfl | rfl | rfl | rfl | rfl | rfl | rfl | rfl | rfl | rfl | rfl | rfl <;>
    exact ⟨rfl, _, _, rfl, rfl, rfl⟩

/-- The state `init_window` ends in, summarised: the twelve widgets, the two maps,
and, for each model, the rows of the start-up calls that reach it. -/
theorem init_window_shape (env : Env) :
    ∃ w ms2 w7 w8, init_window env = some w ∧
      Shape w 12 startup_regs ms2 startup_map startup_parent_map ∧
      map_state w7 = map_state MainWindow.members ∧
      create_centwindow w7 env = some w8 ∧
      map_state w = map_state w8 ∧
      ∀ i m, startup_models.get? i = some m → ∃ m2, ms2.get? i = some m2 ∧
        m2.data_ = m.data_ ++
          rows_for startup_map startup_regs (create_data_records env.uninit) i m ∧
        m2.map_para_choose_ = m.map_para_choose_ ∧
        m2.map_headnames_ = m.map_headnames_ ∧
        m2.phor_head_data_ = m.phor_head_data_ ∧
        m2.pver_head_data_ = m.pver_head_data_ := by
  have s0 : Shape MainWindow.members 0 [] [] [] [] := ⟨rfl, rfl, rfl, rfl, rfl, rfl, rfl⟩
  obtain ⟨w1, h1, s1, q1⟩ := create_radar_state_shape _ env _ _ _ _ _ s0
  obtain ⟨w2, h2, s2, q2⟩ := create_chain_of_command_shape w1 env _ _ _ _ _ s1
  obtain ⟨w3, h3, s3, q3⟩ := create_photoelectricity_shape w2 env _ _ _ _ _ s2
  obtain ⟨w4, h4, s4, q4⟩ := create_description_shape w3 env _ _ _ _ _ s3
  obtain ⟨w5, h5, s5, q5⟩ := create_firepower_shape w4 env _ _ _ _ _ s4
  have s5b : Shape w5 12 startup_regs startup_models startup_map startup_parent_map := s5
  obtain ⟨w6, h6, s6, q6⟩ := create_menubar_shape w5 12 0 5 6 7 10 _ _ _ _ s5b rfl (by decide)
    rfl (by decide) rfl (by decide) rfl (by decide) rfl (by decide)
  obtain ⟨s7, q7⟩ := load_style_sheet_shape w6 env ":qdarkstyle/style.qss" _ _ _ _ _ s6
  obtain ⟨w8, h8, s8⟩ := create_centwindow_shape _ env _ _ _ _ _ s7
  obtain ⟨w9, ms2, h9, s9, q9, hall⟩ := add_all_shape 12 startup_regs startup_map startup_parent_map
    (create_data_records env.uninit) w8 startup_models s8 (create_data_records_reach env.uninit)
  obtain ⟨w10, h10, s10, q10⟩ := hide_all_shape startup_map 12 startup_regs ms2 startup_map
    startup_parent_map (by decide) w9 s9
  have hmap : w9.map_widgets_ = startup_map := s9.2.2.2.2.2.1
  refine ⟨w10, ms2, _, w8, ?_, s10, by rw [q7, q6, q5, q4, q3, q2, q1], h8, by rw [q10, q9],
    hall⟩
  simp only [init_window, h1, h2, h3, h4, h5, h6, h8, create_data, h9, hmap, h10,
    Option.bind_eq_bind, Option.some_bind]

/-- C8: when the raster layer loaded from the hard-coded path is invalid,
`create_centwindow` returns normally, whatever the window state, with one error
message box raised and the rest of the map set-up skipped: `layers_` is as before,
no layer is added to the project, and the new canvas still has the extent and the
layer set it was constructed with and has not been shown or refreshed.  At start-up
`layers_` is empty when it is called, so `init_window` ends with `layers_` empty, no
layer in the project, the canvas without layers and that one message box. -/
theorem C8_invalid_raster_aborts_setup (w : MainWindow) (env : Env)
    (h : (env.load_raster "tmsforuser.xml" "tmsforuser.xml" "gdal").isValid = false) :
    (∃ w2 canvas,
      create_centwindow w env = some w2 ∧
      w2.message_boxes =
        w.message_boxes ++ [{ title := "error", text := "图层无效: \ntmsforuser.xml" }] ∧
      w2.layers_ = w.layers_ ∧
      w2.project_layers = w.project_layers ∧
      w2.map_canvas_ = some canvas ∧
      canvas.extent = QgsMapCanvas.new.extent ∧
      canvas.layers = QgsMapCanvas.new.layers ∧
      canvas.visible = false ∧
      canvas.refreshed = 0) ∧
    (∃ w0 canvas,
      init_window env = some w0 ∧
      w0.layers_ = [] ∧
      w0.project_layers = [] ∧
      w0.message_boxes = [{ title := "error", text := "图层无效: \ntmsforuser.xml" }] ∧
      w0.map_canvas_ = some canvas ∧
      canvas.layers = [] ∧
      canvas.extent = none) := by
  refine ⟨create_centwindow_invalid w env h, ?_⟩
  obtain ⟨w0, ms2, w7, w8, hw0, -, q7, h8, q0, -⟩ := init_window_shape env
  obtain ⟨w2, canvas, h2, hmb, hl, hpl, hc, hext, hlay, -, -⟩ := create_centwindow_invalid w7 env h
  rw [h8] at h2
  cases h2
  simp only [map_state, MainWindow.members, Prod.mk.injEq] at q7 q0
  obtain ⟨q71, q72, q73, -⟩ := q7
  obtain ⟨q01, q02, q03, q04⟩ := q0
  refine ⟨w0, canvas, hw0, ?_, ?_, ?_, ?_, hlay, hext⟩
  · rw [q01, hl, q71]
  · rw [q02, hpl, q72]
  · rw [q03, hmb, q73]
    rfl
  · rw [q04, hc]

theorem C8_invalid_raster_aborts_setup_witness :
    (env_invalid.load_raster "tmsforuser.xml" "tmsforuser.xml" "gdal").isValid = false ∧
    ∃ w0 canvas,
      init_window env_invalid = some w0 ∧
      w0.layers_ = [] ∧
      w0.project_layers = [] ∧
      w0.message_boxes = [{ title := "error", text := "图层无效: \ntmsforuser.xml" }] ∧
      w0.map_canvas_ = some canvas ∧
      canvas.layers = [] ∧
      canvas.extent = none :=
  ⟨rfl, (C8_invalid_raster_aborts_setup MainWindow.members env_invalid rfl).2⟩

theorem QMap.find_mem {κ α : Type} [DecidableEq κ] (m : QMap κ α) (k : κ) (v : α)
    (h : QMap.find m k = some v) : (k, v) ∈ m := by
  induction m with
  | nil => simp [QMap.find] at h
  | cons e rest ih =>
    obtain ⟨k2, v2⟩ := e
    unfold QMap.find at h
    split at h
    · rename_i hk
      cases h
      subst hk
      exact List.mem_cons_self _ _
    · exact List.mem_cons_of_mem _ (ih h)

/-- One entry of the registry after `init_window`: the widget at `p`, its model and
what the model holds. -/
theorem registry_entry (w : MainWindow) (ms2 : List TableModel) (u : SystemState)
    (hs : Shape w 12 startup_regs ms2 startup_map startup_parent_map)
    (hall : ∀ i m, startup_models.get? i = some m → ∃ m2, ms2.get? i = some m2 ∧
        m2.data_ = m.data_ ++ rows_for startup_map startup_regs (create_data_records u) i m ∧
        m2.map_para_choose_ = m.map_para_choose_ ∧
        m2.map_headnames_ = m.map_headnames_ ∧
        m2.phor_head_data_ = m.phor_head_data_ ∧
        m2.pver_head_data_ = m.pver_head_data_)
    (k : ElementType) (p : Nat) (m0 : TableModel) (r : Record) (header : List String)
    (hreg : startup_regs.get? p = some (k, some p))
    (hm0 : startup_models.get? p = some m0)
    (hhead : QMap.find m0.map_headnames_ k = some header)
    (hsel : (m0.pver_head_data_ = some header ∧ m0.phor_head_data_ = none) ∨
      (m0.phor_head_data_ = some header ∧ m0.pver_head_data_ = none))
    (hdata : m0.data_ = [])
    (hpara : m0.map_para_choose_ = TableModel.fresh.map_para_choose_)
    (hfil : (create_data_records u).filter
      (fun c => target startup_map startup_regs c.1 == some p) = [(k, r, k)])
    (hkey : (create_data_records u).filter (fun c => c.1 == k) = [(k, r, k)])
    (hty : r.type = k) :
    ∃ x mi m header r,
      w.widgets.get? p = some x ∧ x.widget_type_ = k ∧ x.in_model_ = some mi ∧
      w.models.get? mi = some m ∧
      QMap.find m.map_headnames_ k = some header ∧
      ((m.pver_head_data_ = some header ∧ m.phor_head_data_ = none) ∨
        (m.phor_head_data_ = some header ∧ m.pver_head_data_ = none)) ∧
      (create_data_records u).filter (fun c => c.1 == k) = [(k, r, k)] ∧
      r.type = k ∧
      m.data_ = rows_of TableModel.fresh r := by
  obtain ⟨-, hms, -, -, hr, -, -⟩ := hs
  have h1 := congrArg (fun l => l.get? p) hr
  simp only [hreg, List.get?_eq_getElem?, List.getElem?_map] at h1
  cases hx : w.widgets[p]? with
  | none => simp [hx] at h1
  | some x =>
    simp only [hx, Option.map_some', Option.some.injEq, reg, Prod.mk.injEq] at h1
    obtain ⟨m2, hget, hd, hp, hh, hph, hpv⟩ := hall p m0 hm0
    refine ⟨x, p, m2, header, r, by simp [hx], h1.1, h1.2, by rw [hms]; exact hget,
      by rw [hh]; exact hhead, by rw [hph, hpv]; exact hsel, hkey, hty, ?_⟩
    rw [hd, hdata, rows_for, hfil]
    simp [rows_of_congr TableModel.fresh m0 hpara]

/-- C10: after `init_window` there is exactly one widget per record type: the keys
of `map_widgets_` are exactly the twelve record types of the glossary, each under a
widget of its own; each widget has the type of its key and a model whose header,
vertical or horizontal, is the header list declared for that type; and `create_data`
makes exactly one call per widget, in key order, with a record of the type of the
widget, after which the model holds the rows of that one record. -/
theorem C10_one_widget_per_record_type (env : Env) :
    ∃ w, init_window env = some w ∧
      (∀ k, k ∈ QMap.keys w.map_widgets_ ↔ k ∈ glossary_record_types) ∧
      (QMap.keys w.map_widgets_).length = 12 ∧
      (w.map_widgets_.map Prod.snd).Nodup ∧
      (create_data_records env.uninit).map (fun c => c.1) = QMap.keys w.map_widgets_ ∧
      ∀ k p, QMap.find w.map_widgets_ k = some p →
        ∃ x mi m header r,
          w.widgets.get? p = some x ∧ x.widget_type_ = k ∧ x.in_model_ = some mi ∧
          w.models.get? mi = some m ∧
          QMap.find m.map_headnames_ k = some header ∧
          ((m.pver_head_data_ = some header ∧ m.phor_head_data_ = none) ∨
            (m.phor_head_data_ = some header ∧ m.pver_head_data_ = none)) ∧
          (create_data_records env.uninit).filter (fun c => c.1 == k) = [(k, r, k)] ∧
          r.type = k ∧
          m.data_ = rows_of TableModel.fresh r := by
  obtain ⟨w, ms2, -, -, hw, hs, -, -, -, hall⟩ := init_window_shape env
  have hmap : w.map_widgets_ = startup_map := hs.2.2.2.2.2.1
  refine ⟨w, hw, ?_, ?_, ?_, ?_, ?_⟩
  · rw [hmap]
    intro k
    simp only [QMap.keys, startup_map, glossary_record_types, List.map_cons, List.map_nil,
      List.mem_cons, List.mem_singleton, List.not_mem_nil, or_false]
    constructor <;> (rintro (h | h | h | h | h | h | h | h | h | h | h | h) <;> simp [h])
  · rw [hmap]
    rfl
  · rw [hmap]
    decide
  · rw [hmap]
    rfl
  · intro k p hf
    rw [hmap] at hf
    have hmem := QMap.find_mem _ _ _ hf
    simp only [startup_map, List.mem_cons, List.mem_singleton, Prod.mk.injEq, List.not_mem_nil,
      or_false] at hmem
    rcases hmem with ⟨hk, hp⟩ | ⟨hk, hp⟩ | ⟨hk, hp⟩ | ⟨hk, hp⟩ | ⟨hk, hp⟩ | ⟨hk, hp⟩ |
      ⟨hk, hp⟩ | ⟨hk, hp⟩ | ⟨hk, hp⟩ | ⟨hk, hp⟩ | ⟨hk, hp⟩ | ⟨hk, hp⟩
    all_goals subst hk hp
    · exact registry_entry w ms2 env.uninit hs hall SYSTEM_STATE 0 _ _ _ rfl rfl rfl
        (Or.inl ⟨rfl, rfl⟩) rfl rfl rfl rfl rfl
    · exact registry_entry w ms2 env.uninit hs hall WORK_PATTERN 1 _ _ _ rfl rfl rfl
        (Or.inr ⟨rfl, rfl⟩) rfl rfl rfl rfl rfl
    · exact registry_entry w ms2 env.uninit hs hall RADIATION_STATE 2 _ _ _ rfl rfl rfl
        (Or.inr ⟨rfl, rfl⟩) rfl rfl rfl rfl rfl
    · exact registry_entry w ms2 env.uninit hs hall WORK_FREQUENCY 3 _ _ _ rfl rfl rfl
        (Or.inr ⟨rfl, rfl⟩) rfl rfl rfl rfl rfl
    · exact registry_entry w ms2 env.uninit hs hall DISTURB_DIRECTION 4 _ _ _ rfl rfl rfl
        (Or.inr ⟨rfl, rfl⟩) rfl rfl rfl rfl rfl
    · exact registry_entry w ms2 env.uninit hs hall CHAIN_OF_COMMAND 5 _ _ _ rfl rfl rfl
        (Or.inl ⟨rfl, rfl⟩) rfl rfl rfl rfl rfl
    · exact registry_entry w ms2 env.uninit hs hall PHOTOELECTRICITY_EQUIPMENT 6 _ _ _ rfl rfl rfl
        (Or.inl ⟨rfl, rfl⟩) rfl rfl rfl rfl rfl
    · exact registry_entry w ms2 env.uninit hs hall DESCRIPTION_OF_INTERCEPTOR_WEAPON 7 _ _ _ rfl rfl rfl
        (Or.inl ⟨rfl, rfl⟩) rfl rfl rfl rfl rfl
    · exact registry_entry w ms2 env.uninit hs hall GBI_RESOURCES 8 _ _ _ rfl rfl rfl
        (Or.inr ⟨rfl, rfl⟩) rfl rfl rfl rfl rfl
    · exact registry_entry w ms2 env.uninit hs hall GUIDANCE_RADAR 9 _ _ _ rfl rfl rfl
        (Or.inr ⟨rfl, rfl⟩) rfl rfl rfl rfl rfl
    · exact registry_entry w ms2 env.uninit hs hall FIREPOWER_UNIT 10 _ _ _ rfl rfl rfl
        (Or.inl ⟨rfl, rfl⟩) rfl rfl rfl rfl rfl
    · exact registry_entry w ms2 env.uninit hs hall FIREPOWER_UNIT_AISLE 11 _ _ _ rfl rfl rfl
        (Or.inr ⟨rfl, rfl⟩) rfl rfl rfl rfl rfl

/-! ## Header lists and `set_head_data` -/

theorem QMap.contains_iff_mem_keys {κ α : Type} [DecidableEq κ] (m : QMap κ α) (k : κ) :
    QMap.contains m k = true ↔ k ∈ QMap.keys m := by
  induction m with
  | nil => simp [QMap.contains, QMap.find, QMap.keys]
  | cons p rest ih =>
    obtain ⟨k2, v⟩ := p
    by_cases h : k2 = k
    · subst h
      simp [QMap.contains, QMap.find, QMap.keys]
    · have h2 : ¬ k = k2 := fun e => h e.symm
      simp only [QMap.contains, QMap.find, QMap.keys, h, h2, if_false, List.map_cons,
        List.mem_cons, false_or] at ih ⊢
      exact ih

theorem init_headnames_keys :
    QMap.keys init_headnames = [0, 1, 2, 3, 4, 6, 7, 8, 9, 10, 11, 12] := by
  decide

theorem mem_glossary_iff (type : ElementType) :
    type ∈ glossary_record_types ↔ type ∈ QMap.keys init_headnames := by
  rw [init_headnames_keys]
  simp only [glossary_record_types, List.mem_cons, List.mem_singleton, List.not_mem_nil,
    or_false]
  constructor <;>
    (rintro (h | h | h | h | h | h | h | h | h | h | h | h) <;> simp [h])

theorem set_head_data_fst (m : TableModel) (type : ElementType) (loc : HeadLocal) :
    (set_head_data m type loc).1 = true ↔
      0 ≤ type ∧ QMap.contains m.map_headnames_ type = true ∧
        (loc = VERTICAL_HEAD ∨ loc = HORIZONTAL_HEAD) := by
  unfold set_head_data
  by_cases h0 : type < 0
  · simp [h0]
  · have h1 : 0 ≤ type := not_lt.mp h0
    by_cases hc : QMap.contains m.map_headnames_ type = true
    · by_cases hv : loc = VERTICAL_HEAD
      · simp [h0, h1, hc, hv]
      · by_cases hh : loc = HORIZONTAL_HEAD
        · simp [h0, h1, hc, hh]
        · simp [h0, hc, hv, hh]
    · simp [h0, hc]


/-- The header state after a call: what was selected, or nothing. -/
theorem set_head_data_snd (m : TableModel) (type : ElementType) (loc : HeadLocal) :
    (type < 0 → (set_head_data m type loc).2 = m) ∧
    (0 ≤ type → (set_head_data m type loc).1 = false →
      (set_head_data m type loc).2 = { m with pver_head_data_ := none, phor_head_data_ := none }) ∧
    ((set_head_data m type loc).1 = true → loc = VERTICAL_HEAD →
      (set_head_data m type loc).2 =
        { m with pver_head_data_ := QMap.find m.map_headnames_ type, phor_head_data_ := none }) ∧
    ((set_head_data m type loc).1 = true → loc = HORIZONTAL_HEAD →
      (set_head_data m type loc).2 =
        { m with pver_head_data_ := none, phor_head_data_ := QMap.find m.map_headnames_ type }) := by
  unfold set_head_data
  by_cases h0 : type < 0
  · have h1 : ¬ 0 ≤ type := not_le.mpr h0
    simp [h0, h1]
  · have h1 : 0 ≤ type := not_lt.mp h0
    by_cases hc : QMap.contains m.map_headnames_ type = true
    · by_cases hv : loc = VERTICAL_HEAD
      · simp [h0, h1, hc, hv]
      · by_cases hh : loc = HORIZONTAL_HEAD
        · simp [h0, h1, hc, hh]
        · simp [h0, hc, hv, hh]
    · simp [h0, hc]

/-- C11: `init_text_data` declares a header list for a type exactly when the type is
one of the twelve record types of the glossary, so on a constructed model
`set_head_data(type, VERTICAL_HEAD)` and `set_head_data(type, HORIZONTAL_HEAD)`
return true exactly for those twelve (pairwise different) types. -/
theorem C11_header_declared_iff_glossary_type (type : ElementType) :
    (QMap.contains (init_text_data TableModel.members).2.map_headnames_ type = true ↔
      type ∈ glossary_record_types) ∧
    ((set_head_data TableModel.fresh type VERTICAL_HEAD).1 = true ↔
      type ∈ glossary_record_types) ∧
    ((set_head_data TableModel.fresh type HORIZONTAL_HEAD).1 = true ↔
      type ∈ glossary_record_types) ∧
    glossary_record_types.length = 12 ∧ glossary_record_types.Nodup := by
  have hk : QMap.contains init_headnames type = true ↔ type ∈ glossary_record_types := by
    rw [mem_glossary_iff, QMap.contains_iff_mem_keys]
  have h0 : type ∈ glossary_record_types → 0 ≤ type := by
    simp only [glossary_record_types, List.mem_cons, List.mem_singleton, List.not_mem_nil,
      or_false]
    rintro (h | h | h | h | h | h | h | h | h | h | h | h) <;> simp [h]
  have hf : TableModel.fresh.map_headnames_ = init_headnames := rfl
  refine ⟨hk, ?_, ?_, rfl, by decide⟩
  · rw [set_head_data_fst, hf, hk]
    exact ⟨fun h => h.2.1, fun h => ⟨h0 h, h, Or.inl rfl⟩⟩
  · rw [set_head_data_fst, hf, hk]
    exact ⟨fun h => h.2.1, fun h => ⟨h0 h, h, Or.inr rfl⟩⟩


theorem set_head_data_cases (m : TableModel) (type : ElementType) (loc : HeadLocal) :
    (type < 0 ∧ set_head_data m type loc = (false, m)) ∨
    (0 ≤ type ∧ set_head_data m type loc =
      (false, { m with pver_head_data_ := none, phor_head_data_ := none })) ∨
    (0 ≤ type ∧ set_head_data m type loc =
      (true, { m with pver_head_data_ := QMap.find m.map_headnames_ type,
                      phor_head_data_ := none })) ∨
    (0 ≤ type ∧ set_head_data m type loc =
      (true, { m with pver_head_data_ := none,
                      phor_head_data_ := QMap.find m.map_headnames_ type })) := by
  unfold set_head_data
  by_cases h0 : type < 0
  · simp [h0]
  · have h1 : 0 ≤ type := not_lt.mp h0
    by_cases hc : QMap.contains m.map_headnames_ type = true
    · by_cases hv : loc = VERTICAL_HEAD
      · simp [h0, h1, hc, hv]
      · by_cases hh : loc = HORIZONTAL_HEAD
        · simp [h0, h1, hc, hh]
        · simp [h0, h1, hc, hv, hh]
    · simp [h0, h1, hc]

theorem set_head_data_frame (m : TableModel) (type : ElementType) (loc : HeadLocal) :
    (set_head_data m type loc).2.data_ = m.data_ ∧
    (set_head_data m type loc).2.map_headnames_ = m.map_headnames_ ∧
    (set_head_data m type loc).2.map_variants_ = m.map_variants_ ∧
    (set_head_data m type loc).2.map_para_choose_ = m.map_para_choose_ := by
  rcases set_head_data_cases m type loc with ⟨-, h⟩ | ⟨-, h⟩ | ⟨-, h⟩ | ⟨-, h⟩ <;>
    rw [h] <;> exact ⟨rfl, rfl, rfl, rfl⟩

theorem set_head_data_at_most_one (m : TableModel) (type : ElementType) (loc : HeadLocal)
    (h : 0 ≤ type ∨ m.pver_head_data_ = none ∨ m.phor_head_data_ = none) :
    (set_head_data m type loc).2.pver_head_data_ = none ∨
      (set_head_data m type loc).2.phor_head_data_ = none := by
  rcases set_head_data_cases m type loc with ⟨h0, e⟩ | ⟨-, e⟩ | ⟨-, e⟩ | ⟨-, e⟩ <;> rw [e]
  · rcases h with h | h
    · exact absurd h (not_le.mpr h0)
    · exact h
  · exact Or.inl rfl
  · exact Or.inr rfl
  · exact Or.inl rfl

theorem set_head_data_seq_at_most_one (calls : List (ElementType × HeadLocal)) (m : TableModel)
    (h : (∃ c ∈ calls, 0 ≤ c.1) ∨ m.pver_head_data_ = none ∨ m.phor_head_data_ = none) :
    (set_head_data_seq m calls).pver_head_data_ = none ∨
      (set_head_data_seq m calls).phor_head_data_ = none := by
  induction calls generalizing m with
  | nil =>
    rcases h with ⟨c, hc, -⟩ | h
    · simp at hc
    · exact h
  | cons c cs ih =>
    simp only [set_head_data_seq]
    apply ih
    by_cases h0 : 0 ≤ c.1
    · exact Or.inr (set_head_data_at_most_one m c.1 c.2 (Or.inl h0))
    · rcases h with ⟨d, hd, hd0⟩ | h
      · rcases List.mem_cons.mp hd with rfl | hd
        · exact absurd hd0 h0
        · exact Or.inl ⟨d, hd, hd0⟩
      · exact Or.inr (set_head_data_at_most_one m c.1 c.2 (Or.inr h))

/-- C18: `set_head_data(type, local)` returns true exactly when `type >= 0`, a
header list is declared for `type` and `local` is VERTICAL_HEAD or HORIZONTAL_HEAD;
when it returns true the header of the chosen orientation is the declared list and
the other one is cleared; and after any sequence of calls on a constructed model
(or on any model with at most one header set, or when some call of the sequence has
a non-negative type) at most one of the two headers is set. -/
theorem C18_set_head_data_selects_one_header (m : TableModel) (type : ElementType)
    (loc : HeadLocal) (calls : List (ElementType × HeadLocal)) :
    ((set_head_data m type loc).1 = true ↔
      0 ≤ type ∧ QMap.contains m.map_headnames_ type = true ∧
        (loc = VERTICAL_HEAD ∨ loc = HORIZONTAL_HEAD)) ∧
    ((set_head_data m type loc).1 = true →
      ∃ header, QMap.find m.map_headnames_ type = some header ∧
        (loc = VERTICAL_HEAD →
          (set_head_data m type loc).2.pver_head_data_ = some header ∧
          (set_head_data m type loc).2.phor_head_data_ = none) ∧
        (loc = HORIZONTAL_HEAD →
          (set_head_data m type loc).2.phor_head_data_ = some header ∧
          (set_head_data m type loc).2.pver_head_data_ = none)) ∧
    ((set_head_data_seq TableModel.fresh calls).pver_head_data_ = none ∨
      (set_head_data_seq TableModel.fresh calls).phor_head_data_ = none) ∧
    (((∃ c ∈ calls, 0 ≤ c.1) ∨ m.pver_head_data_ = none ∨ m.phor_head_data_ = none) →
      (set_head_data_seq m calls).pver_head_data_ = none ∨
        (set_head_data_seq m calls).phor_head_data_ = none) := by
  refine ⟨set_head_data_fst m type loc, ?_,
    set_head_data_seq_at_most_one calls _ (Or.inr (Or.inl rfl)),
    set_head_data_seq_at_most_one calls m⟩
  intro ht
  obtain ⟨-, hc, -⟩ := (set_head_data_fst m type loc).mp ht
  obtain ⟨header, hh⟩ := Option.isSome_iff_exists.mp hc
  obtain ⟨-, -, hv, hz⟩ := set_head_data_snd m type loc
  refine ⟨header, hh, fun hl => ?_, fun hl => ?_⟩
  · rw [hv ht hl]
    exact ⟨hh, rfl⟩
  · rw [hz ht hl]
    exact ⟨hh, rfl⟩

theorem C18_set_head_data_selects_one_header_witness :
    (set_head_data TableModel.fresh WORK_PATTERN HORIZONTAL_HEAD).1 = true ∧
    ∃ header, QMap.find TableModel.fresh.map_headnames_ WORK_PATTERN = some header ∧
      (HORIZONTAL_HEAD = VERTICAL_HEAD →
        (set_head_data TableModel.fresh WORK_PATTERN HORIZONTAL_HEAD).2.pver_head_data_ =
          some header ∧
        (set_head_data TableModel.fresh WORK_PATTERN HORIZONTAL_HEAD).2.phor_head_data_ = none) ∧
      (HORIZONTAL_HEAD = HORIZONTAL_HEAD →
        (set_head_data TableModel.fresh WORK_PATTERN HORIZONTAL_HEAD).2.phor_head_data_ =
          some header ∧
        (set_head_data TableModel.fresh WORK_PATTERN HORIZONTAL_HEAD).2.pver_head_data_ = none) :=
  ⟨by decide,
    (C18_set_head_data_selects_one_header TableModel.fresh WORK_PATTERN HORIZONTAL_HEAD []).2.1
      (by decide)⟩

/-- C19: when `set_head_data` returns false for a non-negative type, both header
selections are cleared whatever they were, and the reason is that no header list is
declared for the type or that the orientation is neither VERTICAL_HEAD nor
HORIZONTAL_HEAD; when the type is negative the model is left exactly as it was; in
both cases rows, header lists and lookup tables are untouched. -/
theorem C19_failed_set_head_data_clears_headers (m : TableModel) (type : ElementType)
    (loc : HeadLocal) (h : (set_head_data m type loc).1 = false) :
    (0 ≤ type →
      (set_head_data m type loc).2.pver_head_data_ = none ∧
      (set_head_data m type loc).2.phor_head_data_ = none ∧
      (QMap.contains m.map_headnames_ type = false ∨
        (loc ≠ VERTICAL_HEAD ∧ loc ≠ HORIZONTAL_HEAD))) ∧
    (type < 0 → (set_head_data m type loc).2 = m) ∧
    (set_head_data m type loc).2.data_ = m.data_ ∧
    (set_head_data m type loc).2.map_headnames_ = m.map_headnames_ ∧
    (set_head_data m type loc).2.map_variants_ = m.map_variants_ ∧
    (set_head_data m type loc).2.map_para_choose_ = m.map_para_choose_ := by
  obtain ⟨hneg, hfail, -, -⟩ := set_head_data_snd m type loc
  refine ⟨fun h0 => ?_, hneg, set_head_data_frame m type loc⟩
  rw [hfail h0 h]
  refine ⟨rfl, rfl, ?_⟩
  by_contra hcon
  push_neg at hcon
  have hc : QMap.contains m.map_headnames_ type = true := by
    cases hq : QMap.contains m.map_headnames_ type
    · exact absurd hq hcon.1
    · rfl
  have ht : (set_head_data m type loc).1 = true := by
    rw [set_head_data_fst]
    refine ⟨h0, hc, ?_⟩
    by_cases hv : loc = VERTICAL_HEAD
    · exact Or.inl hv
    · exact Or.inr (hcon.2 hv)
  rw [ht] at h
  cases h

theorem C19_failed_set_head_data_clears_headers_witness :
    (set_head_data (set_head_data TableModel.fresh SYSTEM_STATE VERTICAL_HEAD).2
      REGION_OF_SEARCH VERTICAL_HEAD).1 = false ∧
    (set_head_data TableModel.fresh SYSTEM_STATE VERTICAL_HEAD).2.pver_head_data_ ≠ none ∧
    (set_head_data (set_head_data TableModel.fresh SYSTEM_STATE VERTICAL_HEAD).2
      REGION_OF_SEARCH VERTICAL_HEAD).2.pver_head_data_ = none ∧
    (set_head_data (set_head_data TableModel.fresh SYSTEM_STATE VERTICAL_HEAD).2
      REGION_OF_SEARCH VERTICAL_HEAD).2.phor_head_data_ = none :=
  ⟨by decide, by decide,
    ((C19_failed_set_head_data_clears_headers
      (set_head_data TableModel.fresh SYSTEM_STATE VERTICAL_HEAD).2 REGION_OF_SEARCH
      VERTICAL_HEAD (by decide)).1 (by decide)).1,
    ((C19_failed_set_head_data_clears_headers
      (set_head_data TableModel.fresh SYSTEM_STATE VERTICAL_HEAD).2 REGION_OF_SEARCH
      VERTICAL_HEAD (by decide)).1 (by decide)).2.1⟩


theorem QList.at_of_lt {α : Type} (l : List α) (s : Int) (h0 : 0 ≤ s) (h1 : s < (l.length : Int)) :
    ∃ x, l.get? s.toNat = some x ∧ QList.at l s = some x := by
  have hlt : s.toNat < l.length := by omega
  exact ⟨l[s.toNat], by simp [List.getElem?_eq_getElem hlt],
    by simp [QList.at, h0, List.getElem?_eq_getElem hlt]⟩

theorem headerData_vertical (m : TableModel) (header : List String) (s : Int)
    (hv : m.pver_head_data_ = some header) (h0 : 0 ≤ s) (h1 : s < (header.length : Int)) :
    ∃ label, header.get? s.toNat = some label ∧
      headerData m s Qt.Vertical Qt.DisplayRole = some (QVariant.string label) := by
  obtain ⟨x, hx, hat⟩ := QList.at_of_lt header s h0 h1
  exact ⟨x, hx, by simp [headerData, hv, hat]⟩

theorem headerData_horizontal (m : TableModel) (header : List String) (s : Int)
    (hh : m.phor_head_data_ = some header) (h0 : 0 ≤ s) (h1 : s < (header.length : Int)) :
    ∃ label, header.get? s.toNat = some label ∧
      headerData m s Qt.Horizontal Qt.DisplayRole = some (QVariant.string label) := by
  obtain ⟨x, hx, hat⟩ := QList.at_of_lt header s h0 h1
  exact ⟨x, hx, by simp [headerData, hh, hat]⟩

theorem header_sections_aux (r : Record) (loc : HeadLocal) (header : List String)
    (hr : r.in_range TableModel.fresh = true)
    (hfind : QMap.find TableModel.fresh.map_headnames_ r.type = some header)
    (h0 : 0 ≤ r.type) (hlen : r.cells.length ≤ header.length)
    (hloc : loc = VERTICAL_HEAD ∧ r.cell_per_row = true ∨
      loc = HORIZONTAL_HEAD ∧ r.cell_per_row = false) :
    ∃ m2,
      add_data (set_head_data TableModel.fresh r.type loc).2 r r.type = some m2 ∧
      ∀ s : Int, 0 ≤ s →
        (loc = VERTICAL_HEAD ∧ s < rowCount m2 ∨ loc = HORIZONTAL_HEAD ∧ s < columnCount m2) →
        ∃ header label,
          QMap.find TableModel.fresh.map_headnames_ r.type = some header ∧
          s < (header.length : Int) ∧
          header.get? s.toNat = some label ∧
          headerData m2 s (head_orientation loc) Qt.DisplayRole
            = some (QVariant.string label) := by
  obtain ⟨hd, -, -, hp⟩ := set_head_data_frame TableModel.fresh r.type loc
  obtain ⟨m2, hm2⟩ := add_data_of_in_range (set_head_data TableModel.fresh r.type loc).2 r
    (by rw [in_range_congr _ _ hp]; exact hr)
  obtain ⟨vs, hvs, hdata, -, -, hph, hpv⟩ := add_data_some _ _ r hm2
  have hvl := eval_cells_length _ _ _ hvs
  rw [hd, fresh_data, List.nil_append] at hdata
  have hc : QMap.contains TableModel.fresh.map_headnames_ r.type = true := by
    simp [QMap.contains, hfind]
  obtain ⟨-, -, hV, hH⟩ := set_head_data_snd TableModel.fresh r.type loc
  refine ⟨m2, hm2, ?_⟩
  intro s hs hcase
  rcases hloc with ⟨hl, hcp⟩ | ⟨hl, hcp⟩
  · have ht : (set_head_data TableModel.fresh r.type loc).1 = true :=
      (set_head_data_fst _ _ _).mpr ⟨h0, hc, Or.inl hl⟩
    have hs2 : s < rowCount m2 := by
      rcases hcase with ⟨-, h⟩ | ⟨h, -⟩
      · exact h
      · rw [hl] at h
        exact absurd h (by decide)
    have hrc : rowCount m2 = (vs.length : Int) := by
      simp [rowCount, hdata, Record.rows, hcp]
    have hv : m2.pver_head_data_ = some header := by rw [hpv, hV ht hl]; exact hfind
    obtain ⟨label, hlab, hhd⟩ := headerData_vertical m2 header s hv hs (by omega)
    refine ⟨header, label, hfind, by omega, hlab, ?_⟩
    rw [hl]
    exact hhd
  · have ht : (set_head_data TableModel.fresh r.type loc).1 = true :=
      (set_head_data_fst _ _ _).mpr ⟨h0, hc, Or.inr hl⟩
    have hs2 : s < columnCount m2 := by
      rcases hcase with ⟨h, -⟩ | ⟨-, h⟩
      · rw [hl] at h
        exact absurd h (by decide)
      · exact h
    have hcc : columnCount m2 = (vs.length : Int) := by
      simp [columnCount, hdata, Record.rows, hcp, QVariant.toList]
    have hv : m2.phor_head_data_ = some header := by rw [hph, hH ht hl]; exact hfind
    obtain ⟨label, hlab, hhd⟩ := headerData_horizontal m2 header s hv hs (by omega)
    refine ⟨header, label, hfind, by omega, hlab, ?_⟩
    rw [hl]
    exact hhd

theorem header_sections_region (d : RegionOfSearch) (loc : HeadLocal) :
    ∃ m2,
      add_data (set_head_data TableModel.fresh REGION_OF_SEARCH loc).2 (.regionOfSearch d)
        REGION_OF_SEARCH = some m2 ∧ rowCount m2 = 0 ∧ columnCount m2 = -1 := by
  obtain ⟨hd, -, -, hp⟩ := set_head_data_frame TableModel.fresh REGION_OF_SEARCH loc
  obtain ⟨m2, hm2⟩ := add_data_of_in_range (set_head_data TableModel.fresh REGION_OF_SEARCH loc).2
    (.regionOfSearch d) rfl
  obtain ⟨vs, hvs, hdata, -⟩ := add_data_some _ _ (.regionOfSearch d) hm2
  have hvl := eval_cells_length _ _ _ hvs
  rw [hd, fresh_data, List.nil_append] at hdata
  have hnil : vs = [] := List.length_eq_zero.mp hvl
  subst hnil
  exact ⟨m2, hm2, by simp [rowCount, hdata, Record.rows, Record.cell_per_row],
    by simp [columnCount, hdata, Record.rows, Record.cell_per_row]⟩

/-- C20: on a constructed model, after `set_head_data(t, orientation)` with the
orientation start-up uses for `t` (the one the start-up models were given) and one `add_data` of a record of type `t` whose
coded fields are in range (which does return a model), every section `s` with
`0 <= s < rowCount()` of a vertically-headed type, and every `s` with
`0 <= s < columnCount()` of a horizontally-headed one, is smaller than the length
of the declared header list, and `headerData(s, orientation, DisplayRole)` is the
`s`-th declared label. -/
theorem C20_header_sections_in_range (r : Record) (hr : r.in_range TableModel.fresh = true) :
    startup_models =
      startup_regs.map (fun e => (set_head_data TableModel.fresh e.1 (startup_head e.1)).2) ∧
    ∃ m2,
      add_data (set_head_data TableModel.fresh r.type (startup_head r.type)).2 r r.type
        = some m2 ∧
      ∀ s : Int, 0 ≤ s →
        (startup_head r.type = VERTICAL_HEAD ∧ s < rowCount m2 ∨
          startup_head r.type = HORIZONTAL_HEAD ∧ s < columnCount m2) →
        ∃ header label,
          QMap.find TableModel.fresh.map_headnames_ r.type = some header ∧
          s < (header.length : Int) ∧
          header.get? s.toNat = some label ∧
          headerData m2 s (head_orientation (startup_head r.type)) Qt.DisplayRole
            = some (QVariant.string label) := by
  refine ⟨rfl, ?_⟩
  cases r
  case regionOfSearch d =>
    obtain ⟨m2, hm2, hrc, hcc⟩ := header_sections_region d (startup_head REGION_OF_SEARCH)
    refine ⟨m2, hm2, ?_⟩
    intro s hs hcase
    rcases hcase with ⟨-, h⟩ | ⟨-, h⟩
    · rw [hrc] at h
      omega
    · rw [hcc] at h
      omega
  all_goals
    exact header_sections_aux _ _ _ hr rfl (by simp [Record.type]) (by simp [Record.cells])
      (by first | exact Or.inl ⟨rfl, rfl⟩ | exact Or.inr ⟨rfl, rfl⟩)

theorem C20_header_sections_in_range_witness :
    (Record.descriptionOfInterceptorWeapon doiw_zero).in_range TableModel.fresh = true ∧
    ∃ m2,
      add_data
        (set_head_data TableModel.fresh DESCRIPTION_OF_INTERCEPTOR_WEAPON VERTICAL_HEAD).2
        (Record.descriptionOfInterceptorWeapon doiw_zero) DESCRIPTION_OF_INTERCEPTOR_WEAPON
        = some m2 ∧
      ∀ s : Int, 0 ≤ s →
        (VERTICAL_HEAD = VERTICAL_HEAD ∧ s < rowCount m2 ∨
          VERTICAL_HEAD = HORIZONTAL_HEAD ∧ s < columnCount m2) →
        ∃ header label,
          QMap.find TableModel.fresh.map_headnames_ DESCRIPTION_OF_INTERCEPTOR_WEAPON
            = some header ∧
          s < (header.length : Int) ∧
          header.get? s.toNat = some label ∧
          headerData m2 s Qt.Vertical Qt.DisplayRole = some (QVariant.string label) :=
  ⟨by decide, (C20_header_sections_in_range (Record.descriptionOfInterceptorWeapon doiw_zero)
    (by decide)).2⟩

/-! ## Style sheets, the raster layer, and the rows of single records -/

/-- C12: when the file at the path cannot be opened, `MainWindow::load_style_sheet`
returns the window exactly as it was (style sheet included, no message box) and
`Widget::load_style_sheet` returns false with the widget exactly as it was; when
the file can be opened, the style sheet becomes the old one with the contents of
the file appended and nothing else changes. -/
theorem C12_unreadable_style_sheet_is_no_op (env : Env) (w : MainWindow) (x : Widget)
    (path : String) :
    (env.read_file path = none →
      MainWindow.load_style_sheet env w path = w ∧
      Widget.load_style_sheet env x path = (some false, x)) ∧
    (∀ contents, env.read_file path = some contents →
      MainWindow.load_style_sheet env w path =
        { w with styleSheet := w.styleSheet ++ contents } ∧
      (MainWindow.load_style_sheet env w path).message_boxes = w.message_boxes ∧
      (Widget.load_style_sheet env x path).2 =
        { x with styleSheet := x.styleSheet ++ contents }) := by
  constructor
  · intro h
    simp [MainWindow.load_style_sheet, Widget.load_style_sheet, h]
  · intro contents h
    simp [MainWindow.load_style_sheet, Widget.load_style_sheet, h]

theorem C12_unreadable_style_sheet_is_no_op_witness :
    (env_invalid.read_file ":qdarkstyle/style.qss" = none ∧
      MainWindow.load_style_sheet env_invalid MainWindow.members ":qdarkstyle/style.qss" =
        MainWindow.members ∧
      Widget.load_style_sheet env_invalid (Widget.new env_invalid "t") ":qdarkstyle/style.qss" =
        (some false, Widget.new env_invalid "t")) ∧
    (env_styled.read_file ":qdarkstyle/style.qss" = some "color: white;" ∧
      (MainWindow.load_style_sheet env_styled
        { MainWindow.members with styleSheet := "a" } ":qdarkstyle/style.qss").styleSheet =
          "a" ++ "color: white;") :=
  ⟨⟨rfl, (C12_unreadable_style_sheet_is_no_op env_invalid MainWindow.members
      (Widget.new env_invalid "t") ":qdarkstyle/style.qss").1 rfl⟩,
    ⟨by decide, congrArg MainWindow.styleSheet
      ((C12_unreadable_style_sheet_is_no_op env_styled
        { MainWindow.members with styleSheet := "a" } (Widget.new env_invalid "t")
        ":qdarkstyle/style.qss").2 "color: white;" (by decide)).1⟩⟩

theorem create_centwindow_valid (w : MainWindow) (env : Env)
    (h : (env.load_raster "tmsforuser.xml" "tmsforuser.xml" "gdal").isValid = true) :
    ∃ w2 canvas,
      create_centwindow w env = some w2 ∧
      w2.layers_ = w.layers_ ++ [env.load_raster "tmsforuser.xml" "tmsforuser.xml" "gdal"] ∧
      w2.project_layers =
        w.project_layers ++ [env.load_raster "tmsforuser.xml" "tmsforuser.xml" "gdal"] ∧
      w2.message_boxes = w.message_boxes ∧
      w2.map_canvas_ = some canvas ∧
      canvas.layers = w2.layers_ ∧
      canvas.visible = true := by
  unfold create_centwindow
  simp only [basename_eq, Option.bind_eq_bind, Option.some_bind, h, Bool.not_true]
  exact ⟨_, _, rfl, rfl, rfl, rfl, rfl, rfl, rfl⟩

/-- C14: when the raster layer loaded from the hard-coded path is valid,
`create_centwindow` appends exactly that layer to `layers_` and to the project,
raises no message box and gives the canvas the resulting `layers_` as its layer
set.  At start-up `layers_` is empty when it is called, so `init_window` ends with
`layers_` of length 1, its only element being that raster layer, which is also the
only project layer and the layer set of the canvas. -/
theorem C14_valid_raster_loads_one_layer (w : MainWindow) (env : Env)
    (h : (env.load_raster "tmsforuser.xml" "tmsforuser.xml" "gdal").isValid = true) :
    (∃ w2 canvas,
      create_centwindow w env = some w2 ∧
      w2.layers_ = w.layers_ ++ [env.load_raster "tmsforuser.xml" "tmsforuser.xml" "gdal"] ∧
      w2.project_layers =
        w.project_layers ++ [env.load_raster "tmsforuser.xml" "tmsforuser.xml" "gdal"] ∧
      w2.message_boxes = w.message_boxes ∧
      w2.map_canvas_ = some canvas ∧
      canvas.layers = w2.layers_ ∧
      canvas.visible = true) ∧
    (∃ w0 canvas,
      init_window env = some w0 ∧
      w0.layers_.length = 1 ∧
      w0.layers_ = [env.load_raster "tmsforuser.xml" "tmsforuser.xml" "gdal"] ∧
      w0.project_layers = [env.load_raster "tmsforuser.xml" "tmsforuser.xml" "gdal"] ∧
      w0.message_boxes = [] ∧
      w0.map_canvas_ = some canvas ∧
      canvas.layers = [env.load_raster "tmsforuser.xml" "tmsforuser.xml" "gdal"]) := by
  refine ⟨create_centwindow_valid w env h, ?_⟩
  obtain ⟨w0, ms2, w7, w8, hw0, -, q7, h8, q0, -⟩ := init_window_shape env
  obtain ⟨w2, canvas, h2, hl, hpl, hmb, hc, hlay, -⟩ := create_centwindow_valid w7 env h
  rw [h8] at h2
  cases h2
  simp only [map_state, MainWindow.members, Prod.mk.injEq] at q7 q0
  obtain ⟨q71, q72, q73, -⟩ := q7
  obtain ⟨q01, q02, q03, q04⟩ := q0
  have hl0 : w0.layers_ = [env.load_raster "tmsforuser.xml" "tmsforuser.xml" "gdal"] := by
    rw [q01, hl, q71]
    rfl
  refine ⟨w0, canvas, hw0, ?_, hl0, ?_, ?_, ?_, ?_⟩
  · rw [hl0]
    rfl
  · rw [q02, hpl, q72]
    rfl
  · rw [q03, hmb, q73]
  · rw [q04, hc]
  · rw [hlay, ← q01, hl0]

theorem C14_valid_raster_loads_one_layer_witness :
    (env_valid.load_raster "tmsforuser.xml" "tmsforuser.xml" "gdal").isValid = true ∧
    ∃ w0 canvas,
      init_window env_valid = some w0 ∧
      w0.layers_.length = 1 ∧
      w0.layers_ = [env_valid.load_raster "tmsforuser.xml" "tmsforuser.xml" "gdal"] ∧
      w0.project_layers = [env_valid.load_raster "tmsforuser.xml" "tmsforuser.xml" "gdal"] ∧
      w0.message_boxes = [] ∧
      w0.map_canvas_ = some canvas ∧
      canvas.layers = [env_valid.load_raster "tmsforuser.xml" "tmsforuser.xml" "gdal"] :=
  ⟨rfl, (C14_valid_raster_loads_one_layer MainWindow.members env_valid rfl).2⟩

/-- The rows of a record all of whose cells evaluate. -/
theorem add_data_rows (m : TableModel) (r : Record) (vs : List QVariant)
    (h : eval_cells m r.cells = some vs) :
    ∃ m2, add_data m r r.type = some m2 ∧
      m2.data_ = m.data_ ++ (r.rows vs).map QVariant.toList := by
  obtain ⟨m2, hm2⟩ := add_data_of_eval m r vs h
  obtain ⟨vs2, hvs2, hdata, -⟩ := add_data_some m m2 r hm2
  rw [h] at hvs2
  cases hvs2
  exact ⟨m2, hm2, hdata⟩

/-- C15: for every SystemState record whose three coded fields are in range,
`add_data(SYSTEM_STATE)` on a constructed model yields ten one-cell rows in the order
of the ten labels of the declared vertical header: the entries of the "power_off",
"control_status" and "scanning_mode" tables at `power_off`, `control_state` and
`scanning_mode`, then the raw values of `antenna_eleva_angle`, `beam_eleva_angle`,
`eccm_measures`, `clutter_map`, `emi_intensity`, `time_alloca_state` and
`track_data_rate`. -/
theorem C15_system_state_rows (d : SystemState)
    (h1 : 0 ≤ d.power_off ∧ d.power_off < 3)
    (h2 : 0 ≤ d.control_state ∧ d.control_state < 3)
    (h3 : 0 ≤ d.scanning_mode ∧ d.scanning_mode < 4) :
    ∃ m2 l1 l2 l3,
      add_data TableModel.fresh (.systemState d) SYSTEM_STATE = some m2 ∧
      (QMap.find TableModel.fresh.map_para_choose_ "power_off").bind
        (fun t => t.get? d.power_off.toNat) = some l1 ∧
      (QMap.find TableModel.fresh.map_para_choose_ "control_status").bind
        (fun t => t.get? d.control_state.toNat) = some l2 ∧
      (QMap.find TableModel.fresh.map_para_choose_ "scanning_mode").bind
        (fun t => t.get? d.scanning_mode.toNat) = some l3 ∧
      m2.data_ =
        [[.string l1], [.string l2], [.string l3], [.double d.antenna_eleva_angle],
         [.double d.beam_eleva_angle], [.int d.eccm_measures], [.string d.clutter_map],
         [.double d.emi_intensity], [.double d.time_alloca_state],
         [.double d.track_data_rate]] ∧
      QMap.find TableModel.fresh.map_headnames_ SYSTEM_STATE =
        some ["开关机:", "受控状态:", "天线扫描方式:", "天线机械俯仰角:", "波束起始扫描仰角:",
          "抗干扰措施:", "杂波图:", "电磁干扰强度:", "时间资源分配状态:", "跟踪数据率:"] ∧
      rowCount m2 = 10 := by
  obtain ⟨l1, hl1, e1⟩ := eval_coded_in_range TableModel.fresh "power_off" d.power_off
    ["开机", "待机", "关机"] rfl h1.1 h1.2
  obtain ⟨l2, hl2, e2⟩ := eval_coded_in_range TableModel.fresh "control_status" d.control_state
    ["本控", "遥控", "其他"] rfl h2.1 h2.2
  obtain ⟨l3, hl3, e3⟩ := eval_coded_in_range TableModel.fresh "scanning_mode" d.scanning_mode
    ["圆圈顺时针", "圆圈逆时针", "扇扫", "驻留"] rfl h3.1 h3.2
  have hev : eval_cells TableModel.fresh (Record.systemState d).cells =
      some [.string l1, .string l2, .string l3, .double d.antenna_eleva_angle,
        .double d.beam_eleva_angle, .int d.eccm_measures, .string d.clutter_map,
        .double d.emi_intensity, .double d.time_alloca_state, .double d.track_data_rate] := by
    simp only [Record.cells, eval_cells, e1, e2, e3]
    rfl
  obtain ⟨m2, hm2, hdata⟩ := add_data_rows _ _ _ hev
  refine ⟨m2, l1, l2, l3, hm2, hl1, hl2, hl3, ?_, rfl, ?_⟩
  · rw [hdata]
    rfl
  · rw [rowCount, hdata]
    rfl

theorem C15_system_state_rows_witness :
    ∃ m2 l1 l2 l3,
      add_data TableModel.fresh
        (.systemState { SystemState.zero with power_off := 2, scanning_mode := 3 })
        SYSTEM_STATE = some m2 ∧
      (QMap.find TableModel.fresh.map_para_choose_ "power_off").bind
        (fun t => t.get? (2 : Int).toNat) = some l1 ∧
      (QMap.find TableModel.fresh.map_para_choose_ "control_status").bind
        (fun t => t.get? (0 : Int).toNat) = some l2 ∧
      (QMap.find TableModel.fresh.map_para_choose_ "scanning_mode").bind
        (fun t => t.get? (3 : Int).toNat) = some l3 ∧
      m2.data_ =
        [[.string l1], [.string l2], [.string l3], [.double (Double.ofInt 0)],
         [.double (Double.ofInt 0)], [.int 0], [.string ""],
         [.double (Double.ofInt 0)], [.double (Double.ofInt 0)],
         [.double (Double.ofInt 0)]] ∧
      QMap.find TableModel.fresh.map_headnames_ SYSTEM_STATE =
        some ["开关机:", "受控状态:", "天线扫描方式:", "天线机械俯仰角:", "波束起始扫描仰角:",
          "抗干扰措施:", "杂波图:", "电磁干扰强度:", "时间资源分配状态:", "跟踪数据率:"] ∧
      rowCount m2 = 10 :=
  C15_system_state_rows { SystemState.zero with power_off := 2, scanning_mode := 3 }
    (by decide) (by decide) (by decide)


/-- C16: for every FirepowerUnitAisle record with `0 <= status < 5`,
`add_data(FIREPOWER_UNIT_AISLE)` on a constructed model yields the single row
`[unit_id, target_id, L]`, `L` being the `status`-th of the five labels of the
"firepower_status" table; for every WorkPattern record `add_data(WORK_PATTERN)`
yields the single row `[id, start_yaw, end_yaw]`; and the WorkPattern record of
`create_data` gives the row `[1, 0, 10]`. -/
theorem C16_aisle_and_work_pattern_rows (a : FirepowerUnitAisle) (p : WorkPattern)
    (u : SystemState) (h0 : 0 ≤ a.status) (h1 : a.status < 5) :
    (∃ m2 label,
      add_data TableModel.fresh (.firepowerUnitAisle a) FIREPOWER_UNIT_AISLE = some m2 ∧
      QMap.find TableModel.fresh.map_para_choose_ "firepower_status" =
        some ["无效", "空闲", "占用", "拦截", "已拦"] ∧
      ["无效", "空闲", "占用", "拦截", "已拦"].get? a.status.toNat = some label ∧
      m2.data_ = [[.int a.unit_id, .int a.target_id, .string label]]) ∧
    (∃ m2,
      add_data TableModel.fresh (.workPattern p) WORK_PATTERN = some m2 ∧
      m2.data_ = [[.int p.id, .double p.start_yaw, .double p.end_yaw]]) ∧
    (∃ m2,
      (create_data_records u).get? 1 =
        some (WORK_PATTERN,
          .workPattern { id := 1, start_yaw := Double.ofInt 0, end_yaw := Double.ofInt 10 },
          WORK_PATTERN) ∧
      add_data TableModel.fresh
        (.workPattern { id := 1, start_yaw := Double.ofInt 0, end_yaw := Double.ofInt 10 })
        WORK_PATTERN = some m2 ∧
      m2.data_ = [[.int 1, .double (Double.ofInt 0), .double (Double.ofInt 10)]]) := by
  refine ⟨?_, ?_, ?_⟩
  · obtain ⟨label, hl, e⟩ := eval_coded_in_range TableModel.fresh "firepower_status" a.status
      ["无效", "空闲", "占用", "拦截", "已拦"] rfl h0 h1
    have hev : eval_cells TableModel.fresh (Record.firepowerUnitAisle a).cells =
        some [.int a.unit_id, .int a.target_id, .string label] := by
      simp only [Record.cells, eval_cells, e]
      rfl
    obtain ⟨m2, hm2, hdata⟩ := add_data_rows _ _ _ hev
    exact ⟨m2, label, hm2, rfl, hl, by rw [hdata]; rfl⟩
  · obtain ⟨m2, hm2, hdata⟩ := add_data_rows TableModel.fresh (.workPattern p)
      [.int p.id, .double p.start_yaw, .double p.end_yaw] rfl
    exact ⟨m2, hm2, by rw [hdata]; rfl⟩
  · exact ⟨_, rfl, rfl, rfl⟩

theorem C16_aisle_and_work_pattern_rows_witness :
    ∃ m2 label,
      add_data TableModel.fresh (.firepowerUnitAisle { unit_id := 3, target_id := 8, status := 4 })
        FIREPOWER_UNIT_AISLE = some m2 ∧
      QMap.find TableModel.fresh.map_para_choose_ "firepower_status" =
        some ["无效", "空闲", "占用", "拦截", "已拦"] ∧
      ["无效", "空闲", "占用", "拦截", "已拦"].get? (4 : Int).toNat = some label ∧
      m2.data_ = [[.int 3, .int 8, .string label]] :=
  (C16_aisle_and_work_pattern_rows { unit_id := 3, target_id := 8, status := 4 }
    { id := 1, start_yaw := Double.ofInt 0, end_yaw := Double.ofInt 10 } SystemState.zero
    (by decide) (by decide)).1

theorem claimed_keys_present :
    claimed_lookup_keys.all (fun key =>
      match QMap.find TableModel.fresh.map_para_choose_ key with
      | some t => !t.isEmpty
      | none => false) = true := by
  decide

theorem claimed_keys_queried :
    claimed_lookup_keys.all (fun key =>
      (create_data_records SystemState.zero).any fun c =>
        c.2.1.cells.any fun cell => cell.key == some key) = true := by
  decide

theorem coded_key_claimed (r : Record) (i : Nat) (key : String) (value : Option Int)
    (h : r.cells.get? i = some (CellSource.coded key value)) : key ∈ claimed_lookup_keys := by
  have hm := List.get?_mem h
  cases r <;> simp [Record.cells] at hm <;>
    (revert hm; simp only [claimed_lookup_keys, List.mem_cons, List.mem_singleton]; tauto)


/-- C17: each of the eleven lookup keys is present in the `map_para_choose_` of a
constructed model with a non-empty table and is queried by some start-up record;
every key `add_data` queries (a coded cell of any record of any type) is one of the
eleven, so on a model holding the tables of `init_text_data` the key is contained,
the cell is read from its table and never from the empty-string fallback, and
`add_data` leaves the tables in place. -/
theorem C17_lookup_tables_present (m : TableModel) (r : Record) (i : Nat) (key : String)
    (value : Option Int)
    (hm : m.map_para_choose_ = (init_text_data TableModel.members).2.map_para_choose_)
    (hc : r.cells.get? i = some (CellSource.coded key value)) :
    (claimed_lookup_keys.all (fun k =>
      match QMap.find TableModel.fresh.map_para_choose_ k with
      | some t => !t.isEmpty
      | none => false) = true ∧
     claimed_lookup_keys.all (fun k =>
      (create_data_records SystemState.zero).any fun c =>
        c.2.1.cells.any fun cell => cell.key == some k) = true) ∧
    key ∈ claimed_lookup_keys ∧
    QMap.contains m.map_para_choose_ key = true ∧
    (∃ t, QMap.find m.map_para_choose_ key = some t ∧ t ≠ [] ∧
      (CellSource.coded key value).eval m =
        value.bind fun v => (QList.at t v).map QVariant.string) ∧
    (∀ m2, add_data m r r.type = some m2 →
      m2.map_para_choose_ = (init_text_data TableModel.members).2.map_para_choose_) := by
  have hk := coded_key_claimed r i key value hc
  have hall := claimed_keys_present
  rw [List.all_eq_true] at hall
  have hkey := hall key hk
  have hf : TableModel.fresh.map_para_choose_ = m.map_para_choose_ := hm.symm
  rw [hf] at hkey
  refine ⟨⟨claimed_keys_present, claimed_keys_queried⟩, hk, ?_, ?_, ?_⟩
  · cases hq : QMap.find m.map_para_choose_ key with
    | none => simp [hq] at hkey
    | some t => simp [QMap.contains, hq]
  · cases hq : QMap.find m.map_para_choose_ key with
    | none => simp [hq] at hkey
    | some t =>
      refine ⟨t, rfl, ?_, ?_⟩
      · intro ht
        simp [hq, ht] at hkey
      · simp [CellSource.eval, para_choose, QMap.contains, hq]
  · intro m2 h2
    obtain ⟨-, -, -, hp, -⟩ := add_data_some m m2 r h2
    rw [hp, hm]

theorem C17_lookup_tables_present_witness :
    (Record.firepowerUnitAisle { unit_id := 3, target_id := 8, status := 4 }).cells.get? 2 =
      some (CellSource.coded "firepower_status" (some 4)) ∧
    QMap.contains TableModel.fresh.map_para_choose_ "firepower_status" = true ∧
    "firepower_status" ∈ claimed_lookup_keys :=
  ⟨rfl,
    (C17_lookup_tables_present TableModel.fresh
      (Record.firepowerUnitAisle { unit_id := 3, target_id := 8, status := 4 }) 2
      "firepower_status" (some 4) rfl rfl).2.2.1,
    (C17_lookup_tables_present TableModel.fresh
      (Record.firepowerUnitAisle { unit_id := 3, target_id := 8, status := 4 }) 2
      "firepower_status" (some 4) rfl rfl).2.1⟩

/-! ## The operations of the running window leave the models alone -/

theorem setVisible_models (w w2 : MainWindow) (p : Nat) (b : Bool)
    (h : setVisible w p b = some w2) : w2.models = w.models := by
  simp only [setVisible, Option.bind_eq_bind, Option.bind_eq_some, Option.pure_def,
    Option.some.injEq] at h
  obtain ⟨_, -, rfl⟩ := h
  rfl

theorem emit_sig_models (w w2 : MainWindow) (p : Nat) (b : Bool)
    (h : emit_sig w p b = some w2) : w2.models = w.models := by
  simp only [emit_sig, Option.bind_eq_bind, Option.bind_eq_some, Option.pure_def] at h
  obtain ⟨x, -, h⟩ := h
  split at h
  · simp only [Option.bind_eq_some, Option.some.injEq] at h
    obtain ⟨_, -, rfl⟩ := h
    rfl
  · cases h
    rfl


theorem show_each_models (l : List Nat) (w w2 : MainWindow)
    (h : show_each w l = some w2) : w2.models = w.models := by
  induction l generalizing w with
  | nil =>
    cases h
    rfl
  | cons p rest ih =>
    simp only [show_each, Option.bind_eq_some] at h
    obtain ⟨w1, h1, h3⟩ := h
    rw [ih w1 h3, setVisible_models w w1 p true h1]

theorem show_sub_widget_models (w w2 : MainWindow) (p : Nat)
    (h : show_sub_widget w p = some w2) : w2.models = w.models := by
  simp only [show_sub_widget, Option.bind_eq_bind, Option.bind_eq_some, Option.pure_def] at h
  obtain ⟨x, -, h⟩ := h
  split at h
  · exact show_each_models _ w w2 h
  · cases h
    rfl

theorem slot_change_wid_statu_models (w w2 : MainWindow) (type : Int)
    (h : slot_change_wid_statu w type = some w2) : w2.models = w.models := by
  simp only [slot_change_wid_statu, Option.bind_eq_bind, Option.bind_eq_some] at h
  obtain ⟨var, -, x, -, h⟩ := h
  split at h
  · exact setVisible_models w w2 var false h
  · simp only [Option.bind_eq_some] at h
    obtain ⟨w1, h1, h3⟩ := h
    rw [show_sub_widget_models w1 w2 var h3, setVisible_models w w1 var true h1]

theorem setGeometry_models (w w2 : MainWindow) (p : Nat) (x y width height : Int)
    (h : setGeometry w p x y width height = some w2) : w2.models = w.models := by
  simp only [setGeometry, Option.bind_eq_bind, Option.bind_eq_some, Option.pure_def,
    Option.some.injEq] at h
  obtain ⟨_, -, rfl⟩ := h
  rfl

theorem arrange_overlaping_models (h wd : Int) (l : List (Int × Nat)) (w w2 : MainWindow)
    (count : Int) (hr : arrange_overlaping h wd w l count = some w2) : w2.models = w.models := by
  induction l generalizing w count with
  | nil =>
    cases hr
    rfl
  | cons e rest ih =>
    obtain ⟨k, var⟩ := e
    simp only [arrange_overlaping] at hr
    split at hr
    · cases hr
    · split at hr
      · simp only [Option.bind_eq_some] at hr
        obtain ⟨w1, h1, h3⟩ := hr
        rw [ih w1 _ h3, setGeometry_models w w1 _ _ _ _ _ h1]
      · exact ih w _ hr

theorem arrange_horizontal_models (h : Int) (l : List (Int × Nat)) (w w2 : MainWindow)
    (count : Int) (hr : arrange_horizontal h w l count = some w2) : w2.models = w.models := by
  induction l generalizing w count with
  | nil =>
    cases hr
    rfl
  | cons e rest ih =>
    obtain ⟨k, var⟩ := e
    simp only [arrange_horizontal] at hr
    split at hr
    · cases hr
    · split at hr
      · simp only [Option.bind_eq_some] at hr
        obtain ⟨w1, h1, h3⟩ := hr
        split at h3
        · cases h3
        · rw [ih w1 _ h3, setGeometry_models w w1 _ _ _ _ _ h1]
      · exact ih w _ hr

theorem arrange_vertical_models (l : List (Int × Nat)) (w w2 : MainWindow)
    (count : Int) (hr : arrange_vertical w l count = some w2) : w2.models = w.models := by
  induction l generalizing w count with
  | nil =>
    cases hr
    rfl
  | cons e rest ih =>
    obtain ⟨k, var⟩ := e
    simp only [arrange_vertical] at hr
    split at hr
    · cases hr
    · split at hr
      · simp only [Option.bind_eq_some] at hr
        obtain ⟨w1, h1, h3⟩ := hr
        split at h3
        · cases h3
        · rw [ih w1 _ h3, setGeometry_models w w1 _ _ _ _ _ h1]
      · exact ih w _ hr

theorem from_arranged_models (w w2 : MainWindow) (action : Nat)
    (h : from_arranged w action = some w2) : w2.models = w.models := by
  simp only [from_arranged] at h
  split at h
  · exact arrange_overlaping_models _ _ _ w w2 _ h
  · split at h
    · exact arrange_horizontal_models _ _ w w2 _ h
    · split at h
      · exact arrange_vertical_models _ w w2 _ h
      · cases h
        rfl

theorem closeEvent_models (w w2 : MainWindow) (p : Nat)
    (h : closeEvent w p = some w2) : w2.models = w.models := by
  simp only [closeEvent, Option.bind_eq_bind, Option.bind_eq_some] at h
  obtain ⟨w1, h1, h3⟩ := h
  rw [emit_sig_models w1 w2 p false h3, setVisible_models w w1 p false h1]

theorem close_models (w w2 : MainWindow) (p : Nat)
    (h : close w p = some w2) : w2.models = w.models := by
  simp only [close, Option.bind_eq_bind, Option.bind_eq_some, Option.pure_def] at h
  obtain ⟨w1, h1, x, -, h3⟩ := h
  split at h3
  · rw [setVisible_models w1 w2 p false h3, closeEvent_models w w1 p h1]
  · cases h3
    exact closeEvent_models w w2 p h1

theorem close_all_models (l : List (Int × Nat)) (w w2 : MainWindow)
    (h : close_all w l = some w2) : w2.models = w.models := by
  induction l generalizing w with
  | nil =>
    cases h
    rfl
  | cons e rest ih =>
    obtain ⟨k, var⟩ := e
    simp only [close_all, Option.bind_eq_some] at h
    obtain ⟨w1, h1, h3⟩ := h
    rw [ih w1 h3, close_models w w1 var h1]

theorem open_all_models (l : List (Int × Nat)) (w w2 : MainWindow)
    (h : open_all w l = some w2) : w2.models = w.models := by
  induction l generalizing w with
  | nil =>
    cases h
    rfl
  | cons e rest ih =>
    obtain ⟨k, var⟩ := e
    simp only [open_all, Option.bind_eq_some] at h
    obtain ⟨w1, ⟨w0, h0, h1⟩, h3⟩ := h
    rw [ih w1 h3, emit_sig_models w0 w1 var true h1, setVisible_models w w0 var true h0]

theorem setRowHidden_models (w w2 : MainWindow) (v : Nat) (row : Int) (hide : Bool)
    (h : setRowHidden w v row hide = some w2) : w2.models = w.models := by
  simp only [setRowHidden, Option.bind_eq_bind, Option.bind_eq_some, Option.pure_def] at h
  obtain ⟨view, -, h⟩ := h
  split at h
  · cases h
    rfl
  · simp only [Option.bind_eq_some, Option.some.injEq] at h
    obtain ⟨_, -, rfl⟩ := h
    rfl

theorem rows_loop_models (in_view_ : Option Nat) (l : List Bool) (w w2 : MainWindow) (i : Int)
    (h : rows_loop in_view_ w l i = some w2) : w2.models = w.models := by
  induction l generalizing w i with
  | nil =>
    cases h
    rfl
  | cons c rest ih =>
    simp only [rows_loop] at h
    split at h
    · cases h
    · simp only [Option.bind_eq_some] at h
      obtain ⟨w1, h1, h3⟩ := h
      rw [ih w1 _ h3]
      split at h1
      · exact setRowHidden_models w w1 _ _ _ h1
      · exact setRowHidden_models w w1 _ _ _ h1

theorem subs_loop_models (subs : List Nat) (l : List Bool) (w w2 : MainWindow) (i : Int)
    (h : subs_loop subs w l i = some w2) : w2.models = w.models := by
  induction l generalizing w i with
  | nil =>
    cases h
    rfl
  | cons c rest ih =>
    simp only [subs_loop] at h
    split at h
    · cases h
    · split at h
      · cases h
      · simp only [Option.bind_eq_some] at h
        obtain ⟨w1, h1, h3⟩ := h
        rw [ih w1 _ h3]
        split at h1
        · split at h1
          · exact setVisible_models w w1 _ _ h1
          · cases h1
            rfl
        · split at h1
          · exact setVisible_models w w1 _ _ h1
          · cases h1
            rfl

theorem close_select_list_models (w w2 : MainWindow) (p : Nat)
    (h : close_select_list w p = some w2) : w2.models = w.models := by
  simp only [close_select_list, Option.bind_eq_bind, Option.bind_eq_some, Option.pure_def] at h
  obtain ⟨x, -, h⟩ := h
  split at h
  · cases h
  · simp only [Option.bind_eq_some, Option.some.injEq] at h
    obtain ⟨_, -, rfl⟩ := h
    rfl

theorem on_setting_visible_models (w w2 : MainWindow) (p : Nat)
    (h : on_setting_visible w p = some w2) : w2.models = w.models := by
  simp only [on_setting_visible, Option.bind_eq_bind, Option.bind_eq_some] at h
  obtain ⟨x, -, w1, h1, w3, h3, h4⟩ := h
  rw [close_select_list_models w3 w2 p h4, subs_loop_models _ _ w1 w3 _ h3,
    rows_loop_models _ _ w w1 _ h1]

theorem create_select_list_models (w w2 : MainWindow) (p : Nat)
    (h : create_select_list w p = some w2) : w2.models = w.models := by
  simp only [create_select_list, Option.bind_eq_bind, Option.bind_eq_some, Option.pure_def,
    Option.some.injEq] at h
  obtain ⟨x, -, model, -, m, -, sl, -, _, -, _, -, rfl⟩ := h
  rfl

theorem show_select_list_models (w w2 : MainWindow) (p : Nat)
    (h : show_select_list w p = some w2) : w2.models = w.models := by
  simp only [show_select_list, Option.bind_eq_bind, Option.bind_eq_some, Option.pure_def] at h
  obtain ⟨x, -, h⟩ := h
  split at h
  · simp only [Option.bind_eq_some, Option.some.injEq] at h
    obtain ⟨_, -, rfl⟩ := h
    rfl
  · exact create_select_list_models w w2 p h

theorem check_all_models (w w2 : MainWindow) (p : Nat) (b : Bool)
    (h : check_all w p b = some w2) : w2.models = w.models := by
  simp only [check_all, Option.bind_eq_bind, Option.bind_eq_some, Option.pure_def,
    Option.some.injEq] at h
  obtain ⟨_, -, rfl⟩ := h
  rfl

theorem trigger_widget_action_models (w w2 : MainWindow) (type : Int)
    (h : trigger_widget_action w type = some w2) : w2.models = w.models := by
  simp only [trigger_widget_action, Option.bind_eq_bind, Option.bind_eq_some] at h
  obtain ⟨p, -, x, -, action, -, actions, -, w1, h1, h3⟩ := h
  rw [slot_change_wid_statu_models w1 w2 type h3, from_arranged_models _ w1 action h1]

theorem UiOp.run_models (op : UiOp) (w w2 : MainWindow) (h : op.run w = some w2) :
    w2.models = w.models := by
  cases op with
  | menu_widget type => exact trigger_widget_action_models w w2 type h
  | menu_action action => exact from_arranged_models w w2 action h
  | close_widget p => exact close_models w w2 p h
  | menu_close_all => exact close_all_models _ w w2 h
  | menu_open_all => exact open_all_models _ w w2 h
  | select_button p => exact show_select_list_models w w2 p h
  | check_button p checked => exact check_all_models w w2 p checked h
  | ok_button p => exact on_setting_visible_models w w2 p h
  | cancel_button p => exact close_select_list_models w w2 p h

theorem run_ops_models (ops : List UiOp) (w w2 : MainWindow) (h : run_ops w ops = some w2) :
    w2.models = w.models := by
  induction ops generalizing w with
  | nil =>
    cases h
    rfl
  | cons op rest ih =>
    simp only [run_ops, Option.bind_eq_some] at h
    obtain ⟨w1, h1, h3⟩ := h
    rw [ih w1 h3, UiOp.run_models op w w1 h1]


/-- C13: none of the operations of the running window changes the rows a model
holds.  Whenever `slot_change_wid_statu`, `from_arranged`, `Widget::closeEvent`,
`Widget::on_setting_visible`, the slot of "open all" or the slot of "close all"
returns, whatever the window state and the argument, every model has the rows it
had before, in the same order; the same holds for every sequence of user
operations (menu actions, closing a widget, the selection list and its buttons),
which leaves the models as a whole untouched, in particular from the state
`init_window` ends in. -/
theorem C13_ui_operations_keep_rows (env : Env) (w w2 : MainWindow) :
    (∀ type, slot_change_wid_statu w type = some w2 → rows_held w2 = rows_held w) ∧
    (∀ action, from_arranged w action = some w2 → rows_held w2 = rows_held w) ∧
    (∀ p, closeEvent w p = some w2 → rows_held w2 = rows_held w) ∧
    (∀ p, on_setting_visible w p = some w2 → rows_held w2 = rows_held w) ∧
    (open_all w w.map_widgets_ = some w2 → rows_held w2 = rows_held w) ∧
    (close_all w w.map_widgets_ = some w2 → rows_held w2 = rows_held w) ∧
    (∀ ops, run_ops w ops = some w2 → rows_held w2 = rows_held w ∧ w2.models = w.models) ∧
    (∃ w0, init_window env = some w0 ∧
      ∀ ops w3, run_ops w0 ops = some w3 → rows_held w3 = rows_held w0) := by
  unfold rows_held
  refine ⟨fun t h => ?_, fun a h => ?_, fun p h => ?_, fun p h => ?_, fun h => ?_, fun h => ?_,
    fun ops h => ?_, ?_⟩
  · rw [slot_change_wid_statu_models w w2 t h]
  · rw [from_arranged_models w w2 a h]
  · rw [closeEvent_models w w2 p h]
  · rw [on_setting_visible_models w w2 p h]
  · rw [open_all_models _ w w2 h]
  · rw [close_all_models _ w w2 h]
  · rw [run_ops_models ops w w2 h]
    exact ⟨rfl, rfl⟩
  · obtain ⟨w0, -, -, -, hw0, -⟩ := init_window_shape env
    exact ⟨w0, hw0, fun ops w3 h => by rw [run_ops_models ops w0 w3 h]⟩

theorem C13_ui_operations_keep_rows_witness :
    ∃ w w2, demo_window = some w ∧ run_ops w demo_session = some w2 ∧
      rows_held w = [[[.string "作战"], [.int 0], [.string "正常"], [.string "允许自主射击"],
        [.string "按级"]]] ∧
      rows_held w2 = rows_held w := by
  refine ⟨_, _, rfl, rfl, rfl, ?_⟩
  exact ((C13_ui_operations_keep_rows env_invalid _ _).2.2.2.2.2.2.1 demo_session (by rfl)).1

/-! ## Cells, counts, and the record without rows -/

theorem data_valid_display (m : TableModel) (index : QModelIndex) (role : Int)
    (hv : index.isValid = true) (hr : role = Qt.DisplayRole ∨ role = Qt.EditRole) :
    data m index role = some ((stored_cell m index.row index.column).getD QVariant.invalid) := by
  simp only [QModelIndex.isValid, Bool.and_eq_true, decide_eq_true_eq] at hv
  obtain ⟨⟨h0, h1⟩, hm⟩ := hv
  have hv2 : index.isValid = true := by
    simp [QModelIndex.isValid, h0, h1, hm]
  unfold data stored_cell
  simp only [hv2, Bool.not_true, hr, h0, h1, and_self, if_true, Bool.false_eq_true, if_false]
  by_cases hrow : index.row ≥ (m.data_.length : Int)
  · have : m.data_.length ≤ index.row.toNat := by omega
    simp [hrow, List.getElem?_eq_none this]
  · have hlt : index.row.toNat < m.data_.length := by omega
    simp only [hrow, if_false, QList.at, h0, if_true, List.get?_eq_getElem?,
      List.getElem?_eq_getElem hlt, Option.some_bind]
    by_cases hcol : index.column ≥ ((m.data_[index.row.toNat]).length : Int)
    · have : (m.data_[index.row.toNat]).length ≤ index.column.toNat := by omega
      simp [hcol, List.getElem?_eq_none this]
    · have hlt2 : index.column.toNat < (m.data_[index.row.toNat]).length := by omega
      simp [hcol, h1, List.getElem?_eq_getElem hlt2]

theorem data_total (m : TableModel) (index : QModelIndex) (role : Int) :
    ∃ v, data m index role = some v := by
  by_cases hv : index.isValid = true
  · by_cases hr : role = Qt.DisplayRole ∨ role = Qt.EditRole
    · exact ⟨_, data_valid_display m index role hv hr⟩
    · unfold data
      simp only [hv, Bool.not_true, Bool.false_eq_true, if_false, hr]
      split
      · exact ⟨_, rfl⟩
      · exact ⟨_, rfl⟩
  · unfold data
    simp only [Bool.not_eq_true] at hv
    simp [hv]


/-- C21: `TableModel::data` always returns a value, never reading outside a list.
For an invalid index it is the empty value, whatever the role.  For a valid index
and DisplayRole or EditRole it is the stored cell at (row, column) when the row is a
stored row and the column lies inside that row, and the empty value when the row is
past the stored rows or the column is past the end of that row, whatever the lengths
of the other rows.  For a valid index it is centre alignment for TextAlignmentRole,
whether the cell exists or not, and the empty value for any other role. -/
theorem C21_data_total_and_bounds_safe (m : TableModel) (index : QModelIndex) (role : Int) :
    (∃ v, data m index role = some v) ∧
    (index.isValid = false → data m index role = some QVariant.invalid) ∧
    (index.isValid = true → (role = Qt.DisplayRole ∨ role = Qt.EditRole) →
      (∀ r cell, m.data_.get? index.row.toNat = some r →
        r.get? index.column.toNat = some cell → data m index role = some cell) ∧
      ((m.data_.length : Int) ≤ index.row → data m index role = some QVariant.invalid) ∧
      (∀ r, m.data_.get? index.row.toNat = some r → (r.length : Int) ≤ index.column →
        data m index role = some QVariant.invalid)) ∧
    (index.isValid = true → role = Qt.TextAlignmentRole →
      data m index role = some (QVariant.int Qt.AlignCenter)) ∧
    (index.isValid = true → role ≠ Qt.DisplayRole → role ≠ Qt.EditRole →
      role ≠ Qt.TextAlignmentRole → data m index role = some QVariant.invalid) := by
  refine ⟨data_total m index role, ?_, ?_, ?_, ?_⟩
  · intro hv
    simp [data, hv]
  · intro hv hr
    have hd := data_valid_display m index role hv hr
    simp only [QModelIndex.isValid, Bool.and_eq_true, decide_eq_true_eq] at hv
    obtain ⟨⟨h0, h1⟩, -⟩ := hv
    refine ⟨fun r cell hrow hcell => ?_, fun hrow => ?_, fun r hrow hcol => ?_⟩
    · rw [hd]
      simp only [List.get?_eq_getElem?] at hrow hcell
      simp [stored_cell, h0, h1, hrow, hcell]
    · rw [hd]
      have : m.data_.length ≤ index.row.toNat := by omega
      simp [stored_cell, List.getElem?_eq_none this]
    · rw [hd]
      have : r.length ≤ index.column.toNat := by omega
      simp only [List.get?_eq_getElem?] at hrow
      simp [stored_cell, h0, h1, hrow, List.getElem?_eq_none this]
  · intro hv hr
    subst hr
    simp [data, hv]
  · intro hv h1 h2 h3
    simp [data, hv, h1, h2, h3]

theorem C21_data_total_and_bounds_safe_witness :
    (QModelIndex.isValid { row := 1, column := 0, model := some 0 } = true ∧
      data ragged_model { row := 1, column := 0, model := some 0 } Qt.DisplayRole =
        some (QVariant.string "a")) ∧
    (QModelIndex.isValid { row := 1, column := 2, model := some 0 } = true ∧
      data ragged_model { row := 1, column := 2, model := some 0 } Qt.EditRole =
        some QVariant.invalid) ∧
    (QModelIndex.isValid { row := 7, column := 7, model := some 0 } = true ∧
      data ragged_model { row := 7, column := 7, model := some 0 } Qt.TextAlignmentRole =
        some (QVariant.int 132)) ∧
    (QModelIndex.isValid { row := -1, column := -1, model := none } = false ∧
      data ragged_model { row := -1, column := -1, model := none } Qt.TextAlignmentRole =
        some QVariant.invalid) :=
  ⟨⟨rfl, ((C21_data_total_and_bounds_safe ragged_model { row := 1, column := 0, model := some 0 }
      Qt.DisplayRole).2.2.1 rfl (Or.inl rfl)).1 [.string "a"] (.string "a") rfl rfl⟩,
   ⟨rfl, ((C21_data_total_and_bounds_safe ragged_model { row := 1, column := 2, model := some 0 }
      Qt.EditRole).2.2.1 rfl (Or.inr rfl)).2.2 [.string "a"] rfl (by decide)⟩,
   ⟨rfl, (C21_data_total_and_bounds_safe ragged_model { row := 7, column := 7, model := some 0 }
      Qt.TextAlignmentRole).2.2.2.1 rfl rfl⟩,
   ⟨rfl, (C21_data_total_and_bounds_safe ragged_model { row := -1, column := -1, model := none }
      Qt.TextAlignmentRole).2.1 rfl⟩⟩

/-- C22: `rowCount()` is the number of stored rows; `columnCount()` is the length of
the first stored row when there is one and -1 when there is none, and -1 only then;
a freshly constructed model reports `rowCount() = 0` and `columnCount() = -1`. -/
theorem C22_row_and_column_count (m : TableModel) :
    rowCount m = (m.data_.length : Int) ∧
    (∀ row rest, m.data_ = row :: rest → columnCount m = (row.length : Int)) ∧
    (m.data_ = [] → columnCount m = -1) ∧
    (columnCount m = -1 ↔ m.data_ = []) ∧
    TableModel.new = some TableModel.fresh ∧
    rowCount TableModel.fresh = 0 ∧
    columnCount TableModel.fresh = -1 := by
  refine ⟨rfl, fun row rest h => ?_, fun h => ?_, ?_, rfl, rfl, rfl⟩
  · simp [columnCount, h]
  · simp [columnCount, h]
  · cases hd : m.data_ with
    | nil => simp [columnCount, hd]
    | cons row rest =>
      simp [columnCount, hd]

theorem C22_row_and_column_count_witness :
    rowCount ragged_model = 2 ∧ columnCount ragged_model = 3 ∧
    rowCount TableModel.fresh = 0 ∧ columnCount TableModel.fresh = -1 :=
  ⟨(C22_row_and_column_count ragged_model).1,
    (C22_row_and_column_count ragged_model).2.1 [.int 1, .int 2, .int 3] [[.string "a"]] rfl,
    (C22_row_and_column_count ragged_model).2.2.2.2.2.1,
    (C22_row_and_column_count TableModel.fresh).2.2.1 rfl⟩

theorem add_data_region (m : TableModel) (d : RegionOfSearch) :
    ∃ m1, add_data_switch m (.regionOfSearch d) REGION_OF_SEARCH
        = some (m1, some REGION_OF_SEARCH) ∧
      view_data m1 (some REGION_OF_SEARCH) = some (false, m1) := by
  have key : ∀ mv : QMap Int QVariant,
      view_data { m with map_variants_ := QMap.insert mv REGION_OF_SEARCH (QVariant.list []) }
        (some REGION_OF_SEARCH) =
      some (false,
        { m with map_variants_ := QMap.insert mv REGION_OF_SEARCH (QVariant.list []) }) := by
    intro mv
    simp [view_data, QMap.find_insert_self, QVariant.toList]
  by_cases hc : QMap.contains m.map_variants_ REGION_OF_SEARCH = true
  · refine ⟨_, ?_, key m.map_variants_⟩
    simp [add_data_switch, variant_slot, setValue, hc]
  · refine ⟨_, ?_, key (QMap.insert m.map_variants_ REGION_OF_SEARCH QVariant.invalid)⟩
    simp [add_data_switch, variant_slot, setValue, hc, QMap.contains_insert_self]

/-- C23: for every model state and every RegionOfSearch record,
`add_data(REGION_OF_SEARCH)` returns, the switch hands `view_data` an empty list, for
which `view_data` reports false and changes nothing, and the rows, `rowCount()` and
`columnCount()` of the model are the same after the call as before; the record
projects to no cell. -/
theorem C23_region_of_search_adds_no_row (m : TableModel) (d : RegionOfSearch) :
    ∃ m1 m2,
      add_data_switch m (.regionOfSearch d) REGION_OF_SEARCH = some (m1, some REGION_OF_SEARCH) ∧
      view_data m1 (some REGION_OF_SEARCH) = some (false, m1) ∧
      add_data m (.regionOfSearch d) REGION_OF_SEARCH = some m2 ∧
      m2.data_ = m.data_ ∧
      rowCount m2 = rowCount m ∧
      columnCount m2 = columnCount m ∧
      (Record.regionOfSearch d).cells = [] := by
  obtain ⟨m1, h1, h2⟩ := add_data_region m d
  obtain ⟨m2, hm2, hdata⟩ := add_data_rows m (.regionOfSearch d) [] rfl
  have hd : m2.data_ = m.data_ := by
    rw [hdata]
    simp [Record.rows, Record.cell_per_row]
  exact ⟨m1, m2, h1, h2, hm2, hd, by simp [rowCount, hd],
    by rw [columnCount, columnCount, hd], rfl⟩

/-! ## The wiring `init_window` leaves -/

theorem heap_update_some {α : Type} (l l2 : List α) (p : Nat) (f : α → α)
    (h : heap_update l p f = some l2) :
    ∃ x, l.get? p = some x ∧ l2 = l.set p (f x) ∧ p < l.length := by
  unfold heap_update at h
  split at h
  · rename_i x hx
    simp only [Option.some.injEq] at h
    refine ⟨x, hx, h.symm, ?_⟩
    by_contra hp
    simp only [List.get?_eq_getElem?] at hx
    rw [List.getElem?_eq_none (by omega)] at hx
    cases hx
  · cases h

theorem map_set_of_comm {α β : Type} (g : α → β) (k : β → β) (l : List α) (p : Nat) (x : α)
    (f : α → α) (hx : l.get? p = some x) (hg : g (f x) = k (g x)) :
    heap_update (l.map g) p k = some ((l.set p (f x)).map g) := by
  simp only [List.get?_eq_getElem?] at hx
  simp [heap_update, hx, List.map_set, hg]

theorem heap_update_comm {α β : Type} (g : α → β) (k : β → β) (l l2 : List α) (p : Nat)
    (f : α → α) (h : heap_update l p f = some l2) (hg : ∀ x, g (f x) = k (g x)) :
    heap_update (l.map g) p k = some (l2.map g) := by
  obtain ⟨x, hx, rfl, -⟩ := heap_update_some l l2 p f h
  exact map_set_of_comm g k l p x f hx (hg x)

theorem heap_update_keep {α β : Type} (g : α → β) (l l2 : List α) (p : Nat)
    (f : α → α) (h : heap_update l p f = some l2) (hg : ∀ x, g (f x) = g x) :
    l2.map g = l.map g := by
  obtain ⟨x, hx, rfl, hp⟩ := heap_update_some l l2 p f h
  simp only [List.get?_eq_getElem?] at hx
  rw [List.map_set, hg]
  apply List.ext_getElem?
  intro i
  by_cases hi : p = i
  · subst hi
    rw [List.getElem?_eq_getElem hp] at hx
    cases hx
    simp [List.getElem?_set_self, hp]
  · simp [List.getElem?_set_ne hi]

theorem heap_update_mid {α : Type} (l rest : List α) (a : α) (f : α → α) :
    heap_update (l ++ a :: rest) l.length f = some (l ++ f a :: rest) := by
  have h : (l ++ a :: rest).get? l.length = some a := by
    rw [List.get?_eq_getElem?, List.getElem?_append_right (le_refl _)]
    simp
  unfold heap_update
  rw [h]
  simp

theorem wires_new (env : Env) (title : String) : wires (Widget.new env title) = (none, []) := by
  unfold Widget.new Widget.load_style_sheet
  split <;> rfl

theorem set_view_wiring (w w2 : MainWindow) (p view : Nat) (h : set_view w p view = some w2) :
    wiring w2 = wiring w := by
  simp only [set_view, Option.bind_eq_bind, Option.bind_eq_some, Option.pure_def,
    Option.some.injEq] at h
  obtain ⟨ws, hws, vs, -, rfl⟩ := h
  simp only [wiring, menu_actions]
  rw [heap_update_keep wires _ _ _ _ hws (fun _ => rfl)]

theorem set_model_wiring (w w2 : MainWindow) (p model : Nat) (T : ElementType) (loc : HeadLocal)
    (h : set_model w p model T loc = some w2) : wiring w2 = wiring w := by
  simp only [set_model, Option.bind_eq_bind, Option.bind_eq_some, Option.pure_def] at h
  obtain ⟨x, -, h⟩ := h
  cases hv : x.in_view_ with
  | none =>
    simp only [hv, Option.bind_eq_some, Option.some.injEq] at h
    obtain ⟨w1, rfl, ws, hws, rfl⟩ := h
    simp only [wiring, menu_actions]
    rw [heap_update_keep wires _ _ _ _ hws (fun _ => rfl)]
  | some view =>
    simp only [hv, Option.bind_eq_some, Option.some.injEq] at h
    obtain ⟨vs, -, ws1, hws1, ms, -, w1, rfl, ws, hws, rfl⟩ := h
    simp only [wiring, menu_actions]
    rw [heap_update_keep wires _ _ _ _ hws (fun _ => rfl),
      heap_update_keep wires _ _ _ _ hws1 (fun _ => rfl)]

theorem setVisible_wiring (w w2 : MainWindow) (p : Nat) (b : Bool)
    (h : setVisible w p b = some w2) : wiring w2 = wiring w := by
  simp only [setVisible, Option.bind_eq_bind, Option.bind_eq_some, Option.pure_def,
    Option.some.injEq] at h
  obtain ⟨ws, hws, rfl⟩ := h
  simp only [wiring, menu_actions]
  rw [heap_update_keep wires _ _ _ _ hws (fun _ => rfl)]

theorem add_sub_widget_wiring (w w2 : MainWindow) (p sub : Nat)
    (h : add_sub_widget w p sub = some w2) :
    heap_update (w.widgets.map wires) p (fun l => (l.1, l.2 ++ [sub]))
      = some (w2.widgets.map wires) ∧
    w2.actions = w.actions ∧ menu_actions w2 = menu_actions w := by
  simp only [add_sub_widget, Option.bind_eq_bind, Option.bind_eq_some, Option.pure_def,
    Option.some.injEq] at h
  obtain ⟨ws, hws, rfl⟩ := h
  exact ⟨heap_update_comm wires _ _ _ _ _ hws (fun _ => rfl), rfl, rfl⟩


theorem new_widget_wiring (w w1 : MainWindow) (env : Env) (title : String) (p : Nat)
    (h : new_widget w env title = (w1, p)) :
    p = w.widgets.length ∧ wiring w1 = ((wiring w).1 ++ [(none, [])], (wiring w).2) := by
  simp only [new_widget, Prod.mk.injEq] at h
  obtain ⟨rfl, rfl⟩ := h
  simp [wiring, menu_actions, wires_new]

theorem new_model_wiring (w w1 : MainWindow) (i : Nat) (h : new_model w = some (w1, i)) :
    wiring w1 = wiring w := by
  simp only [new_model, Option.bind_eq_bind, Option.bind_eq_some, Option.pure_def,
    Option.some.injEq, Prod.mk.injEq] at h
  obtain ⟨m, -, rfl, -⟩ := h
  rfl

theorem create_tablewindow_wiring (w w1 : MainWindow) (m v : Nat) (a b : Bool)
    (h : create_tablewindow w m a b = (w1, v)) : wiring w1 = wiring w := by
  simp only [create_tablewindow, Prod.mk.injEq] at h
  obtain ⟨rfl, -⟩ := h
  rfl

theorem create_top_widget_wiring (w w2 : MainWindow) (env : Env) (title : String)
    (T : ElementType) (p : Nat) (h : create_top_widget w env title T = some (w2, p)) :
    p = w.widgets.length ∧
    wiring w2 = ((wiring w).1 ++ [(none, [])], (wiring w).2) := by
  rcases hnw : new_widget w env title with ⟨w1, p1⟩
  obtain ⟨hp, e1⟩ := new_widget_wiring _ _ _ _ _ hnw
  simp only [create_top_widget, hnw, Option.bind_eq_bind, Option.bind_eq_some, Option.pure_def,
    Prod.exists] at h
  obtain ⟨w3, i, hnm, h⟩ := h
  have e3 := new_model_wiring _ _ _ hnm
  rcases htw : create_tablewindow w3 i true false with ⟨w4, v⟩
  have e4 := create_tablewindow_wiring _ _ _ _ _ _ htw
  simp only [htw, Option.bind_eq_some, Option.some.injEq, Prod.mk.injEq] at h
  obtain ⟨w5, h5, w6, h6, rfl, rfl⟩ := h
  have e5 := set_view_wiring _ _ _ _ h5
  have e6 := set_model_wiring _ _ _ _ _ _ h6
  refine ⟨hp, ?_⟩
  rw [← e1, ← e3, ← e4, ← e5, ← e6]
  rfl

theorem create_sub_widget_wiring (w w2 : MainWindow) (env : Env) (parent : Nat) (title : String)
    (T : ElementType) (h : create_sub_widget w env parent title T = some w2) :
    heap_update ((wiring w).1 ++ [(none, [])]) parent
      (fun l => (l.1, l.2 ++ [w.widgets.length])) = some (wiring w2).1 ∧
    (wiring w2).2 = (wiring w).2 := by
  rcases hnw : new_widget w env title with ⟨w1, p1⟩
  obtain ⟨hp, e1⟩ := new_widget_wiring _ _ _ _ _ hnw
  simp only [create_sub_widget, hnw, Option.bind_eq_bind, Option.bind_eq_some, Option.pure_def,
    Prod.exists] at h
  obtain ⟨w3, i, hnm, h⟩ := h
  have e3 := new_model_wiring _ _ _ hnm
  rcases htw : create_tablewindow w3 i false true with ⟨w4, v⟩
  have e4 := create_tablewindow_wiring _ _ _ _ _ _ htw
  simp only [htw, Option.bind_eq_some, Option.some.injEq] at h
  obtain ⟨w5, h5, w6, h6, w7, h7, rfl⟩ := h
  have e5 := set_view_wiring _ _ _ _ h5
  have e6 := set_model_wiring _ _ _ _ _ _ h6
  obtain ⟨e7, e8, e9⟩ := add_sub_widget_wiring _ _ _ _ h7
  have e : wiring w6 = ((wiring w).1 ++ [(none, [])], (wiring w).2) := by
    rw [← e1, ← e3, ← e4, ← e5, ← e6]
  simp only [wiring, Prod.mk.injEq] at e
  obtain ⟨ea, eb, ec⟩ := e
  subst hp
  rw [ea] at e7
  refine ⟨e7, ?_⟩
  have e10 : menu_actions { w7 with map_widgets_ := QMap.insert w7.map_widgets_ T w.widgets.length }
      = menu_actions w := by
    rw [← ec, ← e9]
    rfl
  simp only [wiring, e8, eb, Prod.mk.injEq, true_and]
  exact e10


theorem sub_widget_step (wa wb : MainWindow) (env : Env) (parent : Nat) (title : String)
    (T : ElementType) (ws rest : List (Option Nat × List Nat)) (a : Option Nat × List Nat)
    (h : create_sub_widget wa env parent title T = some wb)
    (hw : (wiring wa).1 = ws ++ a :: rest) (hp : ws.length = parent) :
    (wiring wb).1 = ws ++ (a.1, a.2 ++ [ws.length + 1 + rest.length]) :: (rest ++ [(none, [])]) ∧
    (wiring wb).2 = (wiring wa).2 := by
  obtain ⟨e1, e2⟩ := create_sub_widget_wiring wa wb env parent title T h
  refine ⟨?_, e2⟩
  have hl : wa.widgets.length = ws.length + 1 + rest.length := by
    have := congrArg List.length hw
    simp only [wiring, List.length_map, List.length_append, List.length_cons] at this
    omega
  subst hp
  rw [hw, hl, List.append_assoc, List.cons_append, heap_update_mid] at e1
  exact (Option.some.inj e1).symm

theorem create_radar_state_wiring (w w2 : MainWindow) (env : Env)
    (h : create_radar_state w env = some w2) :
    wiring w2 =
      ((wiring w).1 ++
        [(none, [w.widgets.length + 1, w.widgets.length + 2, w.widgets.length + 3,
            w.widgets.length + 4]),
         (none, []), (none, []), (none, []), (none, [])], (wiring w).2) := by
  simp only [create_radar_state, Option.bind_eq_bind, Option.bind_eq_some, Prod.exists] at h
  obtain ⟨w1, p, h1, wa, ha, wb, hb, wc, hc, wd, hd, h6⟩ := h
  obtain ⟨hp, e1⟩ := create_top_widget_wiring _ _ _ _ _ _ h1
  have hn : (wiring w).1.length = w.widgets.length := by simp [wiring]
  have e1a : (wiring w1).1 = (wiring w).1 ++ (none, []) :: [] := by rw [e1]
  have e1b : (wiring w1).2 = (wiring w).2 := by rw [e1]
  obtain ⟨ea, ea2⟩ := sub_widget_step _ _ _ _ _ _ _ _ _ ha e1a (by rw [hn, hp])
  obtain ⟨eb, eb2⟩ := sub_widget_step _ _ _ _ _ _ _ _ _ hb ea (by rw [hn, hp])
  obtain ⟨ec, ec2⟩ := sub_widget_step _ _ _ _ _ _ _ _ _ hc eb (by rw [hn, hp])
  obtain ⟨ed, ed2⟩ := sub_widget_step _ _ _ _ _ _ _ _ _ hd ec (by rw [hn, hp])
  rw [setVisible_wiring _ _ _ _ h6]
  apply Prod.ext
  · rw [ed, hn]
    simp
  · rw [ed2, ec2, eb2, ea2, e1b]

theorem create_description_wiring (w w2 : MainWindow) (env : Env)
    (h : create_description w env = some w2) :
    wiring w2 =
      ((wiring w).1 ++
        [(none, [w.widgets.length + 1, w.widgets.length + 2]), (none, []), (none, [])],
        (wiring w).2) := by
  simp only [create_description, Option.bind_eq_bind, Option.bind_eq_some, Prod.exists] at h
  obtain ⟨w1, p, h1, wa, ha, wb, hb, h6⟩ := h
  obtain ⟨hp, e1⟩ := create_top_widget_wiring _ _ _ _ _ _ h1
  have hn : (wiring w).1.length = w.widgets.length := by simp [wiring]
  have e1a : (wiring w1).1 = (wiring w).1 ++ (none, []) :: [] := by rw [e1]
  have e1b : (wiring w1).2 = (wiring w).2 := by rw [e1]
  obtain ⟨ea, ea2⟩ := sub_widget_step _ _ _ _ _ _ _ _ _ ha e1a (by rw [hn, hp])
  obtain ⟨eb, eb2⟩ := sub_widget_step _ _ _ _ _ _ _ _ _ hb ea (by rw [hn, hp])
  rw [setVisible_wiring _ _ _ _ h6]
  apply Prod.ext
  · rw [eb, hn]
    simp
  · rw [eb2, ea2, e1b]

theorem create_firepower_wiring (w w2 : MainWindow) (env : Env)
    (h : create_firepower w env = some w2) :
    wiring w2 =
      ((wiring w).1 ++ [(none, [w.widgets.length + 1]), (none, [])], (wiring w).2) := by
  simp only [create_firepower, Option.bind_eq_bind, Option.bind_eq_some, Prod.exists] at h
  obtain ⟨w1, p, h1, wa, ha, h6⟩ := h
  obtain ⟨hp, e1⟩ := create_top_widget_wiring _ _ _ _ _ _ h1
  have hn : (wiring w).1.length = w.widgets.length := by simp [wiring]
  have e1a : (wiring w1).1 = (wiring w).1 ++ (none, []) :: [] := by rw [e1]
  have e1b : (wiring w1).2 = (wiring w).2 := by rw [e1]
  obtain ⟨ea, ea2⟩ := sub_widget_step _ _ _ _ _ _ _ _ _ ha e1a (by rw [hn, hp])
  rw [setVisible_wiring _ _ _ _ h6]
  apply Prod.ext
  · rw [ea, hn]
    simp
  · rw [ea2, e1b]

theorem create_plain_widget_wiring (w w2 : MainWindow) (env : Env) (title : String)
    (T : ElementType)
    (h : (do
      let (w, p) := new_widget w env title
      let (w, model) ← new_model w
      let (w, view) := create_tablewindow w model true false
      let w ← set_view w p view
      let w ← set_model w p model T VERTICAL_HEAD
      let w ← setVisible w p true
      let w := { w with map_widgets_ := QMap.insert w.map_widgets_ T p }
      pure { w with map_parent_widgets_ := QMap.insert w.map_parent_widgets_ T p })
      = some w2) :
    wiring w2 = ((wiring w).1 ++ [(none, [])], (wiring w).2) := by
  rcases hnw : new_widget w env title with ⟨w1, p1⟩
  obtain ⟨hp, e1⟩ := new_widget_wiring _ _ _ _ _ hnw
  simp only [hnw, Option.bind_eq_bind, Option.bind_eq_some, Option.pure_def, Prod.exists] at h
  obtain ⟨w3, i, hnm, h⟩ := h
  have e3 := new_model_wiring _ _ _ hnm
  rcases htw : create_tablewindow w3 i true false with ⟨w4, v⟩
  have e4 := create_tablewindow_wiring _ _ _ _ _ _ htw
  simp only [htw, Option.bind_eq_some, Option.some.injEq] at h
  obtain ⟨w5, h5, w6, h6, w7, h7, rfl⟩ := h
  have e5 := set_view_wiring _ _ _ _ h5
  have e6 := set_model_wiring _ _ _ _ _ _ h6
  have e7 := setVisible_wiring _ _ _ _ h7
  rw [← e1, ← e3, ← e4, ← e5, ← e6, ← e7]
  rfl

theorem create_chain_of_command_wiring (w w2 : MainWindow) (env : Env)
    (h : create_chain_of_command w env = some w2) :
    wiring w2 = ((wiring w).1 ++ [(none, [])], (wiring w).2) :=
  create_plain_widget_wiring w w2 env _ _ h

theorem create_photoelectricity_wiring (w w2 : MainWindow) (env : Env)
    (h : create_photoelectricity w env = some w2) :
    wiring w2 = ((wiring w).1 ++ [(none, [])], (wiring w).2) :=
  create_plain_widget_wiring w w2 env _ _ h


theorem add_widget_action_wiring (w w2 : MainWindow) (text : String) (T : ElementType)
    (h : add_widget_action w text T = some w2) :
    ∃ p, QMap.find w.map_widgets_ T = some p ∧
      heap_update (wiring w).1 p (fun l => (some w.actions.length, l.2)) = some (wiring w2).1 ∧
      w2.actions = w.actions ++ [{ text := text, checkable := true, checked := false }] ∧
      menu_actions w2 = menu_actions w ∧ w2.map_widgets_ = w.map_widgets_ := by
  simp only [add_widget_action, addAction, Option.bind_eq_bind, Option.bind_eq_some,
    Option.pure_def, Option.some.injEq] at h
  obtain ⟨as1, h1, as2, h2, p, hp, ws, hws, rfl⟩ := h
  rw [heap_update_last _ _ _ _ rfl] at h1
  cases h1
  rw [heap_update_last _ _ _ _ rfl] at h2
  cases h2
  exact ⟨p, hp, heap_update_comm wires _ _ _ _ _ hws (fun _ => rfl), rfl, rfl, rfl⟩

theorem load_style_sheet_wiring (env : Env) (w : MainWindow) (path : String) :
    wiring (MainWindow.load_style_sheet env w path) = wiring w := by
  unfold MainWindow.load_style_sheet
  split <;> rfl

theorem create_centwindow_wiring (w w2 : MainWindow) (env : Env)
    (h : create_centwindow w env = some w2) : wiring w2 = wiring w := by
  unfold create_centwindow at h
  simp only [basename_eq, Option.bind_eq_bind, Option.some_bind] at h
  split at h
  · cases h
    rfl
  · cases h
    rfl

theorem model_add_data_wiring (w w2 : MainWindow) (key : Int) (pdata : Record)
    (type : ElementType) (h : model_add_data w key pdata type = some w2) :
    wiring w2 = wiring w ∧ w2.widgets = w.widgets := by
  simp only [model_add_data, Option.bind_eq_bind, Option.bind_eq_some, Option.pure_def,
    Option.some.injEq] at h
  obtain ⟨p, -, x, -, model, -, m, -, m2, -, rfl⟩ := h
  exact ⟨rfl, rfl⟩

theorem add_all_wiring (cs : List (Int × Record × ElementType)) (w w2 : MainWindow)
    (h : add_all w cs = some w2) : wiring w2 = wiring w ∧ w2.widgets = w.widgets := by
  induction cs generalizing w with
  | nil =>
    cases h
    exact ⟨rfl, rfl⟩
  | cons c rest ih =>
    obtain ⟨key, pdata, type⟩ := c
    simp only [add_all, Option.bind_eq_some] at h
    obtain ⟨w1, h1, h3⟩ := h
    obtain ⟨a1, a2⟩ := model_add_data_wiring _ _ _ _ _ h1
    obtain ⟨b1, b2⟩ := ih w1 h3
    exact ⟨by rw [b1, a1], by rw [b2, a2]⟩


theorem bind_action_step (wa wb : MainWindow) (text : String) (T : ElementType) (p : Nat)
    (ws ws2 : List (Option Nat × List Nat)) (as : List QAction)
    (h : add_widget_action wa text T = some wb)
    (hm : wa.map_widgets_ = startup_map) (hf : QMap.find startup_map T = some p)
    (hw : (wiring wa).1 = ws) (ha : wa.actions = as)
    (hu : heap_update ws p (fun l => (some as.length, l.2)) = some ws2) :
    (wiring wb).1 = ws2 ∧
    wb.actions = as ++ [{ text := text, checkable := true, checked := false }] ∧
    menu_actions wb = menu_actions wa ∧ wb.map_widgets_ = startup_map := by
  obtain ⟨q, hq, e1, e2, e3, e4⟩ := add_widget_action_wiring wa wb text T h
  rw [hm, hf] at hq
  cases hq
  rw [hw, ha, hu] at e1
  exact ⟨(Option.some.inj e1).symm, by rw [e2, ha], e3, by rw [e4, hm]⟩

theorem create_menubar_wiring (w w2 : MainWindow) (h : create_menubar w = some w2)
    (hw : (wiring w).1 = created_wires) (ha : w.actions = [])
    (hm : w.map_widgets_ = startup_map) :
    wiring w2 = (startup_wires, startup_actions, (some 3, some 4, some 5)) := by
  unfold create_menubar at h
  simp only [addAction, Option.bind_eq_bind, Option.bind_eq_some, ha, List.nil_append,
    List.length_nil, List.length_cons, List.cons_append] at h
  obtain ⟨w1, h1, wb, h2, w3, h3, w4, h4, h5⟩ := h
  obtain ⟨a1, b1, c1, d1⟩ := bind_action_step _ _ _ _ 0 created_wires _ _ h1 hm rfl hw rfl rfl
  obtain ⟨a2, b2, c2, d2⟩ := bind_action_step _ _ _ _ 5 _ _ _ h2 d1 rfl a1 b1 rfl
  obtain ⟨a3, b3, c3, d3⟩ := bind_action_step _ _ _ _ 6 _ _ _ h3 d2 rfl a2 b2 rfl
  obtain ⟨a4, b4, c4, d4⟩ := bind_action_step _ _ _ _ 7 _ _ _ h4 d3 rfl a3 b3 rfl
  obtain ⟨a5, b5, c5, d5⟩ := bind_action_step _ _ _ _ 10 _ _ _ h5 d4 rfl a4 b4 rfl
  simp only [wiring, Prod.mk.injEq]
  refine ⟨a5, b5, ?_⟩
  rw [c5, c4, c3, c2, c1]
  rfl


theorem list_of_length_12 {α : Type} (v : List α) (h : v.length = 12) :
    ∃ a0 a1 a2 a3 a4 a5 a6 a7 a8 a9 a10 a11,
      v = [a0, a1, a2, a3, a4, a5, a6, a7, a8, a9, a10, a11] := by
  match v, h with
  | [a0, a1, a2, a3, a4, a5, a6, a7, a8, a9, a10, a11], _ =>
    exact ⟨_, _, _, _, _, _, _, _, _, _, _, _, rfl⟩

theorem setVisible_visibility (w w2 : MainWindow) (p : Nat) (b : Bool)
    (h : setVisible w p b = some w2) :
    visibility w2 = (visibility w).set p b ∧ p < w.widgets.length := by
  simp only [setVisible, Option.bind_eq_bind, Option.bind_eq_some, Option.pure_def,
    Option.some.injEq] at h
  obtain ⟨ws, hws, rfl⟩ := h
  obtain ⟨x, hx, rfl, hp⟩ := heap_update_some _ _ _ _ hws
  exact ⟨by simp [visibility, List.map_set], hp⟩

theorem hide_all_visibility (l : List (Int × Nat)) (w w2 : MainWindow)
    (h : hide_all w l = some w2) :
    visibility w2 = l.foldl (fun v e => v.set e.2 false) (visibility w) ∧
    wiring w2 = wiring w := by
  induction l generalizing w with
  | nil =>
    cases h
    exact ⟨rfl, rfl⟩
  | cons e rest ih =>
    obtain ⟨k, p⟩ := e
    simp only [hide_all, Option.bind_eq_some] at h
    obtain ⟨w1, h1, h3⟩ := h
    obtain ⟨a1, a2⟩ := ih w1 h3
    obtain ⟨b1, -⟩ := setVisible_visibility _ _ _ _ h1
    exact ⟨by rw [a1, b1]; rfl, by rw [a2, setVisible_wiring _ _ _ _ h1]⟩

theorem fold_hide (v : List Bool) (h : v.length = 12) :
    startup_map.foldl (fun v e => v.set e.2 false) v = List.replicate 12 false := by
  obtain ⟨a0, a1, a2, a3, a4, a5, a6, a7, a8, a9, a10, a11, rfl⟩ := list_of_length_12 v h
  rfl

/-- The state `init_window` ends in: the summary of `init_window_shape`, the wiring
of widgets and actions, and every widget hidden. -/
theorem init_window_wired (env : Env) :
    ∃ w ms2, init_window env = some w ∧
      Shape w 12 startup_regs ms2 startup_map startup_parent_map ∧
      wiring w = (startup_wires, startup_actions, (some 3, some 4, some 5)) ∧
      visibility w = List.replicate 12 false := by
  have s0 : Shape MainWindow.members 0 [] [] [] [] := ⟨rfl, rfl, rfl, rfl, rfl, rfl, rfl⟩
  obtain ⟨w1, h1, s1, -⟩ := create_radar_state_shape _ env _ _ _ _ _ s0
  obtain ⟨w2, h2, s2, -⟩ := create_chain_of_command_shape w1 env _ _ _ _ _ s1
  obtain ⟨w3, h3, s3, -⟩ := create_photoelectricity_shape w2 env _ _ _ _ _ s2
  obtain ⟨w4, h4, s4, -⟩ := create_description_shape w3 env _ _ _ _ _ s3
  obtain ⟨w5, h5, s5, -⟩ := create_firepower_shape w4 env _ _ _ _ _ s4
  have s5b : Shape w5 12 startup_regs startup_models startup_map startup_parent_map := s5
  obtain ⟨w6, h6, s6, -⟩ := create_menubar_shape w5 12 0 5 6 7 10 _ _ _ _ s5b rfl (by decide)
    rfl (by decide) rfl (by decide) rfl (by decide) rfl (by decide)
  obtain ⟨s7, -⟩ := load_style_sheet_shape w6 env ":qdarkstyle/style.qss" _ _ _ _ _ s6
  obtain ⟨w8, h8, s8⟩ := create_centwindow_shape _ env _ _ _ _ _ s7
  obtain ⟨w9, ms2, h9, s9, -, -⟩ := add_all_shape 12 startup_regs startup_map startup_parent_map
    (create_data_records env.uninit) w8 startup_models s8 (create_data_records_reach env.uninit)
  obtain ⟨w10, h10, s10, -⟩ := hide_all_shape startup_map 12 startup_regs ms2 startup_map
    startup_parent_map (by decide) w9 s9
  have hmap : w9.map_widgets_ = startup_map := s9.2.2.2.2.2.1
  refine ⟨w10, ms2, ?_, s10, ?_, ?_⟩
  · simp only [init_window, h1, h2, h3, h4, h5, h6, h8, create_data, h9, hmap, h10,
      Option.bind_eq_bind, Option.some_bind]
  · have e1 := create_radar_state_wiring _ _ _ h1
    have e2 := create_chain_of_command_wiring _ _ _ h2
    have e3 := create_photoelectricity_wiring _ _ _ h3
    have e4 := create_description_wiring _ _ _ h4
    have e5 := create_firepower_wiring _ _ _ h5
    have l1 : w1.widgets.length = 5 := s1.1
    have l2 : w2.widgets.length = 6 := s2.1
    have l3 : w3.widgets.length = 7 := s3.1
    have l4 : w4.widgets.length = 10 := s4.1
    have e5a : wiring w5 = (created_wires, [], (none, none, none)) := by
      rw [e5, e4, e3, e2, e1, l4, l3]
      rfl
    have e6 := create_menubar_wiring w5 w6 h6 (by rw [e5a]) (by
      have := congrArg (fun t => t.2.1) e5a
      exact this) s5b.2.2.2.2.2.1
    rw [(hide_all_visibility _ _ _ h10).2, (add_all_wiring _ _ _ h9).1,
      create_centwindow_wiring _ _ _ h8, load_style_sheet_wiring, e6]
  · rw [(hide_all_visibility _ _ _ h10).1]
    apply fold_hide
    simp [visibility, s9.1]

/-! ## What the operations of the running window leave fixed -/

theorem fixed_widgets (w : MainWindow) (ws : List Widget) (p : Nat) (f : Widget → Widget)
    (h : heap_update w.widgets p f = some ws) (hf : ∀ x, wires (f x) = wires x) :
    fixed { w with widgets := ws } = fixed w := by
  simp only [fixed, menu_actions]
  rw [heap_update_keep wires _ _ _ _ h hf]

theorem fixed_actions (w : MainWindow) (as : List QAction) (p : Nat) (f : QAction → QAction)
    (h : heap_update w.actions p f = some as)
    (hf : ∀ a, ((f a).text, (f a).checkable) = (a.text, a.checkable)) :
    fixed { w with actions := as } = fixed w := by
  simp only [fixed, menu_actions]
  rw [heap_update_keep (fun a => (a.text, a.checkable)) _ _ _ _ h hf]

theorem setVisible_fixed (w w2 : MainWindow) (p : Nat) (b : Bool)
    (h : setVisible w p b = some w2) : fixed w2 = fixed w := by
  simp only [setVisible, Option.bind_eq_bind, Option.bind_eq_some, Option.pure_def,
    Option.some.injEq] at h
  obtain ⟨ws, hws, rfl⟩ := h
  exact fixed_widgets w ws p _ hws (fun _ => rfl)

theorem setChecked_keeps (a : QAction) (b : Bool) :
    ((a.setChecked b).text, (a.setChecked b).checkable) = (a.text, a.checkable) := by
  unfold QAction.setChecked
  split <;> rfl

theorem activate_keeps (a : QAction) :
    (a.activate.text, a.activate.checkable) = (a.text, a.checkable) := by
  unfold QAction.activate
  split <;> rfl

theorem emit_sig_fixed (w w2 : MainWindow) (p : Nat) (b : Bool)
    (h : emit_sig w p b = some w2) : fixed w2 = fixed w := by
  simp only [emit_sig, Option.bind_eq_bind, Option.bind_eq_some, Option.pure_def] at h
  obtain ⟨x, -, h⟩ := h
  split at h
  · simp only [Option.bind_eq_some, Option.some.injEq] at h
    obtain ⟨as, has, rfl⟩ := h
    exact fixed_actions w as _ _ has (fun a => setChecked_keeps a b)
  · cases h
    rfl

theorem show_each_fixed (l : List Nat) (w w2 : MainWindow)
    (h : show_each w l = some w2) : fixed w2 = fixed w := by
  induction l generalizing w with
  | nil =>
    cases h
    rfl
  | cons p rest ih =>
    simp only [show_each, Option.bind_eq_some] at h
    obtain ⟨w1, h1, h3⟩ := h
    rw [ih w1 h3, setVisible_fixed w w1 p true h1]

theorem show_sub_widget_fixed (w w2 : MainWindow) (p : Nat)
    (h : show_sub_widget w p = some w2) : fixed w2 = fixed w := by
  simp only [show_sub_widget, Option.bind_eq_bind, Option.bind_eq_some, Option.pure_def] at h
  obtain ⟨x, -, h⟩ := h
  split at h
  · exact show_each_fixed _ w w2 h
  · cases h
    rfl

theorem slot_change_wid_statu_fixed (w w2 : MainWindow) (type : Int)
    (h : slot_change_wid_statu w type = some w2) : fixed w2 = fixed w := by
  simp only [slot_change_wid_statu, Option.bind_eq_bind, Option.bind_eq_some] at h
  obtain ⟨var, -, x, -, h⟩ := h
  split at h
  · exact setVisible_fixed w w2 var false h
  · simp only [Option.bind_eq_some] at h
    obtain ⟨w1, h1, h3⟩ := h
    rw [show_sub_widget_fixed w1 w2 var h3, setVisible_fixed w w1 var true h1]

theorem setGeometry_fixed (w w2 : MainWindow) (p : Nat) (x y width height : Int)
    (h : setGeometry w p x y width height = some w2) : fixed w2 = fixed w := by
  simp only [setGeometry, Option.bind_eq_bind, Option.bind_eq_some, Option.pure_def,
    Option.some.injEq] at h
  obtain ⟨ws, hws, rfl⟩ := h
  exact fixed_widgets w ws p _ hws (fun _ => rfl)

theorem arrange_overlaping_fixed (h wd : Int) (l : List (Int × Nat)) (w w2 : MainWindow)
    (count : Int) (hr : arrange_overlaping h wd w l count = some w2) : fixed w2 = fixed w := by
  induction l generalizing w count with
  | nil =>
    cases hr
    rfl
  | cons e rest ih =>
    obtain ⟨k, var⟩ := e
    simp only [arrange_overlaping] at hr
    split at hr
    · cases hr
    · split at hr
      · simp only [Option.bind_eq_some] at hr
        obtain ⟨w1, h1, h3⟩ := hr
        rw [ih w1 _ h3, setGeometry_fixed w w1 _ _ _ _ _ h1]
      · exact ih w _ hr

theorem arrange_horizontal_fixed (h : Int) (l : List (Int × Nat)) (w w2 : MainWindow)
    (count : Int) (hr : arrange_horizontal h w l count = some w2) : fixed w2 = fixed w := by
  induction l generalizing w count with
  | nil =>
    cases hr
    rfl
  | cons e rest ih =>
    obtain ⟨k, var⟩ := e
    simp only [arrange_horizontal] at hr
    split at hr
    · cases hr
    · split at hr
      · simp only [Option.bind_eq_some] at hr
        obtain ⟨w1, h1, h3⟩ := hr
        split at h3
        · cases h3
        · rw [ih w1 _ h3, setGeometry_fixed w w1 _ _ _ _ _ h1]
      · exact ih w _ hr

theorem arrange_vertical_fixed (l : List (Int × Nat)) (w w2 : MainWindow)
    (count : Int) (hr : arrange_vertical w l count = some w2) : fixed w2 = fixed w := by
  induction l generalizing w count with
  | nil =>
    cases hr
    rfl
  | cons e rest ih =>
    obtain ⟨k, var⟩ := e
    simp only [arrange_vertical] at hr
    split at hr
    · cases hr
    · split at hr
      · simp only [Option.bind_eq_some] at hr
        obtain ⟨w1, h1, h3⟩ := hr
        split at h3
        · cases h3
        · rw [ih w1 _ h3, setGeometry_fixed w w1 _ _ _ _ _ h1]
      · exact ih w _ hr

theorem from_arranged_fixed (w w2 : MainWindow) (action : Nat)
    (h : from_arranged w action = some w2) : fixed w2 = fixed w := by
  simp only [from_arranged] at h
  split at h
  · exact arrange_overlaping_fixed _ _ _ w w2 _ h
  · split at h
    · exact arrange_horizontal_fixed _ _ w w2 _ h
    · split at h
      · exact arrange_vertical_fixed _ w w2 _ h
      · cases h
        rfl

theorem closeEvent_fixed (w w2 : MainWindow) (p : Nat)
    (h : closeEvent w p = some w2) : fixed w2 = fixed w := by
  simp only [closeEvent, Option.bind_eq_bind, Option.bind_eq_some] at h
  obtain ⟨w1, h1, h3⟩ := h
  rw [emit_sig_fixed w1 w2 p false h3, setVisible_fixed w w1 p false h1]

theorem close_fixed (w w2 : MainWindow) (p : Nat)
    (h : close w p = some w2) : fixed w2 = fixed w := by
  simp only [close, Option.bind_eq_bind, Option.bind_eq_some, Option.pure_def] at h
  obtain ⟨w1, h1, x, -, h3⟩ := h
  split at h3
  · rw [setVisible_fixed w1 w2 p false h3, closeEvent_fixed w w1 p h1]
  · cases h3
    exact closeEvent_fixed w w2 p h1

theorem close_all_fixed (l : List (Int × Nat)) (w w2 : MainWindow)
    (h : close_all w l = some w2) : fixed w2 = fixed w := by
  induction l generalizing w with
  | nil =>
    cases h
    rfl
  | cons e rest ih =>
    obtain ⟨k, var⟩ := e
    simp only [close_all, Option.bind_eq_some] at h
    obtain ⟨w1, h1, h3⟩ := h
    rw [ih w1 h3, close_fixed w w1 var h1]

theorem open_all_fixed (l : List (Int × Nat)) (w w2 : MainWindow)
    (h : open_all w l = some w2) : fixed w2 = fixed w := by
  induction l generalizing w with
  | nil =>
    cases h
    rfl
  | cons e rest ih =>
    obtain ⟨k, var⟩ := e
    simp only [open_all, Option.bind_eq_some] at h
    obtain ⟨w1, ⟨w0, h0, h1⟩, h3⟩ := h
    rw [ih w1 h3, emit_sig_fixed w0 w1 var true h1, setVisible_fixed w w0 var true h0]

theorem setRowHidden_fixed (w w2 : MainWindow) (v : Nat) (row : Int) (hide : Bool)
    (h : setRowHidden w v row hide = some w2) : fixed w2 = fixed w := by
  simp only [setRowHidden, Option.bind_eq_bind, Option.bind_eq_some, Option.pure_def] at h
  obtain ⟨view, -, h⟩ := h
  split at h
  · cases h
    rfl
  · simp only [Option.bind_eq_some, Option.some.injEq] at h
    obtain ⟨_, -, rfl⟩ := h
    rfl

theorem rows_loop_fixed (in_view_ : Option Nat) (l : List Bool) (w w2 : MainWindow) (i : Int)
    (h : rows_loop in_view_ w l i = some w2) : fixed w2 = fixed w := by
  induction l generalizing w i with
  | nil =>
    cases h
    rfl
  | cons c rest ih =>
    simp only [rows_loop] at h
    split at h
    · cases h
    · simp only [Option.bind_eq_some] at h
      obtain ⟨w1, h1, h3⟩ := h
      rw [ih w1 _ h3]
      split at h1
      · exact setRowHidden_fixed w w1 _ _ _ h1
      · exact setRowHidden_fixed w w1 _ _ _ h1

theorem subs_loop_fixed (subs : List Nat) (l : List Bool) (w w2 : MainWindow) (i : Int)
    (h : subs_loop subs w l i = some w2) : fixed w2 = fixed w := by
  induction l generalizing w i with
  | nil =>
    cases h
    rfl
  | cons c rest ih =>
    simp only [subs_loop] at h
    split at h
    · cases h
    · split at h
      · cases h
      · simp only [Option.bind_eq_some] at h
        obtain ⟨w1, h1, h3⟩ := h
        rw [ih w1 _ h3]
        split at h1
        · split at h1
          · exact setVisible_fixed w w1 _ _ h1
          · cases h1
            rfl
        · split at h1
          · exact setVisible_fixed w w1 _ _ h1
          · cases h1
            rfl

theorem close_select_list_fixed (w w2 : MainWindow) (p : Nat)
    (h : close_select_list w p = some w2) : fixed w2 = fixed w := by
  simp only [close_select_list, Option.bind_eq_bind, Option.bind_eq_some, Option.pure_def] at h
  obtain ⟨x, -, h⟩ := h
  split at h
  · cases h
  · simp only [Option.bind_eq_some, Option.some.injEq] at h
    obtain ⟨ws, hws, rfl⟩ := h
    exact fixed_widgets w ws p _ hws (fun _ => rfl)

theorem on_setting_visible_fixed (w w2 : MainWindow) (p : Nat)
    (h : on_setting_visible w p = some w2) : fixed w2 = fixed w := by
  simp only [on_setting_visible, Option.bind_eq_bind, Option.bind_eq_some] at h
  obtain ⟨x, -, w1, h1, w3, h3, h4⟩ := h
  rw [close_select_list_fixed w3 w2 p h4, subs_loop_fixed _ _ w1 w3 _ h3,
    rows_loop_fixed _ _ w w1 _ h1]

theorem create_select_list_fixed (w w2 : MainWindow) (p : Nat)
    (h : create_select_list w p = some w2) : fixed w2 = fixed w := by
  simp only [create_select_list, Option.bind_eq_bind, Option.bind_eq_some, Option.pure_def,
    Option.some.injEq] at h
  obtain ⟨x, -, model, -, m, -, sl, -, _, -, ws, hws, rfl⟩ := h
  exact fixed_widgets w ws p _ hws (fun _ => rfl)

theorem show_select_list_fixed (w w2 : MainWindow) (p : Nat)
    (h : show_select_list w p = some w2) : fixed w2 = fixed w := by
  simp only [show_select_list, Option.bind_eq_bind, Option.bind_eq_some, Option.pure_def] at h
  obtain ⟨x, -, h⟩ := h
  split at h
  · simp only [Option.bind_eq_some, Option.some.injEq] at h
    obtain ⟨ws, hws, rfl⟩ := h
    exact fixed_widgets w ws p _ hws (fun _ => rfl)
  · exact create_select_list_fixed w w2 p h

theorem check_all_fixed (w w2 : MainWindow) (p : Nat) (b : Bool)
    (h : check_all w p b = some w2) : fixed w2 = fixed w := by
  simp only [check_all, Option.bind_eq_bind, Option.bind_eq_some, Option.pure_def,
    Option.some.injEq] at h
  obtain ⟨ws, hws, rfl⟩ := h
  exact fixed_widgets w ws p _ hws (fun _ => rfl)

theorem trigger_widget_action_fixed (w w2 : MainWindow) (type : Int)
    (h : trigger_widget_action w type = some w2) : fixed w2 = fixed w := by
  simp only [trigger_widget_action, Option.bind_eq_bind, Option.bind_eq_some] at h
  obtain ⟨p, -, x, -, action, -, actions, has, w1, h1, h3⟩ := h
  rw [slot_change_wid_statu_fixed w1 w2 type h3, from_arranged_fixed _ w1 action h1]
  exact fixed_actions w actions _ _ has activate_keeps

theorem UiOp.run_fixed (op : UiOp) (w w2 : MainWindow) (h : op.run w = some w2) :
    fixed w2 = fixed w := by
  cases op with
  | menu_widget type => exact trigger_widget_action_fixed w w2 type h
  | menu_action action => exact from_arranged_fixed w w2 action h
  | close_widget p => exact close_fixed w w2 p h
  | menu_close_all => exact close_all_fixed _ w w2 h
  | menu_open_all => exact open_all_fixed _ w w2 h
  | select_button p => exact show_select_list_fixed w w2 p h
  | check_button p checked => exact check_all_fixed w w2 p checked h
  | ok_button p => exact on_setting_visible_fixed w w2 p h
  | cancel_button p => exact close_select_list_fixed w w2 p h

theorem run_ops_fixed (ops : List UiOp) (w w2 : MainWindow) (h : run_ops w ops = some w2) :
    fixed w2 = fixed w := by
  induction ops generalizing w with
  | nil =>
    cases h
    rfl
  | cons op rest ih =>
    simp only [run_ops, Option.bind_eq_some] at h
    obtain ⟨w1, h1, h3⟩ := h
    rw [ih w1 h3, UiOp.run_fixed op w w1 h1]

/-! ## Tiling by `from_arranged` -/

theorem setGeometry_some (w w2 : MainWindow) (p : Nat) (x y width height : Int)
    (h : setGeometry w p x y width height = some w2) :
    ∃ v, w.widgets.get? p = some v ∧ p < w.widgets.length ∧
      w2.widgets = w.widgets.set p
        { v with geometry := { x := x, y := y, width := width, height := height } } ∧
      w2 = { w with widgets := w2.widgets } := by
  simp only [setGeometry, Option.bind_eq_bind, Option.bind_eq_some, Option.pure_def,
    Option.some.injEq] at h
  obtain ⟨ws, hws, rfl⟩ := h
  obtain ⟨v, hv, rfl, hp⟩ := heap_update_some _ _ _ _ hws
  exact ⟨v, hv, hp, rfl, rfl⟩

theorem is_visible_set (w w1 : MainWindow) (p : Nat) (v v2 : Widget)
    (hw : w1.widgets = w.widgets.set p v2)
    (hv : w.widgets.get? p = some v) (h2 : v2.visible = v.visible) (q : Nat) :
    is_visible w1 q = is_visible w q := by
  simp only [List.get?_eq_getElem?] at hv
  unfold is_visible
  simp only [List.get?_eq_getElem?, hw]
  by_cases hq : p = q
  · subst hq
    have hp : p < w.widgets.length := by
      by_contra hc
      rw [List.getElem?_eq_none (by omega)] at hv
      cases hv
    simp [List.getElem?_set_self, hp, hv, h2]
  · simp [List.getElem?_set_ne hq]

theorem visible_of_set (w w1 : MainWindow) (p : Nat) (v v2 : Widget)
    (hw : w1.widgets = w.widgets.set p v2)
    (hv : w.widgets.get? p = some v) (h2 : v2.visible = v.visible) (l : List (Int × Nat)) :
    visible_of w1 l = visible_of w l := by
  unfold visible_of
  congr 1
  funext q
  exact is_visible_set w w1 p v v2 hw hv h2 q

theorem visible_of_subset (w : MainWindow) (l : List (Int × Nat)) (q : Nat)
    (h : q ∈ visible_of w l) : q ∈ l.map Prod.snd :=
  (List.mem_filter.mp h).1


theorem get?_set_other {α : Type} (l : List α) (p q : Nat) (a : α) (h : q ≠ p) :
    (l.set p a).get? q = l.get? q := by
  simp only [List.get?_eq_getElem?]
  exact List.getElem?_set_ne (fun e => h e.symm)

theorem get?_set_same {α : Type} (l : List α) (p : Nat) (a : α) (h : p < l.length) :
    (l.set p a).get? p = some a := by
  simp [List.get?_eq_getElem?, List.getElem?_set_self, h]

theorem width_of_set (w w1 : MainWindow) (p q : Nat) (v2 : Widget)
    (hw : w1.widgets = w.widgets.set p v2) (h : q ≠ p) :
    width_of w1 q = width_of w q := by
  unfold width_of
  rw [hw, get?_set_other _ _ _ _ h]

theorem width_map_set (w w1 : MainWindow) (p : Nat) (v2 : Widget) (qs : List Nat)
    (hw : w1.widgets = w.widgets.set p v2) (h : p ∉ qs) :
    qs.map (width_of w1) = qs.map (width_of w) := by
  apply List.map_congr_left
  intro q hq
  exact width_of_set w w1 p q v2 hw (fun hc => h (hc ▸ hq))

/-- The loop of horizontal tiling: the visible widgets of `l`, in order, are put at
the coordinates `tiled 10` gives their widths from `count` on, at `y = h / 3`, with
their sizes; no other widget and nothing else in the window changes. -/
theorem arrange_horizontal_spec (h : Int) (l : List (Int × Nat)) :
    ∀ (w w2 : MainWindow) (count : Int), (l.map Prod.snd).Nodup →
      arrange_horizontal h w l count = some w2 →
      w2 = { w with widgets := w2.widgets } ∧
      (∀ q, q ∉ visible_of w l → w2.widgets.get? q = w.widgets.get? q) ∧
      (∀ i q, (visible_of w l).get? i = some q →
        ∃ v x, w.widgets.get? q = some v ∧
          (tiled 10 ((visible_of w l).map (width_of w)) count).get? i = some x ∧
          w2.widgets.get? q = some
            { v with geometry := { x := x, y := Int.tdiv h 3, width := v.geometry.width,
                                   height := v.geometry.height } }) := by
  induction l with
  | nil =>
    intro w w2 count _ hr
    cases hr
    exact ⟨rfl, fun _ _ => rfl, fun i q hq => by simp [visible_of] at hq⟩
  | cons e rest ih =>
    obtain ⟨k, var⟩ := e
    intro w w2 count hnd hr
    simp only [List.map_cons, List.nodup_cons] at hnd
    obtain ⟨hvar, hnd2⟩ := hnd
    rw [arrange_horizontal] at hr
    cases hx0 : w.widgets[var]? with
    | none => simp [hx0] at hr
    | some x =>
      have hx : w.widgets.get? var = some x := by rw [List.get?_eq_getElem?, hx0]
      simp only [List.get?_eq_getElem?, hx0] at hr
      by_cases hv : x.visible = true
      · simp only [hv, if_true, Option.bind_eq_some] at hr
        obtain ⟨w1, h1, hr⟩ := hr
        obtain ⟨v, hv1, hp, hw1, e1⟩ := setGeometry_some _ _ _ _ _ _ _ h1
        rw [hx] at hv1
        cases hv1
        have hg : w1.widgets[var]? = some
            { x with geometry := { x := 0 + count, y := Int.tdiv h 3,
                                   width := x.geometry.width, height := x.geometry.height } } := by
          rw [hw1]
          exact List.getElem?_set_self hp
        simp only [hg] at hr
        obtain ⟨a1, a2, a3⟩ := ih _ w2 _ hnd2 hr
        have hvis : is_visible w var = true := by simp [is_visible, hx0, hv]
        have e2 : visible_of w ((k, var) :: rest) = var :: visible_of w rest := by
          simp [visible_of, List.filter_cons, hvis]
        rw [visible_of_set w w1 var x _ hw1 hx rfl rest] at a2 a3
        have hnot : var ∉ visible_of w rest := fun hc => hvar (visible_of_subset w rest var hc)
        refine ⟨?_, ?_, ?_⟩
        · rw [a1, e1]
        · intro q hq
          rw [e2] at hq
          simp only [List.mem_cons, not_or] at hq
          rw [a2 q hq.2, hw1]
          exact get?_set_other _ _ _ _ hq.1
        · intro i q hq
          rw [e2] at hq ⊢
          cases i with
          | zero =>
            simp only [List.get?_cons_zero, Option.some.injEq] at hq
            subst hq
            refine ⟨x, count, hx, ?_, ?_⟩
            · simp [tiled]
            · rw [a2 _ hnot, List.get?_eq_getElem?, hg, zero_add]
          | succ j =>
            simp only [List.get?_cons_succ] at hq
            have hq2 : q ≠ var := fun hc => hnot (hc ▸ List.get?_mem hq)
            obtain ⟨v, xq, b1, b2, b3⟩ := a3 j q hq
            rw [hw1, get?_set_other _ _ _ _ hq2] at b1
            refine ⟨v, xq, b1, ?_, b3⟩
            rw [width_map_set w w1 var _ _ hw1 hnot] at b2
            have hwv : width_of w var = x.geometry.width := by simp [width_of, hx0]
            simp only [List.map_cons, tiled, List.get?_cons_succ, hwv]
            rw [add_assoc]
            exact b2
      · simp only [hv, if_false] at hr
        have hvis : is_visible w var = false := by simp [is_visible, hx0, hv]
        have e2 : visible_of w ((k, var) :: rest) = visible_of w rest := by
          simp [visible_of, List.filter_cons, hvis]
        rw [e2]
        exact ih w w2 count hnd2 hr


theorem height_of_set (w w1 : MainWindow) (p q : Nat) (v2 : Widget)
    (hw : w1.widgets = w.widgets.set p v2) (h : q ≠ p) :
    height_of w1 q = height_of w q := by
  unfold height_of
  rw [hw, get?_set_other _ _ _ _ h]

theorem height_map_set (w w1 : MainWindow) (p : Nat) (v2 : Widget) (qs : List Nat)
    (hw : w1.widgets = w.widgets.set p v2) (h : p ∉ qs) :
    qs.map (height_of w1) = qs.map (height_of w) := by
  apply List.map_congr_left
  intro q hq
  exact height_of_set w w1 p q v2 hw (fun hc => h (hc ▸ hq))

/-- The loop of vertical tiling: the visible widgets of `l`, in order, are put at
`x = 0` and at the coordinates `tiled 0` gives their heights from `count` on, with
their sizes; no other widget and nothing else in the window changes. -/
theorem arrange_vertical_spec (l : List (Int × Nat)) :
    ∀ (w w2 : MainWindow) (count : Int), (l.map Prod.snd).Nodup →
      arrange_vertical w l count = some w2 →
      w2 = { w with widgets := w2.widgets } ∧
      (∀ q, q ∉ visible_of w l → w2.widgets.get? q = w.widgets.get? q) ∧
      (∀ i q, (visible_of w l).get? i = some q →
        ∃ v y, w.widgets.get? q = some v ∧
          (tiled 0 ((visible_of w l).map (height_of w)) count).get? i = some y ∧
          w2.widgets.get? q = some
            { v with geometry := { x := 0, y := y, width := v.geometry.width,
                                   height := v.geometry.height } }) := by
  induction l with
  | nil =>
    intro w w2 count _ hr
    cases hr
    exact ⟨rfl, fun _ _ => rfl, fun i q hq => by simp [visible_of] at hq⟩
  | cons e rest ih =>
    obtain ⟨k, var⟩ := e
    intro w w2 count hnd hr
    simp only [List.map_cons, List.nodup_cons] at hnd
    obtain ⟨hvar, hnd2⟩ := hnd
    rw [arrange_vertical] at hr
    cases hx0 : w.widgets[var]? with
    | none => simp [hx0] at hr
    | some x =>
      have hx : w.widgets.get? var = some x := by rw [List.get?_eq_getElem?, hx0]
      simp only [List.get?_eq_getElem?, hx0] at hr
      by_cases hv : x.visible = true
      · simp only [hv, if_true, Option.bind_eq_some] at hr
        obtain ⟨w1, h1, hr⟩ := hr
        obtain ⟨v, hv1, hp, hw1, e1⟩ := setGeometry_some _ _ _ _ _ _ _ h1
        rw [hx] at hv1
        cases hv1
        have hg : w1.widgets[var]? = some
            { x with geometry := { x := 0, y := 0 + count,
                                   width := x.geometry.width, height := x.geometry.height } } := by
          rw [hw1]
          exact List.getElem?_set_self hp
        simp only [hg] at hr
        obtain ⟨a1, a2, a3⟩ := ih _ w2 _ hnd2 hr
        have hvis : is_visible w var = true := by simp [is_visible, hx0, hv]
        have e2 : visible_of w ((k, var) :: rest) = var :: visible_of w rest := by
          simp [visible_of, List.filter_cons, hvis]
        rw [visible_of_set w w1 var x _ hw1 hx rfl rest] at a2 a3
        have hnot : var ∉ visible_of w rest := fun hc => hvar (visible_of_subset w rest var hc)
        refine ⟨?_, ?_, ?_⟩
        · rw [a1, e1]
        · intro q hq
          rw [e2] at hq
          simp only [List.mem_cons, not_or] at hq
          rw [a2 q hq.2, hw1]
          exact get?_set_other _ _ _ _ hq.1
        · intro i q hq
          rw [e2] at hq ⊢
          cases i with
          | zero =>
            simp only [List.get?_cons_zero, Option.some.injEq] at hq
            subst hq
            refine ⟨x, count, hx, ?_, ?_⟩
            · simp [tiled]
            · rw [a2 _ hnot, List.get?_eq_getElem?, hg, zero_add]
          | succ j =>
            simp only [List.get?_cons_succ] at hq
            have hq2 : q ≠ var := fun hc => hnot (hc ▸ List.get?_mem hq)
            obtain ⟨v, yq, b1, b2, b3⟩ := a3 j q hq
            rw [hw1, get?_set_other _ _ _ _ hq2] at b1
            refine ⟨v, yq, b1, ?_, b3⟩
            rw [height_map_set w w1 var _ _ hw1 hnot] at b2
            have hwv : height_of w var = x.geometry.height := by simp [height_of, hx0]
            simp only [List.map_cons, tiled, List.get?_cons_succ, hwv, add_zero]
            exact b2
      · simp only [hv, if_false] at hr
        have hvis : is_visible w var = false := by simp [is_visible, hx0, hv]
        have e2 : visible_of w ((k, var) :: rest) = visible_of w rest := by
          simp [visible_of, List.filter_cons, hvis]
        rw [e2]
        exact ih w w2 count hnd2 hr

theorem tiled_length (gap : Int) (sizes : List Int) :
    ∀ start, (tiled gap sizes start).length = sizes.length := by
  induction sizes with
  | nil => intro start; rfl
  | cons s rest ih => intro start; simp [tiled, ih]

/-- The recurrence of the specification: each coordinate is the previous one plus
the previous size plus the gap. -/
theorem tiled_succ (gap : Int) (sizes : List Int) :
    ∀ (start : Int) (i : Nat) (a b s : Int), (tiled gap sizes start).get? i = some a →
      sizes.get? i = some s → (tiled gap sizes start).get? (i + 1) = some b →
      b = a + s + gap := by
  induction sizes with
  | nil => intro start i a b s ha; simp [tiled] at ha
  | cons t rest ih =>
    intro start i a b s ha hs hb
    cases i with
    | zero =>
      simp only [tiled, List.get?_cons_zero, Option.some.injEq] at ha hs
      subst ha hs
      cases rest with
      | nil => simp [tiled] at hb
      | cons u rest2 =>
        simp only [tiled, List.get?_cons_succ, List.get?_cons_zero, Option.some.injEq] at hb
        exact hb.symm
    | succ j =>
      simp only [tiled, List.get?_cons_succ] at ha hs hb
      exact ih _ j a b s ha hs hb

theorem tiled_ge (gap : Int) (sizes : List Int) (hg : 0 ≤ gap) (hs : ∀ t ∈ sizes, 0 ≤ t) :
    ∀ (start : Int) (j : Nat) (b : Int), (tiled gap sizes start).get? j = some b →
      start ≤ b := by
  induction sizes with
  | nil => intro start j b hb; simp [tiled] at hb
  | cons t rest ih =>
    intro start j b hb
    cases j with
    | zero =>
      simp only [tiled, List.get?_cons_zero, Option.some.injEq] at hb
      omega
    | succ j =>
      simp only [tiled, List.get?_cons_succ] at hb
      have h1 := ih (fun u hu => hs u (List.mem_cons_of_mem _ hu)) _ j b hb
      have h2 := hs t (List.mem_cons_self _ _)
      omega

/-- Tiled widgets of non-negative sizes do not overlap: a later one starts at or
after the end of an earlier one plus the gap. -/
theorem tiled_apart (gap : Int) (sizes : List Int) (hg : 0 ≤ gap) (hs : ∀ t ∈ sizes, 0 ≤ t) :
    ∀ (start : Int) (i j : Nat) (a b s : Int), i < j →
      (tiled gap sizes start).get? i = some a → sizes.get? i = some s →
      (tiled gap sizes start).get? j = some b → a + s + gap ≤ b := by
  induction sizes with
  | nil => intro start i j a b s _ ha; simp [tiled] at ha
  | cons t rest ih =>
    intro start i j a b s hij ha hsz hb
    have hrest : ∀ u ∈ rest, 0 ≤ u := fun u hu => hs u (List.mem_cons_of_mem _ hu)
    cases j with
    | zero => omega
    | succ j =>
      simp only [tiled, List.get?_cons_succ] at hb
      cases i with
      | zero =>
        simp only [tiled, List.get?_cons_zero, Option.some.injEq] at ha hsz
        subst ha hsz
        exact tiled_ge gap rest hg hrest _ j b hb
      | succ i =>
        simp only [tiled, List.get?_cons_succ] at ha hsz
        exact ih hrest _ i j a b s (by omega) ha hsz hb

/-- Tiled coordinates stay in range: with sizes between 0 and `M` they lie between
the start and the start plus `M + gap` for every widget before. -/
theorem tiled_le (gap M : Int) (sizes : List Int)
    (hs : ∀ t ∈ sizes, 0 ≤ t ∧ t ≤ M) :
    ∀ (start : Int) (j : Nat) (b : Int), (tiled gap sizes start).get? j = some b →
      b ≤ start + j * (M + gap) := by
  induction sizes with
  | nil => intro start j b hb; simp [tiled] at hb
  | cons t rest ih =>
    intro start j b hb
    cases j with
    | zero =>
      simp only [tiled, List.get?_cons_zero, Option.some.injEq] at hb
      simp [hb]
    | succ j =>
      simp only [tiled, List.get?_cons_succ] at hb
      have h1 := ih (fun u hu => hs u (List.mem_cons_of_mem _ hu)) _ j b hb
      have h2 := hs t (List.mem_cons_self _ _)
      push_cast
      nlinarith [h1, h2.1, h2.2]


theorem setGeometry_total (w : MainWindow) (p : Nat) (x y width height : Int)
    (hp : p < w.widgets.length) :
    ∃ w2, setGeometry w p x y width height = some w2 ∧
      w2.widgets.length = w.widgets.length ∧ ∃ v, w2.widgets[p]? = some v := by
  unfold setGeometry
  rw [Option.bind_eq_bind, heap_update_lt _ _ _ hp]
  exact ⟨_, rfl, by simp, _, List.getElem?_set_self hp⟩

theorem arrange_overlaping_total (h wd : Int) (l : List (Int × Nat)) :
    ∀ (w : MainWindow) (count : Int), (∀ e ∈ l, e.2 < w.widgets.length) →
      ∃ w2, arrange_overlaping h wd w l count = some w2 := by
  induction l with
  | nil => exact fun w _ _ => ⟨w, rfl⟩
  | cons e rest ih =>
    obtain ⟨k, var⟩ := e
    intro w count hl
    have hp : var < w.widgets.length := hl (k, var) (List.mem_cons_self _ _)
    have hrest : ∀ e ∈ rest, e.2 < w.widgets.length :=
      fun e he => hl e (List.mem_cons_of_mem _ he)
    rw [arrange_overlaping]
    simp only [List.get?_eq_getElem?, List.getElem?_eq_getElem hp]
    split
    · obtain ⟨w1, h1, hlen, -⟩ := setGeometry_total w var (Int.tdiv wd 3 + count)
        (Int.tdiv h 3 + count) (w.widgets[var]).geometry.width (w.widgets[var]).geometry.height hp
      rw [h1]
      exact ih w1 _ (fun e he => by rw [hlen]; exact hrest e he)
    · exact ih w _ hrest

theorem arrange_horizontal_total (h : Int) (l : List (Int × Nat)) :
    ∀ (w : MainWindow) (count : Int), (∀ e ∈ l, e.2 < w.widgets.length) →
      ∃ w2, arrange_horizontal h w l count = some w2 := by
  induction l with
  | nil => exact fun w _ _ => ⟨w, rfl⟩
  | cons e rest ih =>
    obtain ⟨k, var⟩ := e
    intro w count hl
    have hp : var < w.widgets.length := hl (k, var) (List.mem_cons_self _ _)
    have hrest : ∀ e ∈ rest, e.2 < w.widgets.length :=
      fun e he => hl e (List.mem_cons_of_mem _ he)
    rw [arrange_horizontal]
    simp only [List.get?_eq_getElem?, List.getElem?_eq_getElem hp]
    split
    · obtain ⟨w1, h1, hlen, v, hv⟩ := setGeometry_total w var (0 + count)
        (Int.tdiv h 3) (w.widgets[var]).geometry.width (w.widgets[var]).geometry.height hp
      rw [h1]
      simp only [Option.some_bind, hv]
      exact ih w1 _ (fun e he => by rw [hlen]; exact hrest e he)
    · exact ih w _ hrest

theorem arrange_vertical_total (l : List (Int × Nat)) :
    ∀ (w : MainWindow) (count : Int), (∀ e ∈ l, e.2 < w.widgets.length) →
      ∃ w2, arrange_vertical w l count = some w2 := by
  induction l with
  | nil => exact fun w _ _ => ⟨w, rfl⟩
  | cons e rest ih =>
    obtain ⟨k, var⟩ := e
    intro w count hl
    have hp : var < w.widgets.length := hl (k, var) (List.mem_cons_self _ _)
    have hrest : ∀ e ∈ rest, e.2 < w.widgets.length :=
      fun e he => hl e (List.mem_cons_of_mem _ he)
    rw [arrange_vertical]
    simp only [List.get?_eq_getElem?, List.getElem?_eq_getElem hp]
    split
    · obtain ⟨w1, h1, hlen, v, hv⟩ := setGeometry_total w var 0 (0 + count)
        (w.widgets[var]).geometry.width (w.widgets[var]).geometry.height hp
      rw [h1]
      simp only [Option.some_bind, hv]
      exact ih w1 _ (fun e he => by rw [hlen]; exact hrest e he)
    · exact ih w _ hrest

/-- With every pointer of `map_parent_widgets_` at a widget, `from_arranged` returns,
whatever the action. -/
theorem from_arranged_total (w : MainWindow) (action : Nat)
    (hl : ∀ e ∈ w.map_parent_widgets_, e.2 < w.widgets.length) :
    ∃ w2, from_arranged w action = some w2 := by
  unfold from_arranged
  simp only
  split
  · exact arrange_overlaping_total _ _ _ w _ hl
  · split
    · exact arrange_horizontal_total _ _ w _ hl
    · split
      · exact arrange_vertical_total _ w _ hl
      · exact ⟨w, rfl⟩


/-- The state `init_window` ends in, as the operations of the running window see
it: the wiring, every widget hidden and every action unchecked. -/
theorem init_window_fixed (env : Env) :
    ∃ w, init_window env = some w ∧ fixed w = startup_fixed ∧
      visibility w = List.replicate 12 false ∧ checks w = List.replicate 11 false := by
  obtain ⟨w, ms2, hw, hs, hwire, hvis⟩ := init_window_wired env
  refine ⟨w, hw, ?_, hvis, ?_⟩
  · simp only [wiring, Prod.mk.injEq] at hwire
    obtain ⟨h1, h2, h3⟩ := hwire
    simp only [fixed, startup_fixed, h1, h2, h3, hs.2.2.2.2.2.1, hs.2.2.2.2.2.2]
  · simp only [wiring, Prod.mk.injEq] at hwire
    simp only [checks, hwire.2.1]
    rfl

/-- In a state that has the wiring of start-up, `from_arranged` returns for every
action, the pointers of `map_parent_widgets_` are pairwise different, and the three
arrangement actions are the pairwise different actions 3, 4 and 5. -/
theorem fixed_arrangeable (w : MainWindow) (h : fixed w = startup_fixed) :
    (w.map_parent_widgets_.map Prod.snd).Nodup ∧
    w.action_overlaping_ = some 3 ∧ w.action_horizontal_ = some 4 ∧
    w.action_vertical_ = some 5 ∧
    ∀ action, ∃ w2, from_arranged w action = some w2 := by
  simp only [fixed, startup_fixed, menu_actions, Prod.mk.injEq] at h
  obtain ⟨h1, -, ⟨h3, h4, h5⟩, -, h7⟩ := h
  have hlen : w.widgets.length = 12 := by
    have := congrArg List.length h1
    simpa using this
  refine ⟨by rw [h7]; decide, h3, h4, h5, fun action => from_arranged_total w action ?_⟩
  rw [h7, hlen]
  decide


/-- C24: `from_arranged`, called with an action that is not the overlapping action,
when it returns (and it does whenever the pointers of `map_parent_widgets_` are at
widgets, as in every state reachable from start-up, where the three arrangement
actions are pairwise different).  Horizontal tiling puts the visible widgets of
`map_parent_widgets_`, in key order, at `y = height / 3` (integer division) and at
the x-coordinates `tiled 10` of their widths; vertical tiling puts them at `x = 0`
and at the y-coordinates `tiled 0` of their heights; every one keeps its width and
height and everything but its position.  No other widget, hidden or not in the map,
changes, nothing else in the window changes, and an action that is none of the
three changes nothing at all.  The coordinates `tiled gap` start at 0 and each next
one is the previous one plus the previous size plus the gap, so with non-negative
sizes a later widget starts at or after the end of an earlier one plus the gap, and
with sizes up to `M` the `j`-th coordinate is at most `j * (M + gap)`. -/
theorem C24_from_arranged_tiles (env : Env) (w w2 : MainWindow) (action : Nat)
    (hnd : (w.map_parent_widgets_.map Prod.snd).Nodup)
    (hd : some action ≠ w.action_overlaping_)
    (hr : from_arranged w action = some w2) :
    (some action = w.action_horizontal_ →
      ∀ i q, (visible_of w w.map_parent_widgets_).get? i = some q →
        ∃ v x, w.widgets.get? q = some v ∧
          (tiled 10 ((visible_of w w.map_parent_widgets_).map (width_of w)) 0).get? i = some x ∧
          w2.widgets.get? q = some
            { v with geometry := { x := x, y := Int.tdiv w.geometry.height 3,
                                   width := v.geometry.width, height := v.geometry.height } }) ∧
    (some action ≠ w.action_horizontal_ → some action = w.action_vertical_ →
      ∀ i q, (visible_of w w.map_parent_widgets_).get? i = some q →
        ∃ v y, w.widgets.get? q = some v ∧
          (tiled 0 ((visible_of w w.map_parent_widgets_).map (height_of w)) 0).get? i = some y ∧
          w2.widgets.get? q = some
            { v with geometry := { x := 0, y := y, width := v.geometry.width,
                                   height := v.geometry.height } }) ∧
    (∀ q, q ∉ visible_of w w.map_parent_widgets_ → w2.widgets.get? q = w.widgets.get? q) ∧
    w2 = { w with widgets := w2.widgets } ∧
    (some action ≠ w.action_horizontal_ → some action ≠ w.action_vertical_ → w2 = w) ∧
    (∀ (gap : Int) (sizes : List Int),
      (tiled gap sizes 0).length = sizes.length ∧
      (∀ a, (tiled gap sizes 0).get? 0 = some a → a = 0) ∧
      (∀ i a b s, (tiled gap sizes 0).get? i = some a → sizes.get? i = some s →
        (tiled gap sizes 0).get? (i + 1) = some b → b = a + s + gap) ∧
      (0 ≤ gap → (∀ t ∈ sizes, 0 ≤ t) →
        ∀ i j a b s, i < j → (tiled gap sizes 0).get? i = some a → sizes.get? i = some s →
          (tiled gap sizes 0).get? j = some b → a + s + gap ≤ b) ∧
      (∀ M, (∀ t ∈ sizes, 0 ≤ t ∧ t ≤ M) →
        ∀ j b, (tiled gap sizes 0).get? j = some b → b ≤ j * (M + gap))) ∧
    (∃ w0, init_window env = some w0 ∧
      ∀ ops w3, run_ops w0 ops = some w3 →
        (w3.map_parent_widgets_.map Prod.snd).Nodup ∧
        w3.action_overlaping_ = some 3 ∧ w3.action_horizontal_ = some 4 ∧
        w3.action_vertical_ = some 5 ∧
        ∀ a, ∃ w4, from_arranged w3 a = some w4) := by
  have hd2 : ¬ some action = w.action_overlaping_ := hd
  simp only [from_arranged, hd2, if_false] at hr
  refine ⟨?_, ?_, ?_, ?_, ?_, ?_, ?_⟩
  · intro hh
    rw [if_pos hh] at hr
    exact (arrange_horizontal_spec _ _ w w2 0 hnd hr).2.2
  · intro hh hv
    rw [if_neg hh, if_pos hv] at hr
    exact (arrange_vertical_spec _ w w2 0 hnd hr).2.2
  · by_cases hh : some action = w.action_horizontal_
    · rw [if_pos hh] at hr
      exact (arrange_horizontal_spec _ _ w w2 0 hnd hr).2.1
    · by_cases hv : some action = w.action_vertical_
      · rw [if_neg hh, if_pos hv] at hr
        exact (arrange_vertical_spec _ w w2 0 hnd hr).2.1
      · rw [if_neg hh, if_neg hv] at hr
        cases hr
        exact fun _ _ => rfl
  · by_cases hh : some action = w.action_horizontal_
    · rw [if_pos hh] at hr
      exact (arrange_horizontal_spec _ _ w w2 0 hnd hr).1
    · by_cases hv : some action = w.action_vertical_
      · rw [if_neg hh, if_pos hv] at hr
        exact (arrange_vertical_spec _ w w2 0 hnd hr).1
      · rw [if_neg hh, if_neg hv] at hr
        cases hr
        rfl
  · intro hh hv
    rw [if_neg hh, if_neg hv] at hr
    exact (Option.some.inj hr).symm
  · intro gap sizes
    refine ⟨tiled_length gap sizes 0, ?_, tiled_succ gap sizes 0, ?_, ?_⟩
    · intro a ha
      cases sizes with
      | nil => simp [tiled] at ha
      | cons s rest =>
        simp only [tiled, List.get?_cons_zero, Option.some.injEq] at ha
        exact ha.symm
    · intro hg hs
      exact tiled_apart gap sizes hg hs 0
    · intro M hs j b hb
      have := tiled_le gap M sizes hs 0 j b hb
      omega
  · obtain ⟨w0, hw0, hf, -, -⟩ := init_window_fixed env
    refine ⟨w0, hw0, fun ops w3 h3 => ?_⟩
    exact fixed_arrangeable w3 (by rw [run_ops_fixed ops w0 w3 h3, hf])

theorem C24_from_arranged_tiles_witness :
    ∃ w2, from_arranged tiling_window 1 = some w2 ∧
      visible_of tiling_window tiling_window.map_parent_widgets_ = [0, 2] ∧
      w2.widgets.map (fun x => x.geometry) =
        [{ x := 0, y := 360, width := 300, height := 200 },
         { x := 7, y := 7, width := 100, height := 100 },
         { x := 310, y := 360, width := 250, height := 150 }] ∧
      ∀ i q, (visible_of tiling_window tiling_window.map_parent_widgets_).get? i = some q →
        ∃ v x, tiling_window.widgets.get? q = some v ∧
          (tiled 10 ((visible_of tiling_window tiling_window.map_parent_widgets_).map
            (width_of tiling_window)) 0).get? i = some x ∧
          w2.widgets.get? q = some
            { v with geometry := { x := x, y := Int.tdiv tiling_window.geometry.height 3,
                                   width := v.geometry.width, height := v.geometry.height } } := by
  refine ⟨_, rfl, by decide, rfl, ?_⟩
  exact (C24_from_arranged_tiles env_invalid tiling_window _ 1 (by decide) (by decide)
    (by rfl)).1 rfl

/-! ## The menu actions follow the widgets -/

theorem setVisible_flags (w w2 : MainWindow) (p : Nat) (b : Bool)
    (h : setVisible w p b = some w2) :
    flags w2 = ((visibility w).set p b, checks w) ∧ p < w.widgets.length := by
  obtain ⟨h1, h2⟩ := setVisible_visibility w w2 p b h
  simp only [setVisible, Option.bind_eq_bind, Option.bind_eq_some, Option.pure_def,
    Option.some.injEq] at h
  obtain ⟨ws, -, rfl⟩ := h
  exact ⟨by rw [flags, h1]; rfl, h2⟩

theorem setGeometry_flags (w w2 : MainWindow) (p : Nat) (x y width height : Int)
    (h : setGeometry w p x y width height = some w2) : flags w2 = flags w := by
  simp only [setGeometry, Option.bind_eq_bind, Option.bind_eq_some, Option.pure_def,
    Option.some.injEq] at h
  obtain ⟨ws, hws, rfl⟩ := h
  have hk := heap_update_keep (fun v : Widget => v.visible) _ _ _ _ hws (fun _ => rfl)
  simp only [flags, visibility, checks, hk]

theorem arrange_overlaping_flags (h wd : Int) (l : List (Int × Nat)) (w w2 : MainWindow)
    (count : Int) (hr : arrange_overlaping h wd w l count = some w2) : flags w2 = flags w := by
  induction l generalizing w count with
  | nil =>
    cases hr
    rfl
  | cons e rest ih =>
    obtain ⟨k, var⟩ := e
    simp only [arrange_overlaping] at hr
    split at hr
    · cases hr
    · split at hr
      · simp only [Option.bind_eq_some] at hr
        obtain ⟨w1, h1, h3⟩ := hr
        rw [ih w1 _ h3, setGeometry_flags w w1 _ _ _ _ _ h1]
      · exact ih w _ hr

theorem arrange_horizontal_flags (h : Int) (l : List (Int × Nat)) (w w2 : MainWindow)
    (count : Int) (hr : arrange_horizontal h w l count = some w2) : flags w2 = flags w := by
  induction l generalizing w count with
  | nil =>
    cases hr
    rfl
  | cons e rest ih =>
    obtain ⟨k, var⟩ := e
    simp only [arrange_horizontal] at hr
    split at hr
    · cases hr
    · split at hr
      · simp only [Option.bind_eq_some] at hr
        obtain ⟨w1, h1, h3⟩ := hr
        split at h3
        · cases h3
        · rw [ih w1 _ h3, setGeometry_flags w w1 _ _ _ _ _ h1]
      · exact ih w _ hr

theorem arrange_vertical_flags (l : List (Int × Nat)) (w w2 : MainWindow)
    (count : Int) (hr : arrange_vertical w l count = some w2) : flags w2 = flags w := by
  induction l generalizing w count with
  | nil =>
    cases hr
    rfl
  | cons e rest ih =>
    obtain ⟨k, var⟩ := e
    simp only [arrange_vertical] at hr
    split at hr
    · cases hr
    · split at hr
      · simp only [Option.bind_eq_some] at hr
        obtain ⟨w1, h1, h3⟩ := hr
        split at h3
        · cases h3
        · rw [ih w1 _ h3, setGeometry_flags w w1 _ _ _ _ _ h1]
      · exact ih w _ hr

theorem from_arranged_flags (w w2 : MainWindow) (action : Nat)
    (h : from_arranged w action = some w2) : flags w2 = flags w := by
  simp only [from_arranged] at h
  split at h
  · exact arrange_overlaping_flags _ _ _ w w2 _ h
  · split at h
    · exact arrange_horizontal_flags _ _ w w2 _ h
    · split at h
      · exact arrange_vertical_flags _ w w2 _ h
      · cases h
        rfl

/-- What an emission does to the check states: nothing for a widget without bound
action, and `setChecked` on the bound action otherwise. -/
theorem emit_sig_flags (w w2 : MainWindow) (p : Nat) (b : Bool)
    (h : emit_sig w p b = some w2) :
    visibility w2 = visibility w ∧
    ∃ x, w.widgets.get? p = some x ∧
      (x.action_ = none → checks w2 = checks w) ∧
      (∀ a, x.action_ = some a → ∃ act, w.actions.get? a = some act ∧
        checks w2 = (checks w).set a (act.setChecked b).checked) := by
  simp only [emit_sig, Option.bind_eq_bind, Option.bind_eq_some, Option.pure_def] at h
  obtain ⟨x, hx, h⟩ := h
  split at h
  · rename_i a ha
    simp only [Option.bind_eq_some, Option.some.injEq] at h
    obtain ⟨as, has, rfl⟩ := h
    obtain ⟨act, hact, rfl, -⟩ := heap_update_some _ _ _ _ has
    refine ⟨rfl, x, hx, fun hc => ?_, fun a2 ha2 => ?_⟩
    · rw [ha] at hc
      cases hc
    · rw [ha] at ha2
      cases ha2
      exact ⟨act, hact, by simp [checks, List.map_set]⟩
  · rename_i ha
    cases h
    refine ⟨rfl, x, hx, fun _ => rfl, fun a2 ha2 => ?_⟩
    rw [ha] at ha2
    cases ha2


theorem bound_pairs_inj :
    ∀ e1 ∈ bound_pairs, ∀ e2 ∈ bound_pairs,
      (e1.1 = e2.1 → e1 = e2) ∧ (e1.2 = e2.2 → e1 = e2) := by
  decide

theorem sync_set_other (vis chk : List Bool) (s : Nat) (c : Bool)
    (hs : ∀ e ∈ bound_pairs, e.1 ≠ s) (h : sync_lists vis chk) :
    sync_lists (vis.set s c) chk := by
  intro e he
  rw [← h e he]
  exact get?_set_other vis s e.1 c (hs e he)

theorem sync_set_pair (vis chk : List Bool) (p a : Nat) (b : Bool)
    (hm : (p, a) ∈ bound_pairs) (hp : p < vis.length) (ha : a < chk.length)
    (h : sync_lists vis chk) : sync_lists (vis.set p b) (chk.set a b) := by
  intro e he
  by_cases hpe : e.1 = p
  · have hep := (bound_pairs_inj e he (p, a) hm).1 hpe
    subst hep
    rw [get?_set_same vis _ b hp, get?_set_same chk _ b ha]
  · have hae : e.2 ≠ a := fun hc =>
      hpe (congrArg Prod.fst ((bound_pairs_inj e he (p, a) hm).2 hc))
    rw [get?_set_other vis p e.1 b hpe, get?_set_other chk a e.2 b hae]
    exact h e he

theorem list_set_same {α : Type} (l : List α) (p : Nat) (a : α) (h : l.get? p = some a) :
    l.set p a = l := by
  apply List.ext_getElem?
  intro i
  by_cases hi : p = i
  · subst hi
    have hp : p < l.length := by
      rcases Nat.lt_or_ge p l.length with hlt | hge
      · exact hlt
      · rw [List.get?_eq_none.mpr hge] at h
        cases h
    rw [List.getElem?_set_self hp, ← List.get?_eq_getElem?, h]
  · exact List.getElem?_set_ne hi

theorem visibility_get (w : MainWindow) (p : Nat) (x : Widget)
    (h : w.widgets.get? p = some x) : (visibility w).get? p = some x.visible := by
  simp [visibility, List.get?_eq_getElem?] at h ⊢
  exact ⟨x, h, rfl⟩

theorem checks_get (w : MainWindow) (a : Nat) (act : QAction)
    (h : w.actions.get? a = some act) : (checks w).get? a = some act.checked := by
  simp [checks, List.get?_eq_getElem?] at h ⊢
  exact ⟨act, h, rfl⟩

/-- What `fixed w = startup_fixed` says pointer by pointer. -/
theorem fixed_facts (w : MainWindow) (hf : fixed w = startup_fixed) :
    w.widgets.length = 12 ∧ w.actions.length = 11 ∧ w.map_widgets_ = startup_map ∧
    (∀ p x, w.widgets.get? p = some x →
      startup_wires.get? p = some (x.action_, x.list_sub_widgets_)) ∧
    (∀ a act, w.actions.get? a = some act → 6 ≤ a → act.checkable = true) := by
  simp only [fixed, startup_fixed, Prod.mk.injEq] at hf
  obtain ⟨h1, h2, -, h4, -⟩ := hf
  have hl1 : w.widgets.length = 12 := by
    have := congrArg List.length h1
    simpa using this
  have hl2 : w.actions.length = 11 := by
    have := congrArg List.length h2
    simpa using this
  refine ⟨hl1, hl2, h4, fun p x hx => ?_, fun a act hact ha => ?_⟩
  · rw [← h1, List.get?_eq_getElem?, List.getElem?_map, ← List.get?_eq_getElem?, hx]
    rfl
  · have h3 := congrArg (fun l => l.get? a) h2
    simp only [List.get?_eq_getElem?, List.getElem?_map] at h3 hact
    simp only [hact, Option.map_some'] at h3
    have hlt : a < 11 := by
      rcases Nat.lt_or_ge a w.actions.length with hlt | hge
      · omega
      · rw [List.getElem?_eq_none hge] at hact
        cases hact
    interval_cases a <;> simp [startup_actions] at h3 <;> exact h3.2

/-- The wiring at start-up, pointer by pointer: a bound action is one of `bound_pairs`
and checkable, a widget without action is no top-level widget, and no sub-widget is a
top-level widget. -/
theorem startup_wires_facts (p : Nat) (oa : Option Nat) (subs : List Nat)
    (h : startup_wires.get? p = some (oa, subs)) :
    (∀ a, oa = some a → (p, a) ∈ bound_pairs ∧ 6 ≤ a ∧ a < 11) ∧
    (oa = none → ∀ e ∈ bound_pairs, e.1 ≠ p) ∧
    (∀ s ∈ subs, s < 12 ∧ ∀ e ∈ bound_pairs, e.1 ≠ s) := by
  have hp : p < 12 := by
    rcases Nat.lt_or_ge p startup_wires.length with hlt | hge
    · exact hlt
    · rw [List.get?_eq_none.mpr hge] at h
      cases h
  interval_cases p <;> simp [startup_wires] at h <;> obtain ⟨rfl, rfl⟩ := h <;>
    simp [bound_pairs]

theorem setChecked_checked (a : QAction) (b : Bool) (h : a.checkable = true) :
    (a.setChecked b).checked = b := by
  unfold QAction.setChecked
  split
  · rename_i hc
    simp [h] at hc
    exact hc
  · rfl

theorem setVisible_synced (w w2 : MainWindow) (p : Nat) (b : Bool)
    (hn : ∀ e ∈ bound_pairs, e.1 ≠ p) (hs : synced w)
    (h : setVisible w p b = some w2) : synced w2 := by
  have h1 := (setVisible_flags w w2 p b h).1
  simp only [flags, Prod.mk.injEq] at h1
  unfold synced
  rw [h1.1, h1.2]
  exact sync_set_other _ _ p b hn hs

theorem show_each_synced (l : List Nat) (w w2 : MainWindow)
    (hn : ∀ s ∈ l, ∀ e ∈ bound_pairs, e.1 ≠ s) (hs : synced w)
    (h : show_each w l = some w2) : synced w2 := by
  induction l generalizing w with
  | nil =>
    cases h
    exact hs
  | cons p rest ih =>
    simp only [show_each, Option.bind_eq_some] at h
    obtain ⟨w1, h1, h3⟩ := h
    exact ih w1 (fun s hsr => hn s (List.mem_cons_of_mem _ hsr))
      (setVisible_synced w w1 p true (hn p (List.mem_cons_self _ _)) hs h1) h3

/-- Showing or hiding the widget at `p` and emitting its signal with the same value
keeps the invariant. -/
theorem sync_at (w w1 w2 : MainWindow) (p : Nat) (b : Bool)
    (hf : fixed w = startup_fixed) (hs : synced w)
    (h1 : setVisible w p b = some w1) (h2 : emit_sig w1 p b = some w2) : synced w2 := by
  obtain ⟨hfl, hp⟩ := setVisible_flags w w1 p b h1
  simp only [flags, Prod.mk.injEq] at hfl
  have hf1 : fixed w1 = startup_fixed := by rw [setVisible_fixed w w1 p b h1, hf]
  obtain ⟨-, hla, -, hw, hc⟩ := fixed_facts w1 hf1
  obtain ⟨hv, x, hx, hnone, hsome⟩ := emit_sig_flags w1 w2 p b h2
  obtain ⟨hA, hB, -⟩ := startup_wires_facts p _ _ (hw p x hx)
  unfold synced
  rw [hv, hfl.1]
  cases ha : x.action_ with
  | none =>
    rw [hnone ha, hfl.2]
    exact sync_set_other _ _ p b (hB ha) hs
  | some a =>
    obtain ⟨act, hact, hch⟩ := hsome a ha
    obtain ⟨hm, h6, h11⟩ := hA a ha
    rw [hch, setChecked_checked act b (hc a act hact h6), hfl.2]
    refine sync_set_pair _ _ p a b hm ?_ ?_ hs
    · simpa [visibility] using hp
    · have : (checks w).length = 11 := by
        rw [← hfl.2]
        simpa [checks] using hla
      omega

theorem flags_widgets (w : MainWindow) (ws : List Widget) (p : Nat) (f : Widget → Widget)
    (h : heap_update w.widgets p f = some ws) (hk : ∀ x, (f x).visible = x.visible) :
    flags { w with widgets := ws } = flags w := by
  have hk2 := heap_update_keep (fun v : Widget => v.visible) _ _ _ _ h hk
  simp only [flags, visibility, checks, hk2]

theorem synced_of_flags (w w2 : MainWindow) (h : flags w2 = flags w) (hs : synced w) :
    synced w2 := by
  simp only [flags, Prod.mk.injEq] at h
  unfold synced
  rw [h.1, h.2]
  exact hs

theorem closeEvent_synced (w w2 : MainWindow) (p : Nat)
    (hf : fixed w = startup_fixed) (hs : synced w)
    (h : closeEvent w p = some w2) : synced w2 := by
  simp only [closeEvent, Option.bind_eq_bind, Option.bind_eq_some] at h
  obtain ⟨w1, h1, h2⟩ := h
  exact sync_at w w1 w2 p false hf hs h1 h2

theorem closeEvent_hidden (w w2 : MainWindow) (p : Nat)
    (h : closeEvent w p = some w2) : (visibility w2).get? p = some false := by
  simp only [closeEvent, Option.bind_eq_bind, Option.bind_eq_some] at h
  obtain ⟨w1, h1, h2⟩ := h
  obtain ⟨hv, hp⟩ := setVisible_visibility w w1 p false h1
  rw [(emit_sig_flags w1 w2 p false h2).1, hv]
  exact get?_set_same _ p false (by simpa [visibility] using hp)

theorem close_synced (w w2 : MainWindow) (p : Nat)
    (hf : fixed w = startup_fixed) (hs : synced w)
    (h : close w p = some w2) : synced w2 := by
  simp only [close, Option.bind_eq_bind, Option.bind_eq_some, Option.pure_def] at h
  obtain ⟨w1, h1, x, hx, h3⟩ := h
  have hs1 := closeEvent_synced w w1 p hf hs h1
  split at h3
  · rename_i hv
    have hg := visibility_get w1 p x hx
    rw [hv, closeEvent_hidden w w1 p h1] at hg
    cases hg
  · cases h3
    exact hs1

theorem close_all_synced (l : List (Int × Nat)) (w w2 : MainWindow)
    (hf : fixed w = startup_fixed) (hs : synced w)
    (h : close_all w l = some w2) : synced w2 := by
  induction l generalizing w with
  | nil =>
    cases h
    exact hs
  | cons e rest ih =>
    obtain ⟨k, var⟩ := e
    simp only [close_all, Option.bind_eq_some] at h
    obtain ⟨w1, h1, h3⟩ := h
    exact ih w1 (by rw [close_fixed w w1 var h1, hf]) (close_synced w w1 var hf hs h1) h3

theorem open_all_synced (l : List (Int × Nat)) (w w2 : MainWindow)
    (hf : fixed w = startup_fixed) (hs : synced w)
    (h : open_all w l = some w2) : synced w2 := by
  induction l generalizing w with
  | nil =>
    cases h
    exact hs
  | cons e rest ih =>
    obtain ⟨k, var⟩ := e
    simp only [open_all, Option.bind_eq_some] at h
    obtain ⟨w1, ⟨w0, h0, h1⟩, h3⟩ := h
    exact ih w1 (by rw [emit_sig_fixed w0 w1 var true h1, setVisible_fixed w w0 var true h0, hf])
      (sync_at w w0 w1 var true hf hs h0 h1) h3

/-- The two branches of `slot_change_wid_statu`. -/
theorem slot_change_wid_statu_cases (w w2 : MainWindow) (type : Int)
    (h : slot_change_wid_statu w type = some w2) :
    ∃ p x, QMap.find w.map_widgets_ type = some p ∧ w.widgets.get? p = some x ∧
      ((x.visible = true ∧ setVisible w p false = some w2) ∨
       (x.visible = false ∧ ∃ w1, setVisible w p true = some w1 ∧
          show_sub_widget w1 p = some w2)) := by
  simp only [slot_change_wid_statu, Option.bind_eq_bind, Option.bind_eq_some] at h
  obtain ⟨p, hp, x, hx, h⟩ := h
  refine ⟨p, x, hp, hx, ?_⟩
  split at h
  · rename_i hv
    exact Or.inl ⟨by simpa using hv, h⟩
  · rename_i hv
    simp only [Option.bind_eq_some] at h
    exact Or.inr ⟨by simpa using hv, h⟩

theorem show_sub_widget_synced (w w2 : MainWindow) (p : Nat)
    (hf : fixed w = startup_fixed) (hs : synced w)
    (h : show_sub_widget w p = some w2) : synced w2 := by
  simp only [show_sub_widget, Option.bind_eq_bind, Option.bind_eq_some, Option.pure_def] at h
  obtain ⟨x, hx, h⟩ := h
  split at h
  · obtain ⟨-, -, -, hw, -⟩ := fixed_facts w hf
    obtain ⟨-, -, hC⟩ := startup_wires_facts p _ _ (hw p x hx)
    exact show_each_synced _ w w2 (fun s hsm => (hC s hsm).2) hs h
  · cases h
    exact hs

theorem activate_checked (a : QAction) (h : a.checkable = true) :
    a.activate.checked = !a.checked := by
  simp [QAction.activate, h]

/-- Toggling the menu action of a widget keeps the invariant: the action is toggled by
Qt, the slot flips the widget. -/
theorem trigger_widget_action_synced (w w2 : MainWindow) (type : Int)
    (hf : fixed w = startup_fixed) (hs : synced w)
    (h : trigger_widget_action w type = some w2) : synced w2 := by
  simp only [trigger_widget_action, Option.bind_eq_bind, Option.bind_eq_some] at h
  obtain ⟨p, hp, x, hx, a, ha, as, has, w1, h1, h3⟩ := h
  obtain ⟨act, hact, rfl, halt⟩ := heap_update_some _ _ _ _ has
  obtain ⟨hl1, -, -, hw, hc⟩ := fixed_facts w hf
  have hwire := hw p x hx
  rw [ha] at hwire
  obtain ⟨hA, -, -⟩ := startup_wires_facts p _ _ hwire
  obtain ⟨hm, h6, h11⟩ := hA a rfl
  have hfa : fixed { w with actions := w.actions.set a act.activate } = startup_fixed := by
    rw [fixed_actions w _ a _ has activate_keeps, hf]
  have hf1 : fixed w1 = startup_fixed := by rw [from_arranged_fixed _ w1 a h1, hfa]
  have hfl := from_arranged_flags _ w1 a h1
  simp only [flags, Prod.mk.injEq] at hfl
  have hv1 : visibility w1 = visibility w := hfl.1
  have hc1 : checks w1 = (checks w).set a (!act.checked) := by
    rw [hfl.2]
    simp [checks, List.map_set, activate_checked act (hc a act hact h6)]
  have hpv : p < (visibility w).length := by
    rcases Nat.lt_or_ge p w.widgets.length with hlt | hge
    · simpa [visibility] using hlt
    · rw [List.get?_eq_none.mpr hge] at hx
      cases hx
  have hac : a < (checks w).length := by simpa [checks] using halt
  have heq : x.visible = act.checked := by
    have := hs (p, a) hm
    rw [visibility_get w p x hx, checks_get w a act hact] at this
    exact Option.some.inj this
  obtain ⟨p1, x1, hp1, hx1, hcase⟩ := slot_change_wid_statu_cases w1 w2 type h3
  have hmap : w1.map_widgets_ = w.map_widgets_ := by
    rw [(fixed_facts w1 hf1).2.2.1, (fixed_facts w hf).2.2.1]
  rw [hmap, hp] at hp1
  cases hp1
  have hx1v : x1.visible = x.visible := by
    have := visibility_get w1 p x1 hx1
    rw [hv1, visibility_get w p x hx] at this
    exact (Option.some.inj this).symm
  rcases hcase with ⟨hv, h4⟩ | ⟨hv, w3, h4, h5⟩
  · obtain ⟨hfl2, -⟩ := setVisible_flags w1 w2 p false h4
    simp only [flags, Prod.mk.injEq] at hfl2
    unfold synced
    rw [hfl2.1, hfl2.2, hv1, hc1, ← heq, ← hx1v, hv]
    exact sync_set_pair _ _ p a false hm hpv hac hs
  · obtain ⟨hfl2, -⟩ := setVisible_flags w1 w3 p true h4
    simp only [flags, Prod.mk.injEq] at hfl2
    have hs3 : synced w3 := by
      unfold synced
      rw [hfl2.1, hfl2.2, hv1, hc1, ← heq, ← hx1v, hv]
      exact sync_set_pair _ _ p a true hm hpv hac hs
    exact show_sub_widget_synced w3 w2 p
      (by rw [setVisible_fixed w1 w3 p true h4, hf1]) hs3 h5

theorem setRowHidden_flags (w w2 : MainWindow) (v : Nat) (row : Int) (hide : Bool)
    (h : setRowHidden w v row hide = some w2) : flags w2 = flags w := by
  simp only [setRowHidden, Option.bind_eq_bind, Option.bind_eq_some, Option.pure_def] at h
  obtain ⟨view, -, h⟩ := h
  split at h
  · cases h
    rfl
  · simp only [Option.bind_eq_some, Option.some.injEq] at h
    obtain ⟨_, -, rfl⟩ := h
    rfl

theorem rows_loop_flags (in_view_ : Option Nat) (l : List Bool) (w w2 : MainWindow) (i : Int)
    (h : rows_loop in_view_ w l i = some w2) : flags w2 = flags w := by
  induction l generalizing w i with
  | nil =>
    cases h
    rfl
  | cons c rest ih =>
    simp only [rows_loop] at h
    split at h
    · cases h
    · simp only [Option.bind_eq_some] at h
      obtain ⟨w1, h1, h3⟩ := h
      rw [ih w1 _ h3]
      split at h1
      · exact setRowHidden_flags w w1 _ _ _ h1
      · exact setRowHidden_flags w w1 _ _ _ h1

theorem QList.at_mem {α : Type} (l : List α) (i : Int) (a : α) (h : QList.at l i = some a) :
    a ∈ l := by
  unfold QList.at at h
  split at h
  · exact List.get?_mem h
  · cases h

theorem subs_loop_synced (subs : List Nat) (l : List Bool) (w w2 : MainWindow) (i : Int)
    (hn : ∀ s ∈ subs, ∀ e ∈ bound_pairs, e.1 ≠ s) (hs : synced w)
    (h : subs_loop subs w l i = some w2) : synced w2 := by
  induction l generalizing w i with
  | nil =>
    cases h
    exact hs
  | cons c rest ih =>
    simp only [subs_loop] at h
    split at h
    · cases h
    · rename_i s hat
      have hns := hn s (QList.at_mem subs i s hat)
      split at h
      · cases h
      · simp only [Option.bind_eq_some] at h
        obtain ⟨w1, h1, h3⟩ := h
        refine ih w1 _ ?_ h3
        split at h1
        · split at h1
          · exact setVisible_synced w w1 s true hns hs h1
          · cases h1
            exact hs
        · split at h1
          · exact setVisible_synced w w1 s false hns hs h1
          · cases h1
            exact hs

theorem close_select_list_flags (w w2 : MainWindow) (p : Nat)
    (h : close_select_list w p = some w2) : flags w2 = flags w := by
  simp only [close_select_list, Option.bind_eq_bind, Option.bind_eq_some, Option.pure_def] at h
  obtain ⟨x, -, h⟩ := h
  split at h
  · cases h
  · simp only [Option.bind_eq_some, Option.some.injEq] at h
    obtain ⟨ws, hws, rfl⟩ := h
    exact flags_widgets w ws p _ hws (fun _ => rfl)

theorem on_setting_visible_synced (w w2 : MainWindow) (p : Nat)
    (hf : fixed w = startup_fixed) (hs : synced w)
    (h : on_setting_visible w p = some w2) : synced w2 := by
  simp only [on_setting_visible, Option.bind_eq_bind, Option.bind_eq_some] at h
  obtain ⟨x, hx, w1, h1, w3, h3, h4⟩ := h
  obtain ⟨-, -, -, hw, -⟩ := fixed_facts w hf
  obtain ⟨-, -, hC⟩ := startup_wires_facts p _ _ (hw p x hx)
  exact synced_of_flags w3 w2 (close_select_list_flags w3 w2 p h4)
    (subs_loop_synced _ _ w1 w3 _ (fun s hsm => (hC s hsm).2)
      (synced_of_flags w w1 (rows_loop_flags _ _ w w1 _ h1) hs) h3)

theorem create_select_list_flags (w w2 : MainWindow) (p : Nat)
    (h : create_select_list w p = some w2) : flags w2 = flags w := by
  simp only [create_select_list, Option.bind_eq_bind, Option.bind_eq_some, Option.pure_def,
    Option.some.injEq] at h
  obtain ⟨x, -, model, -, m, -, sl, -, _, -, ws, hws, rfl⟩ := h
  exact flags_widgets w ws p _ hws (fun _ => rfl)

theorem show_select_list_flags (w w2 : MainWindow) (p : Nat)
    (h : show_select_list w p = some w2) : flags w2 = flags w := by
  simp only [show_select_list, Option.bind_eq_bind, Option.bind_eq_some, Option.pure_def] at h
  obtain ⟨x, -, h⟩ := h
  split at h
  · simp only [Option.bind_eq_some, Option.some.injEq] at h
    obtain ⟨ws, hws, rfl⟩ := h
    exact flags_widgets w ws p _ hws (fun _ => rfl)
  · exact create_select_list_flags w w2 p h

theorem check_all_flags (w w2 : MainWindow) (p : Nat) (b : Bool)
    (h : check_all w p b = some w2) : flags w2 = flags w := by
  simp only [check_all, Option.bind_eq_bind, Option.bind_eq_some, Option.pure_def,
    Option.some.injEq] at h
  obtain ⟨ws, hws, rfl⟩ := h
  exact flags_widgets w ws p _ hws (fun _ => rfl)

theorem UiOp.run_synced (op : UiOp) (w w2 : MainWindow)
    (hf : fixed w = startup_fixed) (hs : synced w) (h : op.run w = some w2) :
    synced w2 := by
  cases op with
  | menu_widget type => exact trigger_widget_action_synced w w2 type hf hs h
  | menu_action action => exact synced_of_flags w w2 (from_arranged_flags w w2 action h) hs
  | close_widget p => exact close_synced w w2 p hf hs h
  | menu_close_all => exact close_all_synced _ w w2 hf hs h
  | menu_open_all => exact open_all_synced _ w w2 hf hs h
  | select_button p => exact synced_of_flags w w2 (show_select_list_flags w w2 p h) hs
  | check_button p checked => exact synced_of_flags w w2 (check_all_flags w w2 p checked h) hs
  | ok_button p => exact on_setting_visible_synced w w2 p hf hs h
  | cancel_button p => exact synced_of_flags w w2 (close_select_list_flags w w2 p h) hs

theorem run_ops_synced (ops : List UiOp) (w w2 : MainWindow)
    (hf : fixed w = startup_fixed) (hs : synced w) (h : run_ops w ops = some w2) :
    synced w2 := by
  induction ops generalizing w with
  | nil =>
    cases h
    exact hs
  | cons op rest ih =>
    simp only [run_ops, Option.bind_eq_some] at h
    obtain ⟨w1, h1, h3⟩ := h
    exact ih w1 (by rw [UiOp.run_fixed op w w1 h1, hf]) (UiOp.run_synced op w w1 hf hs h1) h3

theorem setVisible_total (w : MainWindow) (p : Nat) (b : Bool) (hp : p < w.widgets.length) :
    ∃ w2, setVisible w p b = some w2 := by
  unfold setVisible
  rw [Option.bind_eq_bind, heap_update_lt _ _ _ hp]
  exact ⟨_, rfl⟩

theorem get?_of_lt {α : Type} (l : List α) (p : Nat) (h : p < l.length) :
    ∃ x, l.get? p = some x :=
  ⟨l.get ⟨p, h⟩, List.get?_eq_get h⟩

theorem emit_sig_total (w : MainWindow) (p : Nat) (b : Bool)
    (hf : fixed w = startup_fixed) (hp : p < 12) : ∃ w2, emit_sig w p b = some w2 := by
  obtain ⟨hl1, hl2, -, hw, -⟩ := fixed_facts w hf
  obtain ⟨x, hx⟩ := get?_of_lt w.widgets p (by omega)
  obtain ⟨hA, -, -⟩ := startup_wires_facts p _ _ (hw p x hx)
  unfold emit_sig
  rw [Option.bind_eq_bind, hx, Option.some_bind]
  cases ha : x.action_ with
  | none => exact ⟨w, rfl⟩
  | some a =>
    obtain ⟨-, -, h11⟩ := hA a ha
    simp only [Option.bind_eq_bind]
    rw [heap_update_lt _ _ _ (by omega : a < w.actions.length)]
    exact ⟨_, rfl⟩

theorem closeEvent_total (w : MainWindow) (p : Nat)
    (hf : fixed w = startup_fixed) (hp : p < 12) : ∃ w2, closeEvent w p = some w2 := by
  obtain ⟨w1, h1⟩ := setVisible_total w p false (by rw [(fixed_facts w hf).1]; exact hp)
  obtain ⟨w2, h2⟩ := emit_sig_total w1 p false
    (by rw [setVisible_fixed w w1 p false h1, hf]) hp
  exact ⟨w2, by simp only [closeEvent, Option.bind_eq_bind, h1, Option.some_bind, h2]⟩

theorem close_total (w : MainWindow) (p : Nat)
    (hf : fixed w = startup_fixed) (hp : p < 12) : ∃ w2, close w p = some w2 := by
  obtain ⟨w1, h1⟩ := closeEvent_total w p hf hp
  have hf1 : fixed w1 = startup_fixed := by rw [closeEvent_fixed w w1 p h1, hf]
  have hl : p < w1.widgets.length := by rw [(fixed_facts w1 hf1).1]; exact hp
  obtain ⟨x, hx⟩ := get?_of_lt w1.widgets p hl
  simp only [close, Option.bind_eq_bind, h1, Option.some_bind, hx, Option.pure_def]
  split
  · exact setVisible_total w1 p false hl
  · exact ⟨w1, rfl⟩

theorem close_all_total (l : List (Int × Nat)) (w : MainWindow)
    (hf : fixed w = startup_fixed) (hl : ∀ e ∈ l, e.2 < 12) :
    ∃ w2, close_all w l = some w2 := by
  induction l generalizing w with
  | nil => exact ⟨w, rfl⟩
  | cons e rest ih =>
    obtain ⟨k, var⟩ := e
    obtain ⟨w1, h1⟩ := close_total w var hf (hl (k, var) (List.mem_cons_self _ _))
    obtain ⟨w2, h2⟩ := ih w1 (by rw [close_fixed w w1 var h1, hf])
      (fun e he => hl e (List.mem_cons_of_mem _ he))
    exact ⟨w2, by simp only [close_all, h1, Option.some_bind, h2]⟩

theorem open_all_total (l : List (Int × Nat)) (w : MainWindow)
    (hf : fixed w = startup_fixed) (hl : ∀ e ∈ l, e.2 < 12) :
    ∃ w2, open_all w l = some w2 := by
  induction l generalizing w with
  | nil => exact ⟨w, rfl⟩
  | cons e rest ih =>
    obtain ⟨k, var⟩ := e
    have hv := hl (k, var) (List.mem_cons_self _ _)
    obtain ⟨w0, h0⟩ := setVisible_total w var true (by rw [(fixed_facts w hf).1]; exact hv)
    have hf0 : fixed w0 = startup_fixed := by rw [setVisible_fixed w w0 var true h0, hf]
    obtain ⟨w1, h1⟩ := emit_sig_total w0 var true hf0 hv
    obtain ⟨w2, h2⟩ := ih w1 (by rw [emit_sig_fixed w0 w1 var true h1, hf0])
      (fun e he => hl e (List.mem_cons_of_mem _ he))
    exact ⟨w2, by simp only [open_all, h0, Option.some_bind, h1, h2]⟩

theorem show_each_total (l : List Nat) (w : MainWindow)
    (hf : fixed w = startup_fixed) (hl : ∀ s ∈ l, s < 12) :
    ∃ w2, show_each w l = some w2 := by
  induction l generalizing w with
  | nil => exact ⟨w, rfl⟩
  | cons s rest ih =>
    obtain ⟨w1, h1⟩ := setVisible_total w s true
      (by rw [(fixed_facts w hf).1]; exact hl s (List.mem_cons_self _ _))
    obtain ⟨w2, h2⟩ := ih w1 (by rw [setVisible_fixed w w1 s true h1, hf])
      (fun e he => hl e (List.mem_cons_of_mem _ he))
    exact ⟨w2, by simp only [show_each, h1, Option.some_bind, h2]⟩

theorem show_sub_widget_total (w : MainWindow) (p : Nat)
    (hf : fixed w = startup_fixed) (hp : p < 12) : ∃ w2, show_sub_widget w p = some w2 := by
  obtain ⟨hl1, -, -, hw, -⟩ := fixed_facts w hf
  obtain ⟨x, hx⟩ := get?_of_lt w.widgets p (by omega)
  obtain ⟨-, -, hC⟩ := startup_wires_facts p _ _ (hw p x hx)
  simp only [show_sub_widget, Option.bind_eq_bind, hx, Option.some_bind, Option.pure_def]
  split
  · exact show_each_total _ w hf (fun s hs => (hC s hs).1)
  · exact ⟨w, rfl⟩

theorem slot_change_wid_statu_total (w : MainWindow) (type : Int) (p : Nat)
    (hf : fixed w = startup_fixed) (hfind : QMap.find startup_map type = some p)
    (hp : p < 12) : ∃ w2, slot_change_wid_statu w type = some w2 := by
  obtain ⟨hl1, -, hmap, -, -⟩ := fixed_facts w hf
  obtain ⟨x, hx⟩ := get?_of_lt w.widgets p (by omega)
  simp only [slot_change_wid_statu, Option.bind_eq_bind, hmap, hfind, Option.some_bind, hx]
  split
  · exact setVisible_total w p false (by omega)
  · obtain ⟨w1, h1⟩ := setVisible_total w p true (by omega)
    obtain ⟨w2, h2⟩ := show_sub_widget_total w1 p
      (by rw [setVisible_fixed w w1 p true h1, hf]) hp
    exact ⟨w2, by simp only [h1, Option.some_bind, h2]⟩

/-- Where the five top-level types are in the window at start-up. -/
theorem top_level_wired :
    ∀ type ∈ top_level_types, ∃ p a subs, QMap.find startup_map type = some p ∧
      startup_wires.get? p = some (some a, subs) ∧ (p, a) ∈ bound_pairs := by
  intro type ht
  simp only [top_level_types, List.mem_cons, List.mem_singleton, List.not_mem_nil,
    or_false] at ht
  rcases ht with rfl | rfl | rfl | rfl | rfl
  · exact ⟨0, 6, _, rfl, rfl, by decide⟩
  · exact ⟨5, 7, _, rfl, rfl, by decide⟩
  · exact ⟨6, 8, _, rfl, rfl, by decide⟩
  · exact ⟨7, 9, _, rfl, rfl, by decide⟩
  · exact ⟨10, 10, _, rfl, rfl, by decide⟩

theorem trigger_widget_action_total (w : MainWindow) (type : Int)
    (hf : fixed w = startup_fixed) (ht : type ∈ top_level_types) :
    ∃ w2, trigger_widget_action w type = some w2 := by
  obtain ⟨p, a, subs, hfind, hwire, hm⟩ := top_level_wired type ht
  obtain ⟨hl1, hl2, hmap, hw, -⟩ := fixed_facts w hf
  obtain ⟨hA, -, -⟩ := startup_wires_facts p _ _ hwire
  obtain ⟨-, -, h11⟩ := hA a rfl
  have hp : p < 12 := by
    rcases Nat.lt_or_ge p startup_wires.length with hlt | hge
    · exact hlt
    · rw [List.get?_eq_none.mpr hge] at hwire
      cases hwire
  obtain ⟨x, hx⟩ := get?_of_lt w.widgets p (by omega)
  have hxa : x.action_ = some a := by
    have := hw p x hx
    rw [hwire] at this
    exact (congrArg Prod.fst (Option.some.inj this)).symm
  obtain ⟨as, hup⟩ : ∃ as, heap_update w.actions a QAction.activate = some as :=
    ⟨_, heap_update_lt w.actions a QAction.activate (by omega)⟩
  have hfa : fixed { w with actions := as } = startup_fixed := by
    rw [fixed_actions w as a _ hup activate_keeps, hf]
  obtain ⟨w1, h1⟩ := (fixed_arrangeable _ hfa).2.2.2.2 a
  obtain ⟨w2, h2⟩ := slot_change_wid_statu_total w1 type p
    (by rw [from_arranged_fixed _ w1 a h1, hfa]) hfind hp
  have hfind2 : QMap.find w.map_widgets_ type = some p := by rw [hmap, hfind]
  refine ⟨w2, ?_⟩
  simp only [trigger_widget_action, Option.bind_eq_bind, hfind2, Option.some_bind, hx,
    hxa, hup, h1, h2]

theorem startup_map_lt : ∀ e ∈ startup_map, e.2 < 12 := by
  decide

theorem UiOp.run_total (op : UiOp) (w : MainWindow)
    (hf : fixed w = startup_fixed) (ha : op.available = true) : ∃ w2, op.run w = some w2 := by
  have hmap := (fixed_facts w hf).2.2.1
  cases op with
  | menu_widget type =>
    exact trigger_widget_action_total w type hf (by simpa [UiOp.available] using ha)
  | menu_action action => exact (fixed_arrangeable w hf).2.2.2.2 action
  | close_widget p => exact close_total w p hf (by simpa [UiOp.available] using ha)
  | menu_close_all =>
    simp only [UiOp.run, hmap]
    exact close_all_total _ w hf startup_map_lt
  | menu_open_all =>
    simp only [UiOp.run, hmap]
    exact open_all_total _ w hf startup_map_lt
  | select_button p => cases ha
  | check_button p checked => cases ha
  | ok_button p => cases ha
  | cancel_button p => cases ha

theorem run_ops_total (ops : List UiOp) (w : MainWindow)
    (hf : fixed w = startup_fixed) (ha : ∀ op ∈ ops, op.available = true) :
    ∃ w2, run_ops w ops = some w2 := by
  induction ops generalizing w with
  | nil => exact ⟨w, rfl⟩
  | cons op rest ih =>
    obtain ⟨w1, h1⟩ := UiOp.run_total op w hf (ha op (List.mem_cons_self _ _))
    obtain ⟨w2, h2⟩ := ih w1 (by rw [UiOp.run_fixed op w w1 h1, hf])
      (fun o ho => ha o (List.mem_cons_of_mem _ ho))
    exact ⟨w2, by simp only [run_ops, h1, Option.some_bind, h2]⟩

theorem visibility_get_inv (w : MainWindow) (p : Nat) (b : Bool)
    (h : (visibility w).get? p = some b) :
    ∃ x, w.widgets.get? p = some x ∧ x.visible = b := by
  simpa [visibility, List.get?_eq_getElem?] using h

theorem show_each_keeps (l : List Nat) (w w2 : MainWindow) (p : Nat)
    (hv : (visibility w).get? p = some true) (h : show_each w l = some w2) :
    (visibility w2).get? p = some true ∧ checks w2 = checks w := by
  induction l generalizing w with
  | nil =>
    cases h
    exact ⟨hv, rfl⟩
  | cons s rest ih =>
    simp only [show_each, Option.bind_eq_some] at h
    obtain ⟨w1, h1, h3⟩ := h
    obtain ⟨hfl, hs⟩ := setVisible_flags w w1 s true h1
    simp only [flags, Prod.mk.injEq] at hfl
    have hv1 : (visibility w1).get? p = some true := by
      rw [hfl.1]
      by_cases hps : p = s
      · subst hps
        exact get?_set_same _ p true (by simpa [visibility] using hs)
      · rw [get?_set_other _ s p true hps]
        exact hv
    obtain ⟨h4, h5⟩ := ih w1 hv1 h3
    exact ⟨h4, by rw [h5, hfl.2]⟩

/-- One call of `slot_change_wid_statu` flips the visible flag of the widget of the
type and leaves every action as it is. -/
theorem slot_change_wid_statu_flips (w w2 : MainWindow) (type : Int)
    (h : slot_change_wid_statu w type = some w2) :
    checks w2 = checks w ∧
    ∃ p x x2, QMap.find w.map_widgets_ type = some p ∧ w.widgets.get? p = some x ∧
      w2.widgets.get? p = some x2 ∧ x2.visible = !x.visible := by
  obtain ⟨p, x, hp, hx, hcase⟩ := slot_change_wid_statu_cases w w2 type h
  rcases hcase with ⟨hv, h4⟩ | ⟨hv, w1, h4, h5⟩
  · obtain ⟨hfl, hlt⟩ := setVisible_flags w w2 p false h4
    simp only [flags, Prod.mk.injEq] at hfl
    have hg : (visibility w2).get? p = some false := by
      rw [hfl.1]
      exact get?_set_same _ p false (by simpa [visibility] using hlt)
    obtain ⟨x2, hx2, hv2⟩ := visibility_get_inv w2 p false hg
    exact ⟨hfl.2, p, x, x2, hp, hx, hx2, by rw [hv2, hv]; rfl⟩
  · obtain ⟨hfl, hlt⟩ := setVisible_flags w w1 p true h4
    simp only [flags, Prod.mk.injEq] at hfl
    have hg : (visibility w1).get? p = some true := by
      rw [hfl.1]
      exact get?_set_same _ p true (by simpa [visibility] using hlt)
    have hk : (visibility w2).get? p = some true ∧ checks w2 = checks w1 := by
      simp only [show_sub_widget, Option.bind_eq_bind, Option.bind_eq_some,
        Option.pure_def] at h5
      obtain ⟨x1, -, h5⟩ := h5
      split at h5
      · exact show_each_keeps _ w1 w2 p hg h5
      · cases h5
        exact ⟨hg, rfl⟩
    obtain ⟨x2, hx2, hv2⟩ := visibility_get_inv w2 p true hk.1
    exact ⟨by rw [hk.2, hfl.2], p, x, x2, hp, hx, hx2, by rw [hv2, hv]; rfl⟩

theorem bound_pairs_lt : ∀ e ∈ bound_pairs, e.1 < 12 ∧ e.2 < 11 := by
  decide

/-- Two calls of `slot_change_wid_statu` in a row leave the widget of the type with
the visible flag it had. -/
theorem slot_change_wid_statu_twice (w w1 w2 : MainWindow) (type : Int)
    (h1 : slot_change_wid_statu w type = some w1)
    (h2 : slot_change_wid_statu w1 type = some w2) :
    ∃ p x x2, QMap.find w.map_widgets_ type = some p ∧ w.widgets.get? p = some x ∧
      w2.widgets.get? p = some x2 ∧ x2.visible = x.visible := by
  obtain ⟨-, p, x, x1, hp, hx, hx1, hv1⟩ := slot_change_wid_statu_flips w w1 type h1
  obtain ⟨-, q, y, x2, hq, hy, hx2, hv2⟩ := slot_change_wid_statu_flips w1 w2 type h2
  have hmap : w1.map_widgets_ = w.map_widgets_ :=
    congrArg (fun t => t.2.2.2.1) (slot_change_wid_statu_fixed w w1 type h1)
  rw [hmap, hp] at hq
  cases hq
  rw [hx1] at hy
  cases hy
  exact ⟨p, x, x2, hp, hx, hx2, by rw [hv2, hv1, Bool.not_not]⟩

theorem slot_change_wid_statu_twice_total (w : MainWindow) (type : Int)
    (hf : fixed w = startup_fixed) (ht : type ∈ top_level_types) :
    ∃ w1 w2, slot_change_wid_statu w type = some w1 ∧
      slot_change_wid_statu w1 type = some w2 := by
  obtain ⟨p, a, subs, hfind, -, hm⟩ := top_level_wired type ht
  have hp := (bound_pairs_lt (p, a) hm).1
  obtain ⟨w1, h1⟩ := slot_change_wid_statu_total w type p hf hfind hp
  obtain ⟨w2, h2⟩ := slot_change_wid_statu_total w1 type p
    (by rw [slot_change_wid_statu_fixed w w1 type h1, hf]) hfind hp
  exact ⟨w1, w2, h1, h2⟩

/-- Toggling the menu action of a widget flips the visible flag of the widget. -/
theorem trigger_widget_action_flips (w w2 : MainWindow) (type : Int)
    (h : trigger_widget_action w type = some w2) :
    ∃ p x x2, QMap.find w.map_widgets_ type = some p ∧ w.widgets.get? p = some x ∧
      w2.widgets.get? p = some x2 ∧ x2.visible = !x.visible := by
  simp only [trigger_widget_action, Option.bind_eq_bind, Option.bind_eq_some] at h
  obtain ⟨p, hp, x, hx, a, -, as, has, w1, h1, h3⟩ := h
  obtain ⟨-, p1, x1, x2, hp1, hx1, hx2, hv⟩ := slot_change_wid_statu_flips w1 w2 type h3
  have hfx : fixed w1 = fixed w := by
    rw [from_arranged_fixed _ w1 a h1]
    exact fixed_actions w as a _ has activate_keeps
  have hmap : w1.map_widgets_ = w.map_widgets_ := congrArg (fun t => t.2.2.2.1) hfx
  rw [hmap, hp] at hp1
  cases hp1
  have hfl := from_arranged_flags _ w1 a h1
  simp only [flags, Prod.mk.injEq] at hfl
  have hg := visibility_get w1 p x1 hx1
  rw [hfl.1] at hg
  have hg2 : (visibility w).get? p = some x1.visible := hg
  rw [visibility_get w p x hx] at hg2
  exact ⟨p, x, x2, hp, hx, hx2, by rw [hv, ← Option.some.inj hg2]⟩

/-- The invariant, read at one top-level type. -/
theorem synced_at (w : MainWindow) (hf : fixed w = startup_fixed) (hs : synced w)
    (type : ElementType) (ht : type ∈ top_level_types) : checked_iff_visible w type := by
  obtain ⟨p, a, subs, hfind, hwire, hm⟩ := top_level_wired type ht
  obtain ⟨hl1, hl2, hmap, hw, -⟩ := fixed_facts w hf
  obtain ⟨hp, ha⟩ := bound_pairs_lt (p, a) hm
  obtain ⟨x, hx⟩ := get?_of_lt w.widgets p (by omega)
  obtain ⟨act, hact⟩ := get?_of_lt w.actions a (by omega)
  have hxa : x.action_ = some a := by
    have := hw p x hx
    rw [hwire] at this
    exact (congrArg Prod.fst (Option.some.inj this)).symm
  have heq : x.visible = act.checked := by
    have := hs (p, a) hm
    rw [visibility_get w p x hx, checks_get w a act hact] at this
    exact Option.some.inj this
  exact ⟨p, x, a, act, by rw [hmap, hfind], hx, hxa, hact, by rw [heq]⟩

/-- The window `init_window` ends in has the start-up wiring and satisfies the
invariant, with every widget hidden and every action unchecked. -/
theorem init_window_synced (env : Env) :
    ∃ w, init_window env = some w ∧ fixed w = startup_fixed ∧ synced w ∧
      (∀ x ∈ w.widgets, x.visible = false) ∧ (∀ a ∈ w.actions, a.checked = false) := by
  obtain ⟨w, hw, hf, hv, hc⟩ := init_window_fixed env
  refine ⟨w, hw, hf, ?_, fun x hx => ?_, fun a ha => ?_⟩
  · unfold synced
    rw [hv, hc]
    unfold sync_lists
    decide
  · have : x.visible ∈ visibility w := List.mem_map.mpr ⟨x, hx, rfl⟩
    rw [hv] at this
    exact (List.mem_replicate.mp this).2
  · have : a.checked ∈ checks w := List.mem_map.mpr ⟨a, ha, rfl⟩
    rw [hc] at this
    exact (List.mem_replicate.mp this).2

/-- C25: the window `init_window` builds has every widget hidden and every action
unchecked, and in every state reached from it by user operations (toggling the menu
action of a top-level widget, the arrangement actions, closing a widget, close-all,
open-all, and the selection list with its buttons) the action bound to each of the
five top-level widgets is checked if and only if the widget is visible.  The
operations the claim names (and the arrangement actions) always return from such a
state, so these states exist.  Toggling the menu action flips the visible flag of
the widget through `slot_change_wid_statu`, which itself flips the flag and leaves
every action as it is; the check state moves with it because Qt toggles the
checkable action before the slot runs.  Two calls of `slot_change_wid_statu` in a
row give the widget the visible flag it had, and from every reached state both
calls return for each of the five types. -/
theorem C25_action_checked_iff_widget_visible (env : Env) :
    ∃ w0, init_window env = some w0 ∧
      (∀ x ∈ w0.widgets, x.visible = false) ∧ (∀ a ∈ w0.actions, a.checked = false) ∧
      (∀ ops w, run_ops w0 ops = some w →
        ∀ type ∈ top_level_types, checked_iff_visible w type) ∧
      (∀ ops, (∀ op ∈ ops, op.available = true) → ∃ w, run_ops w0 ops = some w) ∧
      (∀ w w2 type, slot_change_wid_statu w type = some w2 →
        checks w2 = checks w ∧
        ∃ p x x2, QMap.find w.map_widgets_ type = some p ∧ w.widgets.get? p = some x ∧
          w2.widgets.get? p = some x2 ∧ x2.visible = !x.visible) ∧
      (∀ w w2 type, trigger_widget_action w type = some w2 →
        ∃ p x x2, QMap.find w.map_widgets_ type = some p ∧ w.widgets.get? p = some x ∧
          w2.widgets.get? p = some x2 ∧ x2.visible = !x.visible) ∧
      (∀ w w1 w2 type, slot_change_wid_statu w type = some w1 →
        slot_change_wid_statu w1 type = some w2 →
        ∃ p x x2, QMap.find w.map_widgets_ type = some p ∧ w.widgets.get? p = some x ∧
          w2.widgets.get? p = some x2 ∧ x2.visible = x.visible) ∧
      (∀ ops w, run_ops w0 ops = some w → ∀ type ∈ top_level_types,
        ∃ w1 w2, slot_change_wid_statu w type = some w1 ∧
          slot_change_wid_statu w1 type = some w2) := by
  obtain ⟨w0, hw, hf, hs, hv, hc⟩ := init_window_synced env
  refine ⟨w0, hw, hv, hc, fun ops w h type ht => ?_, fun ops ha => run_ops_total ops w0 hf ha,
    fun w w2 type h => slot_change_wid_statu_flips w w2 type h,
    fun w w2 type h => trigger_widget_action_flips w w2 type h,
    fun w w1 w2 type h1 h2 => slot_change_wid_statu_twice w w1 w2 type h1 h2,
    fun ops w h type ht => ?_⟩
  · exact synced_at w (by rw [run_ops_fixed ops w0 w h, hf])
      (run_ops_synced ops w0 w hf hs h) type ht
  · exact slot_change_wid_statu_twice_total w type (by rw [run_ops_fixed ops w0 w h, hf]) ht

theorem C25_action_checked_iff_widget_visible_witness :
    ∃ w0 w, init_window env_invalid = some w0 ∧
      run_ops w0 [.menu_widget SYSTEM_STATE, .menu_open_all, .close_widget 5, .menu_action 4,
        .menu_widget FIREPOWER_UNIT, .menu_close_all, .menu_widget CHAIN_OF_COMMAND] = some w ∧
      ∀ type ∈ top_level_types, checked_iff_visible w type := by
  obtain ⟨w0, h0, -, -, hinv, htot, -⟩ := C25_action_checked_iff_widget_visible env_invalid
  obtain ⟨w, hw⟩ := htot [.menu_widget SYSTEM_STATE, .menu_open_all, .close_widget 5,
    .menu_action 4, .menu_widget FIREPOWER_UNIT, .menu_close_all,
    .menu_widget CHAIN_OF_COMMAND] (by decide)
  exact ⟨w0, w, h0, hw, hinv _ w hw⟩

end EquipDisplay
